import Mathlib

/-!
# Machine provisioning and state-server quorum maintenance (juju-core, package state)

A shallow embedding of `state/addmachine.go`: template validation, the three
machine topologies, the quorum update built by `maintainStateServersOps` and the
scaling entry point `EnsureAvailability`.

Stateful code is written in explicit state-passing style over a `DB` value (the
stored state-servers document, the sequence counters and a log of every call made
to a collaborator).  The receiver `st *State` becomes a record of collaborator
behaviours.  A returned Go `error` is an `Option Error`, a `(value, error)` pair
an `Except Error value`.
-/

namespace Juju

/-! ## Data model -/

/-- Lifecycle state of an entity (`state.Life`). -/
inductive Life where
  | Alive
  | Dying
  | Dead
  deriving DecidableEq, Repr

/-- Go type `MachineJob` (an integer type); the two jobs named in the source are
constructors of their own, any other value is `other n`. -/
inductive MachineJob where
  | JobHostUnits
  | JobManageEnviron
  | other (n : Nat)
  deriving DecidableEq, Repr

/-- How an error value is classified by the callers in this file: a plain
`fmt.Errorf` value, a not-found error (`errors.IsNotFoundError`), the store's
`txn.ErrAborted`, or a run-time panic (which is not a returned value in Go and is
kept apart from every returned error). -/
inductive ErrKind where
  | plain
  | notFound
  | aborted
  | panic
  deriving DecidableEq, Repr

/-- An error value: its message and its classification. -/
structure Error where
  msg : String
  kind : ErrKind
  deriving DecidableEq, Repr

/-- Go `fmt.Errorf` applied to an already formatted message. -/
def Errorf (msg : String) : Error := { msg := msg, kind := ErrKind.plain }

/-- Modelled from the spec: `txn.ErrAborted`, the store's report that an assertion of
a submitted batch did not hold (the transactional store is not under src/). -/
def ErrAborted : Error := { msg := "transaction aborted", kind := ErrKind.aborted }

/-- The run-time panic of `make` with a negative capacity. -/
def makeslicePanic : Error := { msg := "makeslice: cap out of range", kind := ErrKind.panic }

/-- Modelled from the spec: `constraints.Value` (package constraints is not under
src/): every field is optional. -/
structure Value where
  Arch : Option String
  Container : Option String
  CpuCores : Option Nat
  CpuPower : Option Nat
  Mem : Option Nat
  RootDisk : Option Nat
  Tags : Option (List String)
  deriving DecidableEq, Repr

/-- The zero `constraints.Value`. -/
def Value.zero : Value :=
  { Arch := none, Container := none, CpuCores := none, CpuPower := none,
    Mem := none, RootDisk := none, Tags := none }

/-- Modelled from the spec: `Value.WithFallbacks` (package constraints is not under
src/): template values take precedence, unset fields fall back to the defaults. -/
def Value.WithFallbacks (v v0 : Value) : Value :=
  { Arch := v.Arch.orElse (fun _ => v0.Arch),
    Container := v.Container.orElse (fun _ => v0.Container),
    CpuCores := v.CpuCores.orElse (fun _ => v0.CpuCores),
    CpuPower := v.CpuPower.orElse (fun _ => v0.CpuPower),
    Mem := v.Mem.orElse (fun _ => v0.Mem),
    RootDisk := v.RootDisk.orElse (fun _ => v0.RootDisk),
    Tags := v.Tags.orElse (fun _ => v0.Tags) }

/-- The fields of `instance.HardwareCharacteristics` read by `addMachineOps`. -/
structure HardwareCharacteristics where
  Arch : Option String
  Mem : Option Nat
  RootDisk : Option Nat
  CpuCores : Option Nat
  CpuPower : Option Nat
  Tags : Option (List String)
  deriving DecidableEq, Repr

/-- The zero `instance.HardwareCharacteristics`. -/
def HardwareCharacteristics.zero : HardwareCharacteristics :=
  { Arch := none, Mem := none, RootDisk := none, CpuCores := none, CpuPower := none,
    Tags := none }

/-- Go struct `MachineTemplate`. -/
structure MachineTemplate where
  Series : String
  Constraints : Value
  Jobs : List MachineJob
  NoVote : Bool
  Addresses : List String
  InstanceId : String
  HardwareCharacteristics : HardwareCharacteristics
  Nonce : String
  Dirty : Bool
  principals : List String
  deriving DecidableEq, Repr

/-- The zero `MachineTemplate`, returned next to every validation error. -/
def MachineTemplate.zero : MachineTemplate :=
  { Series := "", Constraints := Value.zero, Jobs := [], NoVote := false, Addresses := [],
    InstanceId := "", HardwareCharacteristics := HardwareCharacteristics.zero, Nonce := "",
    Dirty := false, principals := [] }

/-- The fields of `machineDoc` that this file sets or reads. -/
structure machineDoc where
  Id : String
  Series : String
  ContainerType : String
  Jobs : List MachineJob
  Clean : Bool
  Principals : List String
  Life : Life
  InstanceId : String
  Nonce : String
  Addresses : List String
  NoVote : Bool
  SupportedContainers : List String
  SupportedContainersKnown : Bool
  deriving DecidableEq, Repr

/-- A machine handle: `newMachine(st, mdoc)`. -/
structure Machine where
  doc : machineDoc
  deriving DecidableEq, Repr

/-- Go struct `instanceData` as filled in by `addMachineOps`. -/
structure instanceData where
  Id : String
  InstanceId : String
  Arch : Option String
  Mem : Option Nat
  RootDisk : Option Nat
  CpuCores : Option Nat
  CpuPower : Option Nat
  Tags : Option (List String)
  deriving DecidableEq, Repr

/-- The singleton state-servers document. -/
structure StateServerInfo where
  MachineIds : List String
  VotingMachineIds : List String
  deriving DecidableEq, Repr

/-- The state-servers document before any state server exists. -/
def StateServerInfo.empty : StateServerInfo := { MachineIds := [], VotingMachineIds := [] }

/-! ## Transaction operations -/

/-- A document handed to the store in the `Insert` field of an operation. -/
inductive Doc where
  | machine (d : machineDoc)
  | instanceData (d : instanceData)
  | containerRef (id : String) (children : List String)
  | constraints (cons : Value)
  | status (s : String)
  deriving DecidableEq, Repr

/-- The `Assert` field of an operation.  `sizes` is the document
`D{{"$and", []D{ {{f1, D{{"$size", n1}}}}, ... }}}` with its entries in order. -/
inductive Assertion where
  | none
  | DocMissing
  | DocExists
  | isAliveDoc
  | sizes (l : List (String × Nat))
  deriving DecidableEq, Repr

/-- One element `{op, D{{field, D{{"$each", ids}}}}}` of an update document
(a `bson.D` is an ordered list of such elements; keys may repeat). -/
structure UpdateElem where
  op : String
  field : String
  each : List String
  deriving DecidableEq, Repr

/-- Go struct `txn.Op`. -/
structure Op where
  C : String
  Id : String
  Assert : Assertion
  Insert : Option Doc
  Update : List UpdateElem
  deriving DecidableEq, Repr

/-- Every call made to a collaborator, in the order made. -/
inductive Event where
  | environment
  | refresh
  | environConstraints
  | stateServerInfo
  | machine (id : String)
  | precheckInstance (series : String) (cons : Value)
  | sequence (name : String) (result : Option Nat)
  | runTransaction (ops : List Op)
  deriving DecidableEq, Repr

/-- The contents of the store that this file reads and writes, with the log of
collaborator calls. -/
structure DB where
  stateServers : StateServerInfo
  sequences : String → Nat
  log : List Event

/-- The store before anything was added: no state server, every counter at zero. -/
def DB.empty : DB := { stateServers := StateServerInfo.empty, sequences := fun _ => 0, log := [] }

/-- Appends an event to the log. -/
def DB.record (db : DB) (e : Event) : DB := { db with log := db.log ++ [e] }

/-- The batches handed to `runTransaction` so far, oldest first. -/
def txnsOf : List Event → List (List Op)
  | [] => []
  | Event.runTransaction ops :: es => ops :: txnsOf es
  | _ :: es => txnsOf es

/-- The sequence numbers handed out so far, with the counter name, oldest first. -/
def allocsOf : List Event → List (String × Nat)
  | [] => []
  | Event.sequence name (some n) :: es => (name, n) :: allocsOf es
  | _ :: es => allocsOf es

/-- The receiver `st *State`: the behaviour of every collaborator that is not under
src/ and whose outcome does not follow from `DB`. -/
structure State where
  environ : Except Error Life
  refreshed : Except Error Life
  environConstraints : Except Error Value
  precheck : String → Value → Option Error
  sequenceErr : String → Nat → Option Error
  stateServerInfoErr : Option Error
  machine : String → Except Error Machine
  txnErr : List Op → Option Error

/-! ## Collaborators that are not under src/ -/

/-- Modelled from the spec: `st.Environment()` followed by `env.Life()` (the
environment handle is not under src/): reads the environment document. -/
def State.Environment (st : State) (db : DB) : Except Error Life × DB :=
  (st.environ, db.record Event.environment)

/-- Modelled from the spec: `env.Refresh()` followed by `env.Life()` (the environment
handle is not under src/): reads the environment document again. -/
def State.Refresh (st : State) (db : DB) : Except Error Life × DB :=
  (st.refreshed, db.record Event.refresh)

/-- Modelled from the spec: `st.EnvironConstraints()` (not under src/): reads the
environment-wide default constraints. -/
def State.EnvironConstraints (st : State) (db : DB) : Except Error Value × DB :=
  (st.environConstraints, db.record Event.environConstraints)

/-- Modelled from the spec: `st.precheckInstance` (not under src/): asks the instance
precheck capability, which vetoes with an error or accepts. -/
def State.precheckInstance (st : State) (series : String) (cons : Value) (db : DB) :
    Option Error × DB :=
  (st.precheck series cons, db.record (Event.precheckInstance series cons))

/-- Modelled from the spec: `st.sequence` (not under src/): a counter per name that
starts at 0; a successful call returns the current value and increments the counter,
a failed call leaves it as it was. -/
def State.sequence (st : State) (name : String) (db : DB) : Except Error Nat × DB :=
  match st.sequenceErr name (db.sequences name) with
  | some e => (Except.error e, db.record (Event.sequence name none))
  | none =>
    (Except.ok (db.sequences name),
      { stateServers := db.stateServers,
        sequences := fun k => if k = name then db.sequences name + 1 else db.sequences k,
        log := db.log ++ [Event.sequence name (some (db.sequences name))] })

/-- Modelled from the spec: `st.StateServerInfo()` (not under src/): reads the stored
state-servers document. -/
def State.StateServerInfo (st : State) (db : DB) : Except Error Juju.StateServerInfo × DB :=
  match st.stateServerInfoErr with
  | some e => (Except.error e, db.record Event.stateServerInfo)
  | none => (Except.ok db.stateServers, db.record Event.stateServerInfo)

/-- Modelled from the spec: `st.Machine(id)` (not under src/): loads a machine, or
fails (with a not-found error when it is absent). -/
def State.Machine (st : State) (id : String) (db : DB) : Except Error Juju.Machine × DB :=
  (st.machine id, db.record (Event.machine id))

/-- Modelled from the spec: `Machine.SupportedContainers()` (not under src/): the
list and whether it is known. -/
def Machine.SupportedContainers (m : Machine) : List String × Bool :=
  (m.doc.SupportedContainers, m.doc.SupportedContainersKnown)

/-- Names of the collections (`st.machines.Name` and so on; not under src/). -/
def machinesC : String := "machines"

/-- Name of the state-servers collection. -/
def stateServersC : String := "stateServers"

/-- Name of the instance-data collection. -/
def instanceDataC : String := "instanceData"

/-- Name of the container-references collection. -/
def containerRefsC : String := "containerRefs"

/-- Name of the constraints collection. -/
def constraintsC : String := "constraints"

/-- Name of the statuses collection. -/
def statusesC : String := "statuses"

/-- Name of the environments collection. -/
def environmentsC : String := "environments"

/-- Key of the singleton documents of the environment (`environGlobalKey`). -/
def environGlobalKey : String := "e"

/-- Global key of a machine (`machineGlobalKey`). -/
def machineGlobalKey (id : String) : String := "m#" ++ id

/-- Modelled from the spec: `env.assertAliveOp()` (not under src/): the assertion
that the environment's own lifecycle state is alive. -/
def assertAliveOp : Op :=
  { C := environmentsC, Id := environGlobalKey, Assert := Assertion.isAliveDoc,
    Insert := none, Update := [] }

/-- Modelled from the spec: `createConstraintsOp` (not under src/): insert of the
constraints sub-document. -/
def createConstraintsOp (key : String) (cons : Value) : Op :=
  { C := constraintsC, Id := key, Assert := Assertion.DocMissing,
    Insert := some (Doc.constraints cons), Update := [] }

/-- Modelled from the spec: `createStatusOp` (not under src/): insert of the initial
status sub-document. -/
def createStatusOp (key : String) (status : String) : Op :=
  { C := statusesC, Id := key, Assert := Assertion.DocMissing,
    Insert := some (Doc.status status), Update := [] }

/-- Status of a machine that was just added (`params.StatusPending`). -/
def StatusPending : String := "pending"

/-- Modelled from the spec: `st.insertNewContainerRefOp` (not under src/): insert of a
machine's container-reference document, which must not exist yet. -/
def insertNewContainerRefOp (machineId : String) (children : List String) : Op :=
  { C := containerRefsC, Id := machineId, Assert := Assertion.DocMissing,
    Insert := some (Doc.containerRef machineId children), Update := [] }

/-- Modelled from the spec: `st.addChildToContainerRefOp` (not under src/): appends
the child id to the parent's container-reference document, which must still exist. -/
def addChildToContainerRefOp (parentId childId : String) : Op :=
  { C := containerRefsC, Id := parentId, Assert := Assertion.DocExists,
    Insert := none, Update := [{ op := "$addToSet", field := "children", each := [childId] }] }

/-- The add-to-set semantic: every value that is not yet present is appended. -/
def addToSet (xs ys : List String) : List String :=
  ys.foldl (fun acc y => if y ∈ acc then acc else acc ++ [y]) xs

/-- A field of the state-servers document by its stored name. -/
def StateServerInfo.field (info : StateServerInfo) (name : String) : Option (List String) :=
  if name = "machineids" then some info.MachineIds
  else if name = "votingmachineids" then some info.VotingMachineIds
  else none

/-- Whether an assertion on the state-servers document holds. -/
def Assertion.holds (a : Assertion) (info : StateServerInfo) : Bool :=
  match a with
  | Assertion.sizes l => l.all (fun fs => (info.field fs.1).map List.length == some fs.2)
  | Assertion.DocMissing => false
  | _ => true

/-- Modelled from the spec: the effect of one element of an update document on the
state-servers document: the new ids are added to the named set. -/
def applyUpdateElem (info : StateServerInfo) (u : UpdateElem) : StateServerInfo :=
  if u.op = "$addToSet" then
    if u.field = "machineids" then { info with MachineIds := addToSet info.MachineIds u.each }
    else if u.field = "votingmachineids" then
      { info with VotingMachineIds := addToSet info.VotingMachineIds u.each }
    else info
  else info

/-- Whether an operation is on the state-servers document. -/
def Op.onStateServers (op : Op) : Bool := op.C == stateServersC && op.Id == environGlobalKey

/-- Modelled from the spec: effect of an operation on the state-servers document: an
operation on another document leaves it as it is. -/
def applyOp (info : StateServerInfo) (op : Op) : StateServerInfo :=
  if op.onStateServers then op.Update.foldl applyUpdateElem info else info

/-- Modelled from the spec: `st.runTransaction` (not under src/): the batch is
rejected as a unit when the store fails or aborts it for a reason outside this model
(`txnErr`) or when an assertion on the state-servers document does not hold;
otherwise all of it is applied. -/
def State.runTransaction (st : State) (ops : List Op) (db : DB) : Option Error × DB :=
  match st.txnErr ops with
  | some e => (some e, db.record (Event.runTransaction ops))
  | none =>
    if ops.all (fun op => !op.onStateServers || op.Assert.holds db.stateServers) then
      (none,
        { stateServers := ops.foldl applyOp db.stateServers,
          sequences := db.sequences,
          log := db.log ++ [Event.runTransaction ops] })
    else (some ErrAborted, db.record (Event.runTransaction ops))

/-- Modelled from the spec: `onAbort` (not under src/): an aborted transaction is
reported as the given error, any other failure as it is. -/
def onAbort (txnErr err : Error) : Error :=
  if txnErr.kind = ErrKind.aborted then err else txnErr

/-- Modelled from the spec: `errors.IsNotFoundError` (not under src/). -/
def IsNotFoundError (err : Option Error) : Bool :=
  match err with
  | some e => e.kind == ErrKind.notFound
  | none => false

/-- Go `fmt.Errorf(format + ": %v", err)`: a plain error whose message is the
context, a colon and the message of `err`. -/
def wrapf (context : String) (err : Error) : Error := Errorf (context ++ ": " ++ err.msg)

/-- Modelled from the spec: `MachineJob.String` (not under src/). -/
def MachineJob.String : MachineJob → String
  | MachineJob.JobHostUnits => "JobHostUnits"
  | MachineJob.JobManageEnviron => "JobManageEnviron"
  | MachineJob.other n => "<unknown job " ++ toString n ++ ">"

/-! ## state/addmachine.go -/

/-- The error `errStateServerNotAllowed`. -/
def errStateServerNotAllowed : Error :=
  Errorf "state server jobs specified without calling EnsureAvailability"

/-- The error returned when the environment is found not alive. -/
def errNotAlive : Error := Errorf "environment is no longer alive"

/-- Go `hasJob`. -/
def hasJob : List MachineJob → MachineJob → Bool
  | [], _ => false
  | j :: js, job => if j = job then true else hasJob js job

/-- The loop of `effectiveMachineTemplate` over `p.Jobs`: the first job that is
already in the set of jobs seen, if any. -/
def duplicateJob : List MachineJob → List MachineJob → Option MachineJob
  | [], _ => none
  | j :: js, jset => if j ∈ jset then some j else duplicateJob js (j :: jset)

/-- Go `(*State).effectiveMachineTemplate`. -/
def State.effectiveMachineTemplate (st : State) (p : MachineTemplate)
    (allowStateServer : Bool) (db : DB) : Except Error MachineTemplate × DB :=
  if p.Series = "" then (Except.error (Errorf "no series specified"), db)
  else
    match st.EnvironConstraints db with
    | (Except.error err, db1) => (Except.error err, db1)
    | (Except.ok cons, db1) =>
      let p1 : MachineTemplate :=
        { p with Constraints := { p.Constraints.WithFallbacks cons with Container := none } }
      if p1.Jobs.length = 0 then (Except.error (Errorf "no jobs specified"), db1)
      else
        match duplicateJob p1.Jobs [] with
        | some j => (Except.error (Errorf ("duplicate job: " ++ j.String)), db1)
        | none =>
          if MachineJob.JobManageEnviron ∈ p1.Jobs ∧ allowStateServer = false then
            (Except.error errStateServerNotAllowed, db1)
          else if p1.InstanceId ≠ "" then
            if p1.Nonce = "" then
              (Except.error (Errorf "cannot add a machine with an instance id and no nonce"), db1)
            else (Except.ok p1, db1)
          else if p1.Nonce ≠ "" then
            (Except.error (Errorf "cannot specify a nonce without an instance id"), db1)
          else (Except.ok p1, db1)

/-- Go `machineDocForTemplate`. -/
def machineDocForTemplate (template : MachineTemplate) (id : String) : machineDoc :=
  { Id := id,
    Series := template.Series,
    ContainerType := "",
    Jobs := template.Jobs,
    Clean := !template.Dirty,
    Principals := template.principals,
    Life := Life.Alive,
    InstanceId := template.InstanceId,
    Nonce := template.Nonce,
    Addresses := template.Addresses,
    NoVote := template.NoVote,
    SupportedContainers := [],
    SupportedContainersKnown := false }

/-- Go `(*State).insertNewMachineOps`. -/
def insertNewMachineOps (mdoc : machineDoc) (cons : Value) : List Op :=
  [ { C := machinesC, Id := mdoc.Id, Assert := Assertion.DocMissing,
      Insert := some (Doc.machine mdoc), Update := [] },
    createConstraintsOp (machineGlobalKey mdoc.Id) cons,
    createStatusOp (machineGlobalKey mdoc.Id) StatusPending ]

/-- Decimal form of a sequence number (Go `strconv.Itoa`). -/
def Itoa (n : Nat) : String := toString n

/-- Go `(*State).addMachineOps`. -/
def State.addMachineOps (st : State) (template : MachineTemplate) (db : DB) :
    Except Error (machineDoc × List Op) × DB :=
  match st.effectiveMachineTemplate template true db with
  | (Except.error err, db1) => (Except.error err, db1)
  | (Except.ok template, db1) =>
    match (if template.InstanceId = "" then
        st.precheckInstance template.Series template.Constraints db1 else (none, db1)) with
    | (some err, db2) => (Except.error err, db2)
    | (none, db2) =>
      match st.sequence "machine" db2 with
      | (Except.error err, db3) => (Except.error err, db3)
      | (Except.ok seq, db3) =>
        let mdoc := machineDocForTemplate template (Itoa seq)
        let ops := insertNewMachineOps mdoc template.Constraints ++
          [insertNewContainerRefOp mdoc.Id []]
        let ops := if template.InstanceId ≠ "" then
            ops ++ [{ C := instanceDataC, Id := mdoc.Id, Assert := Assertion.DocMissing,
                      Insert := some (Doc.instanceData
                        { Id := mdoc.Id,
                          InstanceId := template.InstanceId,
                          Arch := template.HardwareCharacteristics.Arch,
                          Mem := template.HardwareCharacteristics.Mem,
                          RootDisk := template.HardwareCharacteristics.RootDisk,
                          CpuCores := template.HardwareCharacteristics.CpuCores,
                          CpuPower := template.HardwareCharacteristics.CpuPower,
                          Tags := template.HardwareCharacteristics.Tags }),
                      Update := [] }]
          else ops
        (Except.ok (mdoc, ops), db3)

/-- Go `(*Machine).supportsContainerType`. -/
def Machine.supportsContainerType (m : Machine) (ctype : String) : Bool :=
  match m.SupportedContainers with
  | (_, false) => true
  | (supportedContainers, true) => supportedContainers.any (fun ct => ct == ctype)

/-- Go `(*State).newContainerId`. -/
def State.newContainerId (st : State) (parentId : String) (containerType : String) (db : DB) :
    Except Error String × DB :=
  match st.sequence ("machine" ++ parentId ++ containerType ++ "Container") db with
  | (Except.error err, db1) => (Except.error err, db1)
  | (Except.ok seq, db1) => (Except.ok (parentId ++ "/" ++ containerType ++ "/" ++ Itoa seq), db1)

/-- Go `(*State).addMachineInsideMachineOps`. -/
def State.addMachineInsideMachineOps (st : State) (template : MachineTemplate)
    (parentId : String) (containerType : String) (db : DB) :
    Except Error (machineDoc × List Op) × DB :=
  if template.InstanceId ≠ "" then
    (Except.error (Errorf "cannot specify instance id for a new container"), db)
  else
    match st.effectiveMachineTemplate template false db with
    | (Except.error err, db1) => (Except.error err, db1)
    | (Except.ok template, db1) =>
      if containerType = "" then (Except.error (Errorf "no container type specified"), db1)
      else
        match st.Machine parentId db1 with
        | (Except.error err, db2) => (Except.error err, db2)
        | (Except.ok parent, db2) =>
          if parent.supportsContainerType containerType = false then
            (Except.error (Errorf ("machine " ++ parentId ++ " cannot host " ++ containerType
              ++ " containers")), db2)
          else
            match st.newContainerId parentId containerType db2 with
            | (Except.error err, db3) => (Except.error err, db3)
            | (Except.ok newId, db3) =>
              let mdoc : machineDoc :=
                { machineDocForTemplate template newId with ContainerType := containerType }
              (Except.ok (mdoc, insertNewMachineOps mdoc template.Constraints ++
                [addChildToContainerRefOp parentId mdoc.Id,
                 insertNewContainerRefOp mdoc.Id []]), db3)

/-- Go `(*State).addMachineInsideNewMachineOps`. -/
def State.addMachineInsideNewMachineOps (st : State) (template parentTemplate : MachineTemplate)
    (containerType : String) (db : DB) : Except Error (machineDoc × List Op) × DB :=
  if template.InstanceId ≠ "" ∨ parentTemplate.InstanceId ≠ "" then
    (Except.error (Errorf "cannot specify instance id for a new container"), db)
  else
    match st.sequence "machine" db with
    | (Except.error err, db1) => (Except.error err, db1)
    | (Except.ok seq, db1) =>
      match st.effectiveMachineTemplate parentTemplate false db1 with
      | (Except.error err, db2) => (Except.error err, db2)
      | (Except.ok parentTemplate, db2) =>
        if containerType = "" then (Except.error (Errorf "no container type specified"), db2)
        else
          match (if parentTemplate.InstanceId = "" then
              st.precheckInstance parentTemplate.Series parentTemplate.Constraints db2
            else (none, db2)) with
          | (some err, db3) => (Except.error err, db3)
          | (none, db3) =>
            let parentDoc := machineDocForTemplate parentTemplate (Itoa seq)
            match st.newContainerId parentDoc.Id containerType db3 with
            | (Except.error err, db4) => (Except.error err, db4)
            | (Except.ok newId, db4) =>
              match st.effectiveMachineTemplate template false db4 with
              | (Except.error err, db5) => (Except.error err, db5)
              | (Except.ok template, db5) =>
                let mdoc : machineDoc :=
                  { machineDocForTemplate template newId with ContainerType := containerType }
                (Except.ok (mdoc,
                  insertNewMachineOps parentDoc parentTemplate.Constraints ++
                  insertNewMachineOps mdoc template.Constraints ++
                  [insertNewContainerRefOp mdoc.Id [],
                   insertNewContainerRefOp parentDoc.Id [mdoc.Id]]), db5)

/-- Go `(*State).addMachine`. -/
def State.addMachine (st : State) (mdoc : machineDoc) (ops : List Op) (db : DB) :
    Except Error Juju.Machine × DB :=
  match st.Environment db with
  | (Except.error err, db1) => (Except.error err, db1)
  | (Except.ok life, db1) =>
    if life ≠ Life.Alive then (Except.error errNotAlive, db1)
    else
      match st.runTransaction (assertAliveOp :: ops) db1 with
      | (some err, db2) =>
        match st.Refresh db2 with
        | (Except.ok life2, db3) =>
          if life2 ≠ Life.Alive then (Except.error errNotAlive, db3)
          else (Except.error err, db3)
        | (Except.error enverr, db3) =>
          if IsNotFoundError (some enverr) then (Except.error errNotAlive, db3)
          else (Except.error enverr, db3)
      | (none, db2) => (Except.ok { doc := mdoc }, db2)

/-- Go `(*State).AddMachineInsideNewMachine`. -/
def State.AddMachineInsideNewMachine (st : State) (template parentTemplate : MachineTemplate)
    (containerType : String) (db : DB) : Except Error Juju.Machine × DB :=
  match st.addMachineInsideNewMachineOps template parentTemplate containerType db with
  | (Except.error err, db1) => (Except.error (wrapf "cannot add a new machine" err), db1)
  | (Except.ok (mdoc, ops), db1) => st.addMachine mdoc ops db1

/-- Go `(*State).AddMachineInsideMachine`. -/
def State.AddMachineInsideMachine (st : State) (template : MachineTemplate) (parentId : String)
    (containerType : String) (db : DB) : Except Error Juju.Machine × DB :=
  match st.addMachineInsideMachineOps template parentId containerType db with
  | (Except.error err, db1) => (Except.error (wrapf "cannot add a new machine" err), db1)
  | (Except.ok (mdoc, ops), db1) => st.addMachine mdoc ops db1

/-- The first loop of `maintainStateServersOps`: the ids of the documents that carry
`JobManageEnviron` (`newIds`) and, among them, of those that vote (`newVotingIds`). -/
def newStateServerIds : List machineDoc → List String × List String
  | [] => ([], [])
  | doc :: rest =>
    if hasJob doc.Jobs MachineJob.JobManageEnviron = false then newStateServerIds rest
    else
      (doc.Id :: (newStateServerIds rest).1,
        if doc.NoVote = false then doc.Id :: (newStateServerIds rest).2
        else (newStateServerIds rest).2)

/-- The operation built at the end of `maintainStateServersOps`. -/
def stateServersOp (currentInfo : StateServerInfo) (newIds newVotingIds : List String) : Op :=
  { C := stateServersC,
    Id := environGlobalKey,
    Assert := Assertion.sizes
      [("machineids", currentInfo.MachineIds.length),
       ("votingmachineids", currentInfo.VotingMachineIds.length)],
    Insert := none,
    Update :=
      [{ op := "$addToSet", field := "machineids", each := newIds },
       { op := "$addToSet", field := "votingmachineids", each := newVotingIds }] }

/-- Go `(*State).maintainStateServersOps`; a nil `currentInfo` is `none`. -/
def State.maintainStateServersOps (st : State) (mdocs : List machineDoc)
    (currentInfo : Option Juju.StateServerInfo) (db : DB) : Except Error (List Op) × DB :=
  if (newStateServerIds mdocs).1.length = 0 then (Except.ok [], db)
  else
    match currentInfo, mdocs with
    | some info, _ =>
      (Except.ok [stateServersOp info (newStateServerIds mdocs).1 (newStateServerIds mdocs).2], db)
    | none, [doc] =>
      if doc.Id ≠ "0" then (Except.error errStateServerNotAllowed, db)
      else
        match st.StateServerInfo db with
        | (Except.error err, db1) =>
          (Except.error (wrapf "cannot get state server info" err), db1)
        | (Except.ok info, db1) =>
          if info.MachineIds.length > 0 ∨ info.VotingMachineIds.length > 0 then
            (Except.error (Errorf "state servers already exist"), db1)
          else
            (Except.ok
              [stateServersOp info (newStateServerIds mdocs).1 (newStateServerIds mdocs).2], db1)
    | none, _ => (Except.error errStateServerNotAllowed, db)

/-- The loop of `AddMachines` over the templates: the machine documents and the
operations of all of them, or the first error. -/
def State.addMachinesLoop (st : State) :
    List MachineTemplate → DB → Except Error (List machineDoc × List Op) × DB
  | [], db => (Except.ok ([], []), db)
  | template :: rest, db =>
    match st.addMachineOps template db with
    | (Except.error err, db1) => (Except.error err, db1)
    | (Except.ok (mdoc, addOps), db1) =>
      match st.addMachinesLoop rest db1 with
      | (Except.error err, db2) => (Except.error err, db2)
      | (Except.ok (mdocs, ops), db2) => (Except.ok (mdoc :: mdocs, addOps ++ ops), db2)

/-- The body of `AddMachines`, before the deferred `utils.ErrorContextf`. -/
def State.addMachinesBody (st : State) (templates : List MachineTemplate) (db : DB) :
    Except Error (List Juju.Machine) × DB :=
  match st.Environment db with
  | (Except.error err, db1) => (Except.error err, db1)
  | (Except.ok life, db1) =>
    if life ≠ Life.Alive then (Except.error errNotAlive, db1)
    else
      match st.addMachinesLoop templates db1 with
      | (Except.error err, db2) => (Except.error err, db2)
      | (Except.ok (mdocs, ops), db2) =>
        match st.maintainStateServersOps mdocs none db2 with
        | (Except.error err, db3) => (Except.error err, db3)
        | (Except.ok ssOps, db3) =>
          match st.runTransaction (ops ++ ssOps ++ [assertAliveOp]) db3 with
          | (some err, db4) => (Except.error (onAbort err errNotAlive), db4)
          | (none, db4) => (Except.ok (mdocs.map (fun mdoc => { doc := mdoc })), db4)

/-- Go `(*State).AddMachines`: every error leaves through the deferred
`utils.ErrorContextf(&err, "cannot add a new machine")`. -/
def State.AddMachines (st : State) (templates : List MachineTemplate) (db : DB) :
    Except Error (List Juju.Machine) × DB :=
  match st.addMachinesBody templates db with
  | (Except.error err, db1) => (Except.error (wrapf "cannot add a new machine" err), db1)
  | (Except.ok ms, db1) => (Except.ok ms, db1)

/-- Go `(*State).AddOneMachine`; `ms[0]` of an empty result is a run-time panic. -/
def State.AddOneMachine (st : State) (template : MachineTemplate) (db : DB) :
    Except Error Juju.Machine × DB :=
  match st.AddMachines [template] db with
  | (Except.error err, db1) => (Except.error err, db1)
  | (Except.ok (m :: _), db1) => (Except.ok m, db1)
  | (Except.ok [], db1) =>
    (Except.error { msg := "index out of range", kind := ErrKind.panic }, db1)

/-- Go `(*State).AddMachine`. -/
def State.AddMachine (st : State) (series : String) (jobs : List MachineJob) (db : DB) :
    Except Error Juju.Machine × DB :=
  st.AddOneMachine { MachineTemplate.zero with Series := series, Jobs := jobs } db

/-- The template that `EnsureAvailability` builds for every new state server. -/
def stateServerTemplate (cons : Value) (series : String) : MachineTemplate :=
  { MachineTemplate.zero with
    Series := series,
    Jobs := [MachineJob.JobHostUnits, MachineJob.JobManageEnviron],
    Constraints := cons }

/-- The loop of `EnsureAvailability`, by the number of iterations left
(`numStateServers - i`): the documents and operations of the new machines, or the
first error. -/
def State.ensureAvailabilityLoop (st : State) (cons : Value) (series : String) :
    Nat → DB → Except Error (List machineDoc × List Op) × DB
  | 0, db => (Except.ok ([], []), db)
  | left + 1, db =>
    match st.addMachineOps (stateServerTemplate cons series) db with
    | (Except.error err, db1) => (Except.error err, db1)
    | (Except.ok (mdoc, addOps), db1) =>
      match st.ensureAvailabilityLoop cons series left db1 with
      | (Except.error err, db2) => (Except.error err, db2)
      | (Except.ok (mdocs, ops), db2) => (Except.ok (mdoc :: mdocs, addOps ++ ops), db2)

/-- Go `(*State).EnsureAvailability`.  The constant `replicaset.MaxPeers` is not under
src/ and is a parameter.  Go's `%` is the truncated remainder `Int.tmod`. -/
def State.EnsureAvailability (st : State) (MaxPeers : Int) (numStateServers : Int)
    (cons : Value) (series : String) (db : DB) : Option Error × DB :=
  if numStateServers.tmod 2 ≠ 1 ∨ numStateServers ≤ 0 then
    (some (Errorf "number of state servers must be odd and greater than zero"), db)
  else if numStateServers > MaxPeers then
    (some (Errorf ("state server count is too large (allowed " ++ toString MaxPeers ++ ")")), db)
  else
    match st.StateServerInfo db with
    | (Except.error err, db1) => (some err, db1)
    | (Except.ok info, db1) =>
      if (info.VotingMachineIds.length : Int) = numStateServers then (none, db1)
      else if (info.VotingMachineIds.length : Int) > numStateServers then
        (some (Errorf "cannot reduce state server count"), db1)
      else if numStateServers - (info.MachineIds.length : Int) < 0 then
        (some makeslicePanic, db1)
      else
        match st.ensureAvailabilityLoop cons series
            (numStateServers - (info.MachineIds.length : Int)).toNat db1 with
        | (Except.error err, db2) => (some err, db2)
        | (Except.ok (mdocs, ops), db2) =>
          match st.maintainStateServersOps mdocs (some info) db2 with
          | (Except.error err, db3) =>
            (some (wrapf "cannot prepare machine add operations" err), db3)
          | (Except.ok ssOps, db3) =>
            match st.runTransaction (ops ++ ssOps) db3 with
            | (some err, db4) =>
              (some (wrapf "failed to create new state server machines" err), db4)
            | (none, db4) => (none, db4)

/-! ## Sample collaborators and inputs -/

/-- A receiver all of whose collaborators succeed: the environment is alive, there
are no environment constraints, nothing is vetoed, and there is no machine to load. -/
def healthy : State :=
  { environ := Except.ok Life.Alive,
    refreshed := Except.ok Life.Alive,
    environConstraints := Except.ok Value.zero,
    precheck := fun _ _ => none,
    sequenceErr := fun _ _ => none,
    stateServerInfoErr := none,
    machine := fun id => Except.error { msg := "machine " ++ id ++ " not found",
                                         kind := ErrKind.notFound },
    txnErr := fun _ => none }

/-- The bootstrap template of a state server that abstains from voting. -/
def bootstrapNoVote : MachineTemplate :=
  { MachineTemplate.zero with
    Series := "precise", Jobs := [MachineJob.JobManageEnviron], NoVote := true }

/-- A store with one state server, which votes, after one machine id was handed
out. -/
def oneVoter : DB :=
  { stateServers := { MachineIds := ["0"], VotingMachineIds := ["0"] },
    sequences := fun k => if k = "machine" then 1 else 0,
    log := [] }

/-- A receiver whose sequence allocator fails once the "machine" counter stands
at 2; every other collaborator succeeds. -/
def flakySequence : State :=
  { healthy with
    sequenceErr := fun name i =>
      if name = "machine" ∧ i = 2 then some (Errorf "sequence unavailable") else none }

/-- The conditions on a template alone under which `effectiveMachineTemplate`
rejects it: empty series, no jobs, a job listed twice, `JobManageEnviron` where state
servers are not allowed, an instance id without a nonce, a nonce without an instance
id. -/
def invalidTemplate (p : MachineTemplate) (allowStateServer : Bool) : Prop :=
  p.Series = "" ∨ p.Jobs = [] ∨ ¬ p.Jobs.Nodup ∨
    (MachineJob.JobManageEnviron ∈ p.Jobs ∧ allowStateServer = false) ∨
    (p.InstanceId ≠ "" ∧ p.Nonce = "") ∨ (p.InstanceId = "" ∧ p.Nonce ≠ "")

instance (p : MachineTemplate) (allowStateServer : Bool) :
    Decidable (invalidTemplate p allowStateServer) := by
  unfold invalidTemplate
  infer_instance

/-- A template that passes validation. -/
def hostTemplate : MachineTemplate :=
  { MachineTemplate.zero with Series := "precise", Jobs := [MachineJob.JobHostUnits] }

/-- A receiver whose transactions the store aborts and whose environment cannot be
read again afterwards, for a reason other than its absence. -/
def abortThenRefreshFails : State :=
  { healthy with
    txnErr := fun _ => some ErrAborted,
    refreshed := Except.error (Errorf "connection lost") }

/-- A receiver whose transactions the store aborts; every other collaborator
succeeds and the environment is still alive when read again. -/
def abortingStore : State :=
  { healthy with txnErr := fun _ => some ErrAborted }

/-- The machine documents inserted by a batch, in order. -/
def machineDocsOf : List Op → List machineDoc
  | [] => []
  | op :: ops =>
    match op.Insert with
    | some (Doc.machine d) => if op.C = machinesC then d :: machineDocsOf ops else machineDocsOf ops
    | _ => machineDocsOf ops

/-- The error of a result, if it is one. -/
def errorOf {α : Type} : Except Error α → Option Error
  | Except.error e => some e
  | Except.ok _ => none

/-- The states of the store that successful `AddMachines` and `EnsureAvailability`
calls can lead to, from a store whose state-servers document is empty.  Between two
calls the collaborators may behave differently. -/
inductive Reachable (MaxPeers : Int) : DB → Prop where
  | init (db : DB) (h : db.stateServers = StateServerInfo.empty) : Reachable MaxPeers db
  | addMachines (st : State) (templates : List MachineTemplate) (db db1 : DB)
      (ms : List Machine) (h : Reachable MaxPeers db)
      (hcall : st.AddMachines templates db = (Except.ok ms, db1)) : Reachable MaxPeers db1
  | ensureAvailability (st : State) (n : Int) (cons : Value) (series : String) (db db1 : DB)
      (h : Reachable MaxPeers db)
      (hcall : st.EnsureAvailability MaxPeers n cons series db = (none, db1)) :
      Reachable MaxPeers db1

/-- Value of a list of decimal digit characters, most significant first, after the
digits already read (`acc`). -/
def digitsValue (cs : List Char) (acc : Nat) : Nat :=
  cs.foldl (fun a c => 10 * a + (c.toNat - 48)) acc

/-- The machine document that `EnsureAvailability` builds for a new state server:
the document of `stateServerTemplate` after `effectiveMachineTemplate` merged the
environment constraints, with the decimal sequence number as its id. -/
def newStateServerDoc (cons envCons : Value) (series : String) (seq : Nat) : machineDoc :=
  machineDocForTemplate
    { stateServerTemplate cons series with
      Constraints := { cons.WithFallbacks envCons with Container := none } }
    (Itoa seq)

/-- The store `db1` comes from `db` by collaborator calls none of which submitted a
transaction: the state-servers document is the same and the log grew by events that
hold no batch. -/
def NoCommit (db db1 : DB) : Prop :=
  db1.stateServers = db.stateServers ∧ ∃ es, db1.log = db.log ++ es ∧ txnsOf es = []

/-- The store `db1` comes from `db` by reads only: in addition to `NoCommit`, no
sequence counter moved and no sequence number was handed out. -/
def ReadOnly (db db1 : DB) : Prop :=
  db1.stateServers = db.stateServers ∧ db1.sequences = db.sequences ∧
    ∃ es, db1.log = db.log ++ es ∧ txnsOf es = [] ∧ allocsOf es = []

/-- The insert of a machine document, as `insertNewMachineOps` builds it: on the
machines collection, under the document's id, asserting that it is missing. -/
def machineInsertOp (mdoc : machineDoc) : Op :=
  { C := machinesC, Id := mdoc.Id, Assert := Assertion.DocMissing,
    Insert := some (Doc.machine mdoc), Update := [] }

/-- The operations of a batch on the machines collection, in order. -/
def machineInsertsOf (ops : List Op) : List Op :=
  ops.filter (fun op => op.C == machinesC)

/-- The operations of a batch that insert a container-reference document, in order. -/
def containerRefInsertsOf (ops : List Op) : List Op :=
  ops.filter (fun op => op.C == containerRefsC && op.Insert.isSome)

/-- The calls of the instance precheck recorded in a log, oldest first. -/
def prechecksOf : List Event → List (String × Value)
  | [] => []
  | Event.precheckInstance series cons :: es => (series, cons) :: prechecksOf es
  | _ :: es => prechecksOf es

/-- The receiver refuses the template whatever the store holds: `addMachineOps`
returns an error for it on every store. -/
def State.rejects (st : State) (t : MachineTemplate) : Prop :=
  ∀ db, errorOf (st.addMachineOps t db).1 ≠ none

/-- The constraints of a template after `effectiveMachineTemplate`: merged with the
environment constraints, the container value cleared. -/
def effectiveConstraints (cons envCons : Value) : Value :=
  { cons.WithFallbacks envCons with Container := none }

/-- A receiver whose environment constraints are `mem=4G` (in megabytes); every
collaborator succeeds. -/
def envMem4G : State :=
  { healthy with environConstraints := Except.ok { Value.zero with Mem := some 4096 } }

/-- A valid template whose constraints are `cpu-cores=4`. -/
def cpuCores4Template : MachineTemplate :=
  { hostTemplate with Constraints := { Value.zero with CpuCores := some 4 } }

/-- A valid template whose constraints name a container type. -/
def lxcConstrained : MachineTemplate :=
  { hostTemplate with Constraints := { Value.zero with Container := some "lxc" } }

/-- A receiver whose instance precheck vetoes every request; every other
collaborator succeeds. -/
def vetoing : State :=
  { healthy with precheck := fun _ _ => some (Errorf "no instance for you") }

/-- A template of a machine injected with an existing instance. -/
def injectedTemplate : MachineTemplate :=
  { hostTemplate with
    InstanceId := "bootstrap",
    Nonce := "user-admin:bootstrap",
    Jobs := [MachineJob.JobManageEnviron] }

/-- The operations of a result of one of the operation builders; none for an error. -/
def opsOf : Except Error (machineDoc × List Op) → List Op
  | Except.ok (_, ops) => ops
  | Except.error _ => []

/-- A receiver on which every machine id names an existing machine whose list of
supported containers is not known yet; every other collaborator succeeds. -/
def anyHost : State :=
  { healthy with machine := fun id => Except.ok { doc := machineDocForTemplate hostTemplate id } }

/-- A receiver on which every machine id names an existing machine that is known to
support lxc containers only; every other collaborator succeeds. -/
def lxcOnlyHost : State :=
  { healthy with
    machine := fun id => Except.ok
      { doc := { machineDocForTemplate hostTemplate id with
                 SupportedContainers := ["lxc"], SupportedContainersKnown := true } } }

/-- A store with five state servers of which only the first votes, after five machine
ids were handed out. -/
def fiveServersOneVoter : DB :=
  { stateServers := { MachineIds := ["0", "1", "2", "3", "4"], VotingMachineIds := ["0"] },
    sequences := fun k => if k = "machine" then 5 else 0,
    log := [] }

/-- A store with three state servers, all of which vote, after three machine ids were
handed out. -/
def threeVoters : DB :=
  { stateServers := { MachineIds := ["0", "1", "2"], VotingMachineIds := ["0", "1", "2"] },
    sequences := fun k => if k = "machine" then 3 else 0,
    log := [] }

/-- The top-level keys of the update document of an operation, in order. -/
def updateKeys (op : Op) : List String := op.Update.map (fun u => u.op)

/-- The fields that the entries of the update document of an operation address, in
order. -/
def updateFields (op : Op) : List String := op.Update.map (fun u => u.field)

/-- The machine documents of all the batches recorded in a log, oldest first. -/
def docsBuilt (log : List Event) : List machineDoc :=
  (txnsOf log).foldr (fun ops acc => machineDocsOf ops ++ acc) []

/-- The separator of the parts of a container id. -/
def slash : Char := '/'

/-- The id was handed out by the given counters: it is the decimal form of a number
below the counter "machine", or a parent id, "/", a container type that holds no "/",
"/" and the decimal form of a number below the counter of that parent and type. -/
def Issued (sequences : String → Nat) (id : String) : Prop :=
  (∃ n, id = Itoa n ∧ n < sequences "machine") ∨
  (∃ p t n, id = p ++ "/" ++ t ++ "/" ++ Itoa n ∧ slash ∉ t.data ∧
    n < sequences ("machine" ++ p ++ t ++ "Container"))

/-- The stores reached from `db0` by successful calls of `AddMachines`,
`AddMachineInsideMachine` and `AddMachineInsideNewMachine`, for container types that
hold no "/".  Between two calls the collaborators may behave differently. -/
inductive Adds (db0 : DB) : DB → Prop where
  | start : Adds db0 db0
  | addMachines (st : State) (templates : List MachineTemplate) (db db1 : DB)
      (ms : List Machine) (h : Adds db0 db)
      (hcall : st.AddMachines templates db = (Except.ok ms, db1)) : Adds db0 db1
  | insideMachine (st : State) (t : MachineTemplate) (parentId containerType : String)
      (db db1 : DB) (m : Machine) (h : Adds db0 db) (hslash : slash ∉ containerType.data)
      (hcall : st.AddMachineInsideMachine t parentId containerType db = (Except.ok m, db1)) :
      Adds db0 db1
  | insideNewMachine (st : State) (t parentTemplate : MachineTemplate)
      (containerType : String) (db db1 : DB) (m : Machine) (h : Adds db0 db)
      (hslash : slash ∉ containerType.data)
      (hcall : st.AddMachineInsideNewMachine t parentTemplate containerType db =
        (Except.ok m, db1)) : Adds db0 db1

/-- Modelled from the spec: the store commits a batch only if its asserted
preconditions hold.  For the inserts of machine documents, which assert that the
document is missing, this reads: the store of the receiver refuses every batch that
inserts a machine document under an id that a batch recorded in the log has already
inserted. -/
def State.refusesTakenIds (st : State) (db : DB) : Prop :=
  ∀ ops, (∃ d ∈ machineDocsOf ops, d.Id ∈ (docsBuilt db.log).map (fun d => d.Id)) →
    st.txnErr ops ≠ none

/-- The stores reached from `db0` by successful calls of `AddMachines`,
`AddMachineInsideMachine` and `AddMachineInsideNewMachine`, for every parent id and
every container type, on stores that enforce the document-missing assertion of the
machine inserts.  Between two calls the collaborators may behave differently. -/
inductive Commits (db0 : DB) : DB → Prop where
  | start : Commits db0 db0
  | addMachines (st : State) (templates : List MachineTemplate) (db db1 : DB)
      (ms : List Machine) (h : Commits db0 db) (hstore : st.refusesTakenIds db)
      (hcall : st.AddMachines templates db = (Except.ok ms, db1)) : Commits db0 db1
  | insideMachine (st : State) (t : MachineTemplate) (parentId containerType : String)
      (db db1 : DB) (m : Machine) (h : Commits db0 db) (hstore : st.refusesTakenIds db)
      (hcall : st.AddMachineInsideMachine t parentId containerType db = (Except.ok m, db1)) :
      Commits db0 db1
  | insideNewMachine (st : State) (t parentTemplate : MachineTemplate)
      (containerType : String) (db db1 : DB) (m : Machine) (h : Commits db0 db)
      (hstore : st.refusesTakenIds db)
      (hcall : st.AddMachineInsideNewMachine t parentTemplate containerType db =
        (Except.ok m, db1)) : Commits db0 db1

/-- A receiver on which every machine id names an existing machine and whose store
refuses every batch that inserts a machine document under one of the given ids; every
other collaborator succeeds. -/
def guarding (taken : List String) : State :=
  { anyHost with
    txnErr := fun ops =>
      if (machineDocsOf ops).any (fun d => taken.contains d.Id) then some ErrAborted
      else none }

/-! ## Lemmas on the store model -/

theorem mem_addToSet (x : String) (ys xs : List String) :
    x ∈ addToSet xs ys ↔ x ∈ xs ∨ x ∈ ys := by
  unfold addToSet
  induction ys generalizing xs with
  | nil => simp
  | cons y ys ih =>
    rw [List.foldl_cons, ih]
    by_cases hy : y ∈ xs
    · simp only [hy, if_true, List.mem_cons]
      constructor
      · rintro (h | h)
        · exact Or.inl h
        · exact Or.inr (Or.inr h)
      · rintro (h | h | h)
        · exact Or.inl h
        · exact Or.inl (h ▸ hy)
        · exact Or.inr h
    · simp only [hy, if_false, List.mem_append, List.mem_singleton, List.mem_cons]
      tauto

theorem addToSet_nodup (ys xs : List String) (h : xs.Nodup) : (addToSet xs ys).Nodup := by
  unfold addToSet
  induction ys generalizing xs with
  | nil => simpa using h
  | cons y ys ih =>
    rw [List.foldl_cons]
    apply ih
    by_cases hy : y ∈ xs
    · simpa [hy] using h
    · simp only [hy, if_false]
      rw [List.nodup_append]
      refine ⟨h, List.nodup_singleton y, ?_⟩
      intro a ha hb
      rw [List.mem_singleton] at hb
      exact hy (hb ▸ ha)

theorem addToSet_length_le (ys xs : List String) :
    (addToSet xs ys).length ≤ xs.length + ys.length := by
  unfold addToSet
  induction ys generalizing xs with
  | nil => simp
  | cons y ys ih =>
    rw [List.foldl_cons]
    refine le_trans (ih _) ?_
    by_cases hy : y ∈ xs
    · simp only [hy, if_true, List.length_cons]; omega
    · simp only [hy, if_false, List.length_append, List.length_cons, List.length_nil]; omega

theorem addToSet_fresh (ys xs : List String) (hys : ys.Nodup) (hd : ∀ y ∈ ys, y ∉ xs) :
    addToSet xs ys = xs ++ ys := by
  unfold addToSet
  induction ys generalizing xs with
  | nil => simp
  | cons y ys ih =>
    have hy : y ∉ xs := hd y (List.mem_cons_self y ys)
    rw [List.foldl_cons]
    simp only [hy, if_false]
    rw [ih (xs ++ [y]) (List.nodup_cons.mp hys).2]
    · simp
    · intro z hz hmem
      rw [List.mem_append, List.mem_singleton] at hmem
      rcases hmem with h | h
      · exact hd z (List.mem_cons_of_mem y hz) h
      · exact (List.nodup_cons.mp hys).1 (h ▸ hz)

theorem txnsOf_append (a b : List Event) : txnsOf (a ++ b) = txnsOf a ++ txnsOf b := by
  induction a with
  | nil => rfl
  | cons e es ih => cases e <;> simp [txnsOf, ih]

theorem allocsOf_append (a b : List Event) : allocsOf (a ++ b) = allocsOf a ++ allocsOf b := by
  induction a with
  | nil => rfl
  | cons e es ih =>
    cases e with
    | sequence name result => cases result <;> simp [allocsOf, ih]
    | _ => simp [allocsOf, ih]

theorem newStateServerIds_voting_subset (mdocs : List machineDoc) :
    (newStateServerIds mdocs).2 ⊆ (newStateServerIds mdocs).1 := by
  induction mdocs with
  | nil => simp [newStateServerIds]
  | cons doc rest ih =>
    unfold newStateServerIds
    by_cases hj : hasJob doc.Jobs MachineJob.JobManageEnviron = false
    · simpa [hj] using ih
    · by_cases hv : doc.NoVote = false
      · simp only [hj, hv, if_true, if_false]
        intro x hx
        rcases List.mem_cons.mp hx with h | h
        · exact h ▸ List.mem_cons_self _ _
        · exact List.mem_cons_of_mem _ (ih h)
      · simp only [hj, hv, if_false]
        exact fun x hx => List.mem_cons_of_mem _ (ih hx)

theorem newStateServerIds_length_le (mdocs : List machineDoc) :
    (newStateServerIds mdocs).2.length ≤ (newStateServerIds mdocs).1.length ∧
    (newStateServerIds mdocs).1.length ≤ mdocs.length := by
  induction mdocs with
  | nil => simp [newStateServerIds]
  | cons doc rest ih =>
    unfold newStateServerIds
    cases hj : hasJob doc.Jobs MachineJob.JobManageEnviron
    · simp only [if_true, List.length_cons]; omega
    · cases hv : doc.NoVote
      · simp only [if_true, Bool.true_eq_false, if_false, List.length_cons]; omega
      · simp only [Bool.true_eq_false, if_false, List.length_cons]; omega

theorem stateServersOp_onStateServers (info : StateServerInfo) (ids vids : List String) :
    (stateServersOp info ids vids).onStateServers = true := by
  simp [Op.onStateServers, stateServersOp, stateServersC, environGlobalKey]

theorem applyOp_stateServersOp (s info : StateServerInfo) (ids vids : List String) :
    applyOp s (stateServersOp info ids vids) =
      { MachineIds := addToSet s.MachineIds ids,
        VotingMachineIds := addToSet s.VotingMachineIds vids } := by
  rw [applyOp, stateServersOp_onStateServers]
  simp [stateServersOp, applyUpdateElem]

/-! ## Frame lemmas: what the calls before the commit leave untouched -/

theorem ReadOnly.here (db : DB) : ReadOnly db db :=
  ⟨rfl, rfl, [], by simp, rfl, rfl⟩

theorem ReadOnly.andRead {a b c : DB} (h1 : ReadOnly a b) (h2 : ReadOnly b c) : ReadOnly a c := by
  obtain ⟨hs1, hq1, es1, hl1, ht1, ha1⟩ := h1
  obtain ⟨hs2, hq2, es2, hl2, ht2, ha2⟩ := h2
  refine ⟨hs2.trans hs1, hq2.trans hq1, es1 ++ es2, ?_, ?_, ?_⟩
  · rw [hl2, hl1, List.append_assoc]
  · rw [txnsOf_append, ht1, ht2]; rfl
  · rw [allocsOf_append, ha1, ha2]; rfl

theorem ReadOnly.noCommit {a b : DB} (h : ReadOnly a b) : NoCommit a b := by
  obtain ⟨hs, _, es, hl, ht, _⟩ := h
  exact ⟨hs, es, hl, ht⟩

theorem NoCommit.nothing (db : DB) : NoCommit db db := (ReadOnly.here db).noCommit

theorem NoCommit.andThen {a b c : DB} (h1 : NoCommit a b) (h2 : NoCommit b c) : NoCommit a c := by
  obtain ⟨hs1, es1, hl1, ht1⟩ := h1
  obtain ⟨hs2, es2, hl2, ht2⟩ := h2
  refine ⟨hs2.trans hs1, es1 ++ es2, ?_, ?_⟩
  · rw [hl2, hl1, List.append_assoc]
  · rw [txnsOf_append, ht1, ht2]; rfl

theorem NoCommit.txns {a b : DB} (h : NoCommit a b) : txnsOf b.log = txnsOf a.log := by
  obtain ⟨_, es, hl, ht⟩ := h
  rw [hl, txnsOf_append, ht, List.append_nil]

theorem NoCommit.log_length {a b : DB} (h : NoCommit a b) : a.log.length ≤ b.log.length := by
  obtain ⟨_, es, hl, _⟩ := h
  rw [hl, List.length_append]; omega

theorem readOnly_record (db : DB) (e : Event) (ht : txnsOf [e] = []) (ha : allocsOf [e] = []) :
    ReadOnly db (db.record e) :=
  ⟨rfl, rfl, [e], rfl, ht, ha⟩

theorem Environment_readOnly (st : State) (db : DB) : ReadOnly db (st.Environment db).2 :=
  readOnly_record db _ rfl rfl

theorem Refresh_readOnly (st : State) (db : DB) : ReadOnly db (st.Refresh db).2 :=
  readOnly_record db _ rfl rfl

theorem EnvironConstraints_readOnly (st : State) (db : DB) :
    ReadOnly db (st.EnvironConstraints db).2 :=
  readOnly_record db _ rfl rfl

theorem precheckInstance_readOnly (st : State) (series : String) (cons : Value) (db : DB) :
    ReadOnly db (st.precheckInstance series cons db).2 :=
  readOnly_record db _ rfl rfl

theorem Machine_readOnly (st : State) (id : String) (db : DB) :
    ReadOnly db (st.Machine id db).2 :=
  readOnly_record db _ rfl rfl

theorem StateServerInfo_readOnly (st : State) (db : DB) :
    ReadOnly db (st.StateServerInfo db).2 := by
  unfold State.StateServerInfo
  split <;> exact readOnly_record db Event.stateServerInfo rfl rfl

theorem StateServerInfo_ok (st : State) (db db1 : DB) (info : StateServerInfo)
    (h : st.StateServerInfo db = (Except.ok info, db1)) :
    info = db.stateServers ∧ db1 = db.record Event.stateServerInfo := by
  unfold State.StateServerInfo at h
  split at h
  · simp at h
  · simp only [Prod.mk.injEq, Except.ok.injEq] at h
    exact ⟨h.1.symm, h.2.symm⟩

theorem sequence_noCommit (st : State) (name : String) (db : DB) :
    NoCommit db (st.sequence name db).2 := by
  unfold State.sequence
  split
  · exact (readOnly_record db (Event.sequence name none) rfl rfl).noCommit
  · exact ⟨rfl, [Event.sequence name (some (db.sequences name))], rfl, rfl⟩

theorem effectiveMachineTemplate_readOnly (st : State) (p : MachineTemplate) (allow : Bool)
    (db : DB) : ReadOnly db (st.effectiveMachineTemplate p allow db).2 := by
  have h := EnvironConstraints_readOnly st db
  unfold State.effectiveMachineTemplate
  split
  · exact ReadOnly.here db
  · split
    · rename_i heq; rw [heq] at h; exact h
    · rename_i heq; rw [heq] at h
      simp only
      repeat (first | exact h | split)

theorem precheckIf_readOnly (st : State) (c : Prop) [Decidable c] (series : String)
    (cons : Value) (db : DB) :
    ReadOnly db (if c then st.precheckInstance series cons db else (none, db)).2 := by
  split
  · exact precheckInstance_readOnly st series cons db
  · exact ReadOnly.here db

theorem addMachineOps_noCommit (st : State) (template : MachineTemplate) (db : DB) :
    NoCommit db (st.addMachineOps template db).2 := by
  have h1 := (effectiveMachineTemplate_readOnly st template true db).noCommit
  unfold State.addMachineOps
  split
  · rename_i heq; rw [heq] at h1; exact h1
  · rename_i t db1 heq
    rw [heq] at h1
    have h2 := (precheckIf_readOnly st (t.InstanceId = "") t.Series t.Constraints db1).noCommit
    split
    · rename_i heq2; rw [heq2] at h2; exact h1.andThen h2
    · rename_i db2 heq2
      rw [heq2] at h2
      have h3 := sequence_noCommit st "machine" db2
      split
      · rename_i heq3; rw [heq3] at h3; exact (h1.andThen h2).andThen h3
      · rename_i heq3; rw [heq3] at h3; exact (h1.andThen h2).andThen h3

theorem newContainerId_noCommit (st : State) (parentId containerType : String) (db : DB) :
    NoCommit db (st.newContainerId parentId containerType db).2 := by
  have h := sequence_noCommit st ("machine" ++ parentId ++ containerType ++ "Container") db
  unfold State.newContainerId
  split <;> (rename_i heq; rw [heq] at h; exact h)

theorem addMachinesLoop_noCommit (st : State) (templates : List MachineTemplate) (db : DB) :
    NoCommit db (st.addMachinesLoop templates db).2 := by
  induction templates generalizing db with
  | nil => exact NoCommit.nothing db
  | cons t rest ih =>
    have h1 := addMachineOps_noCommit st t db
    unfold State.addMachinesLoop
    split
    · rename_i heq; rw [heq] at h1; exact h1
    · rename_i db1 heq
      rw [heq] at h1
      have h2 := ih db1
      split <;> (rename_i heq2; rw [heq2] at h2; exact h1.andThen h2)

theorem ensureAvailabilityLoop_noCommit (st : State) (cons : Value) (series : String)
    (left : Nat) (db : DB) : NoCommit db (st.ensureAvailabilityLoop cons series left db).2 := by
  induction left generalizing db with
  | zero => exact NoCommit.nothing db
  | succ k ih =>
    have h1 := addMachineOps_noCommit st (stateServerTemplate cons series) db
    unfold State.ensureAvailabilityLoop
    split
    · rename_i heq; rw [heq] at h1; exact h1
    · rename_i db1 heq
      rw [heq] at h1
      have h2 := ih db1
      split <;> (rename_i heq2; rw [heq2] at h2; exact h1.andThen h2)

theorem maintainStateServersOps_readOnly (st : State) (mdocs : List machineDoc)
    (currentInfo : Option StateServerInfo) (db : DB) :
    ReadOnly db (st.maintainStateServersOps mdocs currentInfo db).2 := by
  have h := StateServerInfo_readOnly st db
  unfold State.maintainStateServersOps
  split
  · exact ReadOnly.here db
  · split
    · exact ReadOnly.here db
    · split
      · exact ReadOnly.here db
      · split
        · rename_i heq; rw [heq] at h; exact h
        · rename_i heq; rw [heq] at h
          split <;> exact h
    · exact ReadOnly.here db

theorem addMachineInsideMachineOps_noCommit (st : State) (template : MachineTemplate)
    (parentId containerType : String) (db : DB) :
    NoCommit db (st.addMachineInsideMachineOps template parentId containerType db).2 := by
  have h1 := (effectiveMachineTemplate_readOnly st template false db).noCommit
  unfold State.addMachineInsideMachineOps
  split
  · exact NoCommit.nothing db
  · split
    · rename_i heq; rw [heq] at h1; exact h1
    · rename_i t db1 heq
      rw [heq] at h1
      split
      · exact h1
      · have h2 := (Machine_readOnly st parentId db1).noCommit
        split
        · rename_i heq2; rw [heq2] at h2; exact h1.andThen h2
        · rename_i parent db2 heq2
          rw [heq2] at h2
          split
          · exact h1.andThen h2
          · have h3 := newContainerId_noCommit st parentId containerType db2
            split <;> (rename_i heq3; rw [heq3] at h3; exact (h1.andThen h2).andThen h3)

theorem addMachineInsideNewMachineOps_noCommit (st : State)
    (template parentTemplate : MachineTemplate) (containerType : String) (db : DB) :
    NoCommit db (st.addMachineInsideNewMachineOps template parentTemplate containerType db).2 := by
  have h1 := sequence_noCommit st "machine" db
  unfold State.addMachineInsideNewMachineOps
  split
  · exact NoCommit.nothing db
  · split
    · rename_i heq; rw [heq] at h1; exact h1
    · rename_i seq db1 heq
      rw [heq] at h1
      have h2 := (effectiveMachineTemplate_readOnly st parentTemplate false db1).noCommit
      split
      · rename_i heq2; rw [heq2] at h2; exact h1.andThen h2
      · rename_i pt db2 heq2
        rw [heq2] at h2
        split
        · exact h1.andThen h2
        · have h3 := (precheckIf_readOnly st (pt.InstanceId = "") pt.Series pt.Constraints
            db2).noCommit
          split
          · rename_i heq3; rw [heq3] at h3; exact (h1.andThen h2).andThen h3
          · rename_i db3 heq3
            rw [heq3] at h3
            have h4 := newContainerId_noCommit st (machineDocForTemplate pt (Itoa seq)).Id
              containerType db3
            dsimp only
            split
            · rename_i heq4; rw [heq4] at h4; exact ((h1.andThen h2).andThen h3).andThen h4
            · rename_i newId db4 heq4
              rw [heq4] at h4
              have h5 := (effectiveMachineTemplate_readOnly st template false db4).noCommit
              split <;>
                (rename_i heq5; rw [heq5] at h5
                 exact (((h1.andThen h2).andThen h3).andThen h4).andThen h5)

/-! ## Shape of the batches -/

theorem foldl_applyOp_other (ops : List Op) (s : StateServerInfo)
    (h : ∀ op ∈ ops, op.onStateServers = false) : ops.foldl applyOp s = s := by
  induction ops generalizing s with
  | nil => rfl
  | cons op rest ih =>
    rw [List.foldl_cons]
    have h1 : applyOp s op = s := by
      unfold applyOp
      rw [h op (List.mem_cons_self op rest)]
      rfl
    rw [h1]
    exact ih s (fun o ho => h o (List.mem_cons_of_mem op ho))

theorem machineDocsOf_append (a b : List Op) :
    machineDocsOf (a ++ b) = machineDocsOf a ++ machineDocsOf b := by
  induction a with
  | nil => rfl
  | cons op rest ih =>
    simp only [List.cons_append, machineDocsOf]
    split
    · split <;> simp [ih]
    · exact ih

theorem insertNewMachineOps_other (mdoc : machineDoc) (cons : Value) :
    ∀ op ∈ insertNewMachineOps mdoc cons, op.onStateServers = false := by
  intro op hop
  simp only [insertNewMachineOps, List.mem_cons, List.mem_singleton, List.not_mem_nil,
    or_false] at hop
  rcases hop with h | h | h <;> subst h <;>
    simp [Op.onStateServers, createConstraintsOp, createStatusOp, machinesC, constraintsC,
      statusesC, stateServersC]

theorem machineDocsOf_insertNewMachineOps (mdoc : machineDoc) (cons : Value) :
    machineDocsOf (insertNewMachineOps mdoc cons) = [mdoc] := by
  simp [insertNewMachineOps, machineDocsOf, createConstraintsOp, createStatusOp]

theorem addMachineOps_ok (st : State) (template : MachineTemplate) (db db1 : DB)
    (mdoc : machineDoc) (ops : List Op)
    (h : st.addMachineOps template db = (Except.ok (mdoc, ops), db1)) :
    (∀ op ∈ ops, op.onStateServers = false) ∧ machineDocsOf ops = [mdoc] := by
  unfold State.addMachineOps at h
  split at h
  · simp at h
  · split at h
    · simp at h
    · split at h
      · simp at h
      · rename_i t _ _ _ _ _ seq _ _
        simp only [Prod.mk.injEq, Except.ok.injEq] at h
        obtain ⟨⟨hm, ho⟩, _⟩ := h
        subst hm
        subst ho
        constructor
        · intro op hop
          split at hop
          · simp only [List.mem_append, List.mem_singleton] at hop
            rcases hop with (h1 | h1) | h1
            · exact insertNewMachineOps_other _ _ op h1
            · subst h1
              simp [Op.onStateServers, insertNewContainerRefOp, containerRefsC, stateServersC]
            · subst h1
              simp [Op.onStateServers, instanceDataC, stateServersC]
          · simp only [List.mem_append, List.mem_singleton] at hop
            rcases hop with h1 | h1
            · exact insertNewMachineOps_other _ _ op h1
            · subst h1
              simp [Op.onStateServers, insertNewContainerRefOp, containerRefsC, stateServersC]
        · split
          · simp [machineDocsOf_append, machineDocsOf_insertNewMachineOps, machineDocsOf,
              insertNewContainerRefOp, createConstraintsOp, createStatusOp]
          · simp [machineDocsOf_append, machineDocsOf_insertNewMachineOps, machineDocsOf,
              insertNewContainerRefOp, createConstraintsOp, createStatusOp]

theorem addMachinesLoop_ok (st : State) (templates : List MachineTemplate) (db db1 : DB)
    (mdocs : List machineDoc) (ops : List Op)
    (h : st.addMachinesLoop templates db = (Except.ok (mdocs, ops), db1)) :
    mdocs.length = templates.length ∧ (∀ op ∈ ops, op.onStateServers = false) ∧
      machineDocsOf ops = mdocs := by
  induction templates generalizing db mdocs ops with
  | nil =>
    simp only [State.addMachinesLoop, Prod.mk.injEq, Except.ok.injEq] at h
    obtain ⟨⟨hm, ho⟩, _⟩ := h
    subst hm; subst ho
    exact ⟨rfl, by simp, rfl⟩
  | cons t rest ih =>
    unfold State.addMachinesLoop at h
    split at h
    · simp at h
    · rename_i mdoc addOps db2 heq
      split at h
      · simp at h
      · rename_i mdocs2 ops2 db3 heq2
        simp only [Prod.mk.injEq, Except.ok.injEq] at h
        obtain ⟨⟨hm, ho⟩, hdb⟩ := h
        subst hm; subst ho; subst hdb
        obtain ⟨hl, hother, hdocs⟩ := ih db2 mdocs2 ops2 heq2
        obtain ⟨hother1, hdocs1⟩ := addMachineOps_ok st t db db2 mdoc addOps heq
        refine ⟨by simp [hl], ?_, ?_⟩
        · intro op hop
          rcases List.mem_append.mp hop with h1 | h1
          · exact hother1 op h1
          · exact hother op h1
        · rw [machineDocsOf_append, hdocs1, hdocs]; rfl

theorem ensureAvailabilityLoop_ok (st : State) (cons : Value) (series : String) (left : Nat)
    (db db1 : DB) (mdocs : List machineDoc) (ops : List Op)
    (h : st.ensureAvailabilityLoop cons series left db = (Except.ok (mdocs, ops), db1)) :
    mdocs.length = left ∧ (∀ op ∈ ops, op.onStateServers = false) ∧
      machineDocsOf ops = mdocs := by
  induction left generalizing db mdocs ops with
  | zero =>
    simp only [State.ensureAvailabilityLoop, Prod.mk.injEq, Except.ok.injEq] at h
    obtain ⟨⟨hm, ho⟩, _⟩ := h
    subst hm; subst ho
    exact ⟨rfl, by simp, rfl⟩
  | succ k ih =>
    unfold State.ensureAvailabilityLoop at h
    split at h
    · simp at h
    · rename_i mdoc addOps db2 heq
      split at h
      · simp at h
      · rename_i mdocs2 ops2 db3 heq2
        simp only [Prod.mk.injEq, Except.ok.injEq] at h
        obtain ⟨⟨hm, ho⟩, hdb⟩ := h
        subst hm; subst ho; subst hdb
        obtain ⟨hl, hother, hdocs⟩ := ih db2 mdocs2 ops2 heq2
        obtain ⟨hother1, hdocs1⟩ :=
          addMachineOps_ok st (stateServerTemplate cons series) db db2 mdoc addOps heq
        refine ⟨by simp [hl], ?_, ?_⟩
        · intro op hop
          rcases List.mem_append.mp hop with h1 | h1
          · exact hother1 op h1
          · exact hother op h1
        · rw [machineDocsOf_append, hdocs1, hdocs]; rfl

theorem runTransaction_ok (st : State) (ops : List Op) (db db1 : DB)
    (h : st.runTransaction ops db = (none, db1)) :
    db1.stateServers = ops.foldl applyOp db.stateServers ∧ db1.sequences = db.sequences ∧
      db1.log = db.log ++ [Event.runTransaction ops] := by
  unfold State.runTransaction at h
  split at h
  · simp at h
  · split at h
    · simp only [Prod.mk.injEq, true_and] at h
      subst h
      exact ⟨rfl, rfl, rfl⟩
    · simp at h

theorem runTransaction_log (st : State) (ops : List Op) (db : DB) :
    (st.runTransaction ops db).2.log = db.log ++ [Event.runTransaction ops] ∧
    (st.runTransaction ops db).2.sequences = db.sequences := by
  unfold State.runTransaction
  split
  · exact ⟨rfl, rfl⟩
  · split <;> exact ⟨rfl, rfl⟩

theorem runTransaction_err (st : State) (ops : List Op) (db db1 : DB) (e : Error)
    (h : st.runTransaction ops db = (some e, db1)) :
    db1 = db.record (Event.runTransaction ops) := by
  unfold State.runTransaction at h
  split at h
  · simp only [Prod.mk.injEq] at h; exact h.2.symm
  · split at h
    · simp at h
    · simp only [Prod.mk.injEq] at h; exact h.2.symm


/-! ## The quorum update -/

theorem maintainStateServersOps_ok (st : State) (mdocs : List machineDoc)
    (currentInfo : Option StateServerInfo) (db db1 : DB) (ops : List Op)
    (h : st.maintainStateServersOps mdocs currentInfo db = (Except.ok ops, db1)) :
    ((newStateServerIds mdocs).1 = [] ∧ ops = [] ∧ db1 = db) ∨
    (∃ info : StateServerInfo,
      ops = [stateServersOp info (newStateServerIds mdocs).1 (newStateServerIds mdocs).2] ∧
      (newStateServerIds mdocs).1 ≠ [] ∧
      ((currentInfo = some info ∧ db1 = db) ∨
       (currentInfo = none ∧ info = db.stateServers ∧ info.MachineIds = [] ∧
        info.VotingMachineIds = [] ∧ (∃ doc, mdocs = [doc] ∧ doc.Id = "0") ∧
        db1 = db.record Event.stateServerInfo))) := by
  unfold State.maintainStateServersOps at h
  split at h
  · rename_i hlen
    simp only [Prod.mk.injEq, Except.ok.injEq] at h
    exact Or.inl ⟨List.length_eq_zero.mp hlen, h.1.symm, h.2.symm⟩
  · rename_i hlen
    have hne : (newStateServerIds mdocs).1 ≠ [] := fun hnil => hlen (by rw [hnil]; rfl)
    right
    split at h
    · rename_i info
      simp only [Prod.mk.injEq, Except.ok.injEq] at h
      exact ⟨info, h.1.symm, hne, Or.inl ⟨rfl, h.2.symm⟩⟩
    · rename_i doc
      split at h
      · simp at h
      · rename_i hid
        split at h
        · simp at h
        · rename_i info db2 heq
          obtain ⟨hinfo, hdb2⟩ := StateServerInfo_ok st db db2 info heq
          split at h
          · simp at h
          · rename_i hempty
            simp only [Prod.mk.injEq, Except.ok.injEq] at h
            have hm : info.MachineIds = [] := by
              apply List.length_eq_zero.mp
              have : ¬ info.MachineIds.length > 0 := fun hh => hempty (Or.inl hh)
              omega
            have hv : info.VotingMachineIds = [] := by
              apply List.length_eq_zero.mp
              have : ¬ info.VotingMachineIds.length > 0 := fun hh => hempty (Or.inr hh)
              omega
            refine ⟨info, h.1.symm, hne, Or.inr ⟨rfl, hinfo, hm, hv, ⟨doc, rfl, ?_⟩, ?_⟩⟩
            · exact not_not.mp hid
            · rw [← h.2, hdb2]
    · simp at h

theorem foldl_applyOp_stateServersOp (s info : StateServerInfo) (ids vids : List String) :
    [stateServersOp info ids vids].foldl applyOp s =
      { MachineIds := addToSet s.MachineIds ids,
        VotingMachineIds := addToSet s.VotingMachineIds vids } := by
  rw [List.foldl_cons, List.foldl_nil, applyOp_stateServersOp]

theorem addToSet_subset (xs ys as bs : List String) (h1 : xs ⊆ ys) (h2 : as ⊆ bs) :
    addToSet xs as ⊆ addToSet ys bs := by
  intro x hx
  rw [mem_addToSet] at hx ⊢
  rcases hx with h | h
  · exact Or.inl (h1 h)
  · exact Or.inr (h2 h)

theorem EnsureAvailability_ok (st : State) (MaxPeers n : Int) (cons : Value) (series : String)
    (db db1 : DB) (h : st.EnsureAvailability MaxPeers n cons series db = (none, db1)) :
    n.tmod 2 = 1 ∧ 0 < n ∧ n ≤ MaxPeers ∧
    (((db.stateServers.VotingMachineIds.length : Int) = n ∧
        db1 = db.record Event.stateServerInfo) ∨
     ((db.stateServers.VotingMachineIds.length : Int) < n ∧
      (db.stateServers.MachineIds.length : Int) ≤ n ∧
      ∃ mdocs ops ssOps db2 db3,
        st.ensureAvailabilityLoop cons series
          (n - (db.stateServers.MachineIds.length : Int)).toNat
          (db.record Event.stateServerInfo) = (Except.ok (mdocs, ops), db2) ∧
        st.maintainStateServersOps mdocs (some db.stateServers) db2 = (Except.ok ssOps, db3) ∧
        st.runTransaction (ops ++ ssOps) db3 = (none, db1))) := by
  unfold State.EnsureAvailability at h
  split at h
  · simp at h
  · rename_i hodd
    split at h
    · simp at h
    · rename_i hmax
      have h1 : n.tmod 2 = 1 := not_not.mp (fun hh => hodd (Or.inl hh))
      have h2 : 0 < n := not_le.mp (fun hh => hodd (Or.inr hh))
      refine ⟨h1, h2, not_lt.mp hmax, ?_⟩
      split at h
      · simp at h
      · rename_i info dbr heq
        obtain ⟨hinfo, hdbr⟩ := StateServerInfo_ok st db dbr info heq
        subst hinfo
        subst hdbr
        split at h
        · rename_i heqn
          simp only [Prod.mk.injEq, true_and] at h
          exact Or.inl ⟨heqn, h.symm⟩
        · rename_i hne
          split at h
          · simp at h
          · rename_i hgt
            split at h
            · simp [makeslicePanic] at h
            · rename_i hcap
              split at h
              · simp at h
              · rename_i mdocs ops db2 heq2
                split at h
                · simp at h
                · rename_i ssOps db3 heq3
                  split at h
                  · simp at h
                  · rename_i db4 heq4
                    simp only [Prod.mk.injEq, true_and] at h
                    subst h
                    right
                    refine ⟨by omega, by omega, mdocs, ops, ssOps, db2, db3, heq2, heq3, heq4⟩

theorem AddMachines_ok (st : State) (templates : List MachineTemplate) (db db1 : DB)
    (ms : List Machine) (h : st.AddMachines templates db = (Except.ok ms, db1)) :
    st.environ = Except.ok Life.Alive ∧
    ∃ mdocs ops ssOps db2 db3,
      st.addMachinesLoop templates (db.record Event.environment) = (Except.ok (mdocs, ops), db2) ∧
      st.maintainStateServersOps mdocs none db2 = (Except.ok ssOps, db3) ∧
      st.runTransaction (ops ++ ssOps ++ [assertAliveOp]) db3 = (none, db1) ∧
      ms = mdocs.map (fun mdoc => { doc := mdoc }) := by
  unfold State.AddMachines at h
  split at h
  · simp at h
  · rename_i ms1 dbx heq
    simp only [Prod.mk.injEq, Except.ok.injEq] at h
    obtain ⟨hms, hdb⟩ := h
    subst hms; subst hdb
    unfold State.addMachinesBody at heq
    split at heq
    · simp at heq
    · rename_i life dbe heqe
      simp only [State.Environment, Prod.mk.injEq] at heqe
      obtain ⟨henv, hdbe⟩ := heqe
      subst hdbe
      split at heq
      · simp at heq
      · rename_i halive
        have hlife : life = Life.Alive := not_not.mp halive
        subst hlife
        refine ⟨henv, ?_⟩
        split at heq
        · simp at heq
        · rename_i mdocs ops db2 heq2
          split at heq
          · simp at heq
          · rename_i ssOps db3 heq3
            split at heq
            · simp at heq
            · rename_i db4 heq4
              simp only [Prod.mk.injEq, Except.ok.injEq] at heq
              obtain ⟨hms, hdb⟩ := heq
              subst hms; subst hdb
              exact ⟨mdocs, ops, ssOps, db2, db3, heq2, heq3, heq4, rfl⟩


/-- C1: `EnsureAvailability(3, ...)` on a cluster whose single state server does not
vote returns without error, adds two machines and leaves two voting machine ids, not
three: the number of new machines is taken from `len(MachineIds)`. -/
theorem C1_nonvoting_server_leaves_two_voters :
    (healthy.EnsureAvailability 7 3 Value.zero "precise"
      { stateServers := { MachineIds := ["0"], VotingMachineIds := [] },
        sequences := fun k => if k = "machine" then 1 else 0,
        log := [] }).1 = none ∧
    (healthy.EnsureAvailability 7 3 Value.zero "precise"
      { stateServers := { MachineIds := ["0"], VotingMachineIds := [] },
        sequences := fun k => if k = "machine" then 1 else 0,
        log := [] }).2.stateServers =
      { MachineIds := ["0", "1", "2"], VotingMachineIds := ["1", "2"] } := by
  decide

/-- C2: a store with an even, non-zero number of voting machine ids is reachable from
the empty store: the bootstrap machine is added with `NoVote`, then
`EnsureAvailability(3, ...)` succeeds and leaves the two voters "1" and "2". -/
theorem C2_even_voting_count_reachable :
    Reachable 7
      (healthy.EnsureAvailability 7 3 Value.zero "precise"
        (healthy.AddMachines [bootstrapNoVote] DB.empty).2).2 ∧
    (healthy.EnsureAvailability 7 3 Value.zero "precise"
        (healthy.AddMachines [bootstrapNoVote] DB.empty).2).2.stateServers =
      { MachineIds := ["0", "1", "2"], VotingMachineIds := ["1", "2"] } := by
  refine ⟨?_, by decide⟩
  refine Reachable.ensureAvailability healthy 3 Value.zero "precise"
    (healthy.AddMachines [bootstrapNoVote] DB.empty).2 _ ?_ rfl
  exact Reachable.addMachines healthy [bootstrapNoVote] DB.empty _
    [{ doc := machineDocForTemplate
        { bootstrapNoVote with Constraints := Value.zero } "0" }]
    (Reachable.init DB.empty rfl) rfl

/-- C3: the update built by `maintainStateServersOps` keeps
`VotingMachineIds ⊆ MachineIds`: every id placed in `newVotingIds` is also placed in
`newIds`, so applying the operations to a document that satisfies the inclusion, or
submitting them to a store whose document satisfies it, gives a document that still
satisfies it. -/
theorem C3_update_preserves_voting_subset (st : State) (mdocs : List machineDoc)
    (currentInfo : Option StateServerInfo) (db db1 : DB) (ops : List Op) (s : StateServerInfo)
    (hops : st.maintainStateServersOps mdocs currentInfo db = (Except.ok ops, db1))
    (hs : s.VotingMachineIds ⊆ s.MachineIds) :
    (newStateServerIds mdocs).2 ⊆ (newStateServerIds mdocs).1 ∧
    (ops.foldl applyOp s).VotingMachineIds ⊆ (ops.foldl applyOp s).MachineIds ∧
    ∀ (st2 : State) (log : List Event) (sequences : String → Nat),
      (st2.runTransaction ops
          { stateServers := s, sequences := sequences, log := log }).2.stateServers.VotingMachineIds ⊆
        (st2.runTransaction ops
          { stateServers := s, sequences := sequences, log := log }).2.stateServers.MachineIds := by
  have hsub := newStateServerIds_voting_subset mdocs
  have hfold : (ops.foldl applyOp s).VotingMachineIds ⊆ (ops.foldl applyOp s).MachineIds := by
    rcases maintainStateServersOps_ok st mdocs currentInfo db db1 ops hops with
      ⟨_, hnil, _⟩ | ⟨info, hop, _, _⟩
    · rw [hnil]; exact hs
    · rw [hop, foldl_applyOp_stateServersOp]
      exact addToSet_subset _ _ _ _ hs hsub
  refine ⟨hsub, hfold, ?_⟩
  intro st2 log sequences
  unfold State.runTransaction
  split
  · exact hs
  · split
    · exact hfold
    · exact hs

/-- C3 at a concrete input: two new voting state servers are added to a cluster of
one. -/
theorem C3_update_preserves_voting_subset_witness :
    (newStateServerIds
      [machineDocForTemplate (stateServerTemplate Value.zero "precise") "1",
       machineDocForTemplate (stateServerTemplate Value.zero "precise") "2"]).2 ⊆
      (newStateServerIds
      [machineDocForTemplate (stateServerTemplate Value.zero "precise") "1",
       machineDocForTemplate (stateServerTemplate Value.zero "precise") "2"]).1 ∧
    ([stateServersOp { MachineIds := ["0"], VotingMachineIds := ["0"] } ["1", "2"]
        ["1", "2"]].foldl applyOp
      { MachineIds := ["0"], VotingMachineIds := ["0"] }).VotingMachineIds ⊆
    ([stateServersOp { MachineIds := ["0"], VotingMachineIds := ["0"] } ["1", "2"]
        ["1", "2"]].foldl applyOp
      { MachineIds := ["0"], VotingMachineIds := ["0"] }).MachineIds :=
  let h := C3_update_preserves_voting_subset healthy
    [machineDocForTemplate (stateServerTemplate Value.zero "precise") "1",
     machineDocForTemplate (stateServerTemplate Value.zero "precise") "2"]
    (some { MachineIds := ["0"], VotingMachineIds := ["0"] }) DB.empty DB.empty
    [stateServersOp { MachineIds := ["0"], VotingMachineIds := ["0"] } ["1", "2"] ["1", "2"]]
    { MachineIds := ["0"], VotingMachineIds := ["0"] } rfl (by decide)
  ⟨h.1, h.2.1⟩

theorem foldl_applyOp_batch (s : StateServerInfo) (ops ssOps tail : List Op)
    (hops : ∀ op ∈ ops, op.onStateServers = false)
    (htail : ∀ op ∈ tail, op.onStateServers = false) :
    (ops ++ ssOps ++ tail).foldl applyOp s = ssOps.foldl applyOp s := by
  rw [List.foldl_append, List.foldl_append, foldl_applyOp_other ops s hops,
    foldl_applyOp_other tail _ htail]

theorem quorum_after_update (s : StateServerInfo) (mdocs : List machineDoc) (ssOps : List Op)
    (hsub : s.VotingMachineIds ⊆ s.MachineIds) (hnd : s.VotingMachineIds.Nodup)
    (hss : ssOps = [] ∨ ∃ info : StateServerInfo,
      ssOps = [stateServersOp info (newStateServerIds mdocs).1 (newStateServerIds mdocs).2]) :
    (ssOps.foldl applyOp s).VotingMachineIds ⊆ (ssOps.foldl applyOp s).MachineIds ∧
    (ssOps.foldl applyOp s).VotingMachineIds.Nodup ∧
    (ssOps.foldl applyOp s).VotingMachineIds.length ≤
      s.VotingMachineIds.length + mdocs.length := by
  rcases hss with h | ⟨info, h⟩
  · subst h
    exact ⟨hsub, hnd, by simp⟩
  · subst h
    rw [foldl_applyOp_stateServersOp]
    refine ⟨addToSet_subset _ _ _ _ hsub (newStateServerIds_voting_subset mdocs),
      addToSet_nodup _ _ hnd, ?_⟩
    have h1 := addToSet_length_le (newStateServerIds mdocs).2 s.VotingMachineIds
    have h2 := newStateServerIds_length_le mdocs
    simp only at h1 ⊢
    omega

theorem assertAliveOp_other : ∀ op ∈ [assertAliveOp], op.onStateServers = false := by
  intro op hop
  rw [List.mem_singleton] at hop
  subst hop
  simp [Op.onStateServers, assertAliveOp, environmentsC, stateServersC]

theorem reachable_quorum (MaxPeers : Int) (hmax : 1 ≤ MaxPeers) (db : DB)
    (hr : Reachable MaxPeers db) :
    db.stateServers.VotingMachineIds ⊆ db.stateServers.MachineIds ∧
    db.stateServers.VotingMachineIds.Nodup ∧
    (db.stateServers.VotingMachineIds.length : Int) ≤ MaxPeers := by
  induction hr with
  | init db h =>
    rw [h]
    exact ⟨by simp [StateServerInfo.empty], by simp [StateServerInfo.empty],
      by simp [StateServerInfo.empty]; omega⟩
  | addMachines st templates db db1 ms _ hcall ih =>
    obtain ⟨hsub, hnd, hlen⟩ := ih
    obtain ⟨_, mdocs, ops, ssOps, db2, db3, hloop, hmaint, htxn, _⟩ :=
      AddMachines_ok st templates db db1 ms hcall
    have hf2 : db2.stateServers = db.stateServers := by
      have := (addMachinesLoop_noCommit st templates (db.record Event.environment)).1
      rw [hloop] at this
      exact this
    have hf3 : db3.stateServers = db2.stateServers := by
      have := (maintainStateServersOps_readOnly st mdocs none db2).1
      rw [hmaint] at this
      exact this
    obtain ⟨_, hother, _⟩ := addMachinesLoop_ok st templates _ db2 mdocs ops hloop
    obtain ⟨hs1, _, _⟩ := runTransaction_ok st _ db3 db1 htxn
    rw [foldl_applyOp_batch _ ops ssOps [assertAliveOp] hother assertAliveOp_other, hf3, hf2]
      at hs1
    rcases maintainStateServersOps_ok st mdocs none db2 db3 ssOps hmaint with
      ⟨_, hnil, _⟩ | ⟨info, hop, _, hcase⟩
    · subst hnil
      rw [hs1]
      exact ⟨hsub, hnd, hlen⟩
    · rcases hcase with ⟨hsome, _⟩ | ⟨_, hinfo, _, hv, ⟨doc, hdoc, _⟩, _⟩
      · exact absurd hsome (by simp)
      · obtain ⟨q1, q2, q3⟩ := quorum_after_update db.stateServers mdocs ssOps hsub hnd
          (Or.inr ⟨info, hop⟩)
        rw [hs1]
        refine ⟨q1, q2, ?_⟩
        rw [hinfo, hf2] at hv
        rw [hv, hdoc] at q3
        simp only [List.length_nil, List.length_singleton] at q3
        omega
  | ensureAvailability st n cons series db db1 _ hcall ih =>
    obtain ⟨hsub, hnd, hlen⟩ := ih
    obtain ⟨_, _, hn, hcase⟩ := EnsureAvailability_ok st MaxPeers n cons series db db1 hcall
    rcases hcase with ⟨_, hdb⟩ | ⟨hv, hm, mdocs, ops, ssOps, db2, db3, hloop, hmaint, htxn⟩
    · subst hdb
      exact ⟨hsub, hnd, hlen⟩
    · have hf2 : db2.stateServers = db.stateServers := by
        have := (ensureAvailabilityLoop_noCommit st cons series
          (n - (db.stateServers.MachineIds.length : Int)).toNat
          (db.record Event.stateServerInfo)).1
        rw [hloop] at this
        exact this
      have hf3 : db3.stateServers = db2.stateServers := by
        have := (maintainStateServersOps_readOnly st mdocs (some db.stateServers) db2).1
        rw [hmaint] at this
        exact this
      obtain ⟨hcount, hother, _⟩ := ensureAvailabilityLoop_ok st cons series _ _ db2 mdocs ops hloop
      obtain ⟨hs1, _, _⟩ := runTransaction_ok st _ db3 db1 htxn
      have hb := foldl_applyOp_batch db3.stateServers ops ssOps [] hother (by simp)
      rw [List.append_nil] at hb
      rw [hb, hf3, hf2] at hs1
      have hss : ssOps = [] ∨ ∃ info : StateServerInfo,
          ssOps = [stateServersOp info (newStateServerIds mdocs).1 (newStateServerIds mdocs).2] := by
        rcases maintainStateServersOps_ok st mdocs _ db2 db3 ssOps hmaint with
          ⟨_, hnil, _⟩ | ⟨info, hop, _, _⟩
        · exact Or.inl hnil
        · exact Or.inr ⟨info, hop⟩
      obtain ⟨q1, q2, q3⟩ := quorum_after_update db.stateServers mdocs ssOps hsub hnd hss
      rw [hs1]
      refine ⟨q1, q2, ?_⟩
      have hle : db.stateServers.VotingMachineIds.length ≤ db.stateServers.MachineIds.length :=
        (List.subperm_of_subset hnd hsub).length_le
      rw [hcount] at q3
      omega

/-- C4: in every store reachable from an empty state-servers document by successful
`AddMachines` and `EnsureAvailability` calls, the number of voting machine ids is at
most `replicaset.MaxPeers` (for every value of that constant that allows one peer). -/
theorem C4_voting_count_within_ceiling (MaxPeers : Int) (hmax : 1 ≤ MaxPeers) (db : DB)
    (hr : Reachable MaxPeers db) :
    (db.stateServers.VotingMachineIds.length : Int) ≤ MaxPeers :=
  (reachable_quorum MaxPeers hmax db hr).2.2

/-- C4 at a concrete store: the bootstrap machine followed by `EnsureAvailability(3)`
with a ceiling of 7. -/
theorem C4_voting_count_within_ceiling_witness :
    (((1 : Int) ≤ 7) ∧
      Reachable 7 (healthy.EnsureAvailability 7 3 Value.zero "precise"
        (healthy.AddMachines [{ bootstrapNoVote with NoVote := false }] DB.empty).2).2) ∧
    (((healthy.EnsureAvailability 7 3 Value.zero "precise"
        (healthy.AddMachines [{ bootstrapNoVote with NoVote := false }]
          DB.empty).2).2.stateServers.VotingMachineIds.length : Int) ≤ 7) :=
  have hr : Reachable 7 (healthy.EnsureAvailability 7 3 Value.zero "precise"
      (healthy.AddMachines [{ bootstrapNoVote with NoVote := false }] DB.empty).2).2 :=
    Reachable.ensureAvailability healthy 3 Value.zero "precise"
      (healthy.AddMachines [{ bootstrapNoVote with NoVote := false }] DB.empty).2 _
      (Reachable.addMachines healthy [{ bootstrapNoVote with NoVote := false }] DB.empty _
        [{ doc := machineDocForTemplate
            { bootstrapNoVote with NoVote := false, Constraints := Value.zero } "0" }]
        (Reachable.init DB.empty rfl) rfl) rfl
  ⟨⟨by decide, hr⟩, C4_voting_count_within_ceiling 7 (by decide) _ hr⟩

theorem StateServerInfo_db (st : State) (db : DB) :
    (st.StateServerInfo db).2 = db.record Event.stateServerInfo := by
  unfold State.StateServerInfo
  split <;> rfl

theorem NoCommit.log_extends {a b : DB} (h : NoCommit a b) : ∃ es, b.log = a.log ++ es := by
  obtain ⟨_, es, hl, _⟩ := h
  exact ⟨es, hl⟩

theorem EnsureAvailability_past_check (st : State) (MaxPeers n : Int) (cons : Value)
    (series : String) (db : DB) (hodd : ¬ (n.tmod 2 ≠ 1 ∨ n ≤ 0)) (hmax : ¬ n > MaxPeers) :
    ∃ es, (st.EnsureAvailability MaxPeers n cons series db).2.log =
      db.log ++ Event.stateServerInfo :: es := by
  have hinfo := StateServerInfo_db st db
  unfold State.EnsureAvailability
  rw [if_neg hodd, if_neg hmax]
  split
  · rename_i heq
    rw [heq] at hinfo
    simp only at hinfo
    subst hinfo
    exact ⟨[], rfl⟩
  · rename_i info dbr heq
    rw [heq] at hinfo
    simp only at hinfo
    subst hinfo
    split
    · exact ⟨[], rfl⟩
    · split
      · exact ⟨[], rfl⟩
      · split
        · exact ⟨[], rfl⟩
        · have h2 := (ensureAvailabilityLoop_noCommit st cons series
            (n - (info.MachineIds.length : Int)).toNat
            (db.record Event.stateServerInfo)).log_extends
          split
          · rename_i heq2
            rw [heq2] at h2
            obtain ⟨es2, h2⟩ := h2
            simp only at h2
            exact ⟨es2, by rw [h2]; simp [DB.record]⟩
          · rename_i mdocs ops db2 heq2
            rw [heq2] at h2
            obtain ⟨es2, h2⟩ := h2
            simp only at h2
            have h3 := (maintainStateServersOps_readOnly st mdocs (some info)
              db2).noCommit.log_extends
            split
            · rename_i heq3
              rw [heq3] at h3
              obtain ⟨es3, h3⟩ := h3
              simp only at h3
              exact ⟨es2 ++ es3, by rw [h3, h2]; simp [DB.record]⟩
            · rename_i ssOps db3 heq3
              rw [heq3] at h3
              obtain ⟨es3, h3⟩ := h3
              simp only at h3
              have h4 := (runTransaction_log st (ops ++ ssOps) db3).1
              split
              · rename_i heq4
                rw [heq4] at h4
                simp only at h4
                exact ⟨es2 ++ (es3 ++ [Event.runTransaction (ops ++ ssOps)]), by
                  rw [h4, h3, h2]; simp [DB.record]⟩
              · rename_i heq4
                rw [heq4] at h4
                simp only at h4
                exact ⟨es2 ++ (es3 ++ [Event.runTransaction (ops ++ ssOps)]), by
                  rw [h4, h3, h2]; simp [DB.record]⟩

theorem tooLarge_ne_mustBeOdd (x : String) :
    "state server count is too large (allowed " ++ x ++ ")" ≠
      "number of state servers must be odd and greater than zero" := by
  intro h
  have h1 := congrArg (fun s : String => s.data.head?) h
  simp at h1

/-- C5: `EnsureAvailability(n, ...)` fails at its argument check, returning an error
with the store and the log of collaborator calls exactly as they were, iff `n` is
even, `n ≤ 0` or `n > replicaset.MaxPeers`; the error is the one of the check that
fails.  For every other `n` the call goes on to read the state-servers document. -/
theorem C5_argument_check (st : State) (MaxPeers n : Int) (cons : Value) (series : String)
    (db : DB) :
    ((n % 2 = 0 ∨ n ≤ 0 ∨ n > MaxPeers) ↔
      ∃ e, st.EnsureAvailability MaxPeers n cons series db = (some e, db)) ∧
    ((n % 2 = 0 ∨ n ≤ 0) ↔
      st.EnsureAvailability MaxPeers n cons series db =
        (some (Errorf "number of state servers must be odd and greater than zero"), db)) ∧
    ((¬ (n % 2 = 0 ∨ n ≤ 0) ∧ n > MaxPeers) ↔
      st.EnsureAvailability MaxPeers n cons series db =
        (some (Errorf ("state server count is too large (allowed " ++ toString MaxPeers
          ++ ")")), db)) ∧
    (¬ (n % 2 = 0 ∨ n ≤ 0 ∨ n > MaxPeers) →
      ∃ es, (st.EnsureAvailability MaxPeers n cons series db).2.log =
        db.log ++ Event.stateServerInfo :: es) := by
  have hgo : ¬ (n % 2 = 0 ∨ n ≤ 0 ∨ n > MaxPeers) →
      ∃ es, (st.EnsureAvailability MaxPeers n cons series db).2.log =
        db.log ++ Event.stateServerInfo :: es := by
    intro hok
    have hpos : 0 < n := by omega
    have ht : n.tmod 2 = n % 2 := Int.tmod_eq_emod (by omega) (by omega)
    exact EnsureAvailability_past_check st MaxPeers n cons series db
      (by rw [ht]; omega) (by omega)
  have hnot : ¬ (n % 2 = 0 ∨ n ≤ 0 ∨ n > MaxPeers) →
      ∀ e, st.EnsureAvailability MaxPeers n cons series db ≠ (some e, db) := by
    intro hok e heq
    obtain ⟨es, hes⟩ := hgo hok
    rw [heq] at hes
    have := congrArg List.length hes
    simp at this
  have hfirst : (n % 2 = 0 ∨ n ≤ 0) →
      st.EnsureAvailability MaxPeers n cons series db =
        (some (Errorf "number of state servers must be odd and greater than zero"), db) := by
    intro hbad
    have hc : n.tmod 2 ≠ 1 ∨ n ≤ 0 := by
      by_cases hpos : 0 < n
      · have ht : n.tmod 2 = n % 2 := Int.tmod_eq_emod (by omega) (by omega)
        left; rw [ht]; omega
      · right; omega
    unfold State.EnsureAvailability
    rw [if_pos hc]
  have hsecond : ¬ (n % 2 = 0 ∨ n ≤ 0) → n > MaxPeers →
      st.EnsureAvailability MaxPeers n cons series db =
        (some (Errorf ("state server count is too large (allowed " ++ toString MaxPeers
          ++ ")")), db) := by
    intro hgood hbig
    have hpos : 0 < n := by omega
    have ht : n.tmod 2 = n % 2 := Int.tmod_eq_emod (by omega) (by omega)
    have hc : ¬ (n.tmod 2 ≠ 1 ∨ n ≤ 0) := by rw [ht]; omega
    unfold State.EnsureAvailability
    rw [if_neg hc, if_pos hbig]
  refine ⟨⟨?_, ?_⟩, ⟨hfirst, ?_⟩, ⟨fun h => hsecond h.1 h.2, ?_⟩, hgo⟩
  · intro hbad
    by_cases h1 : n % 2 = 0 ∨ n ≤ 0
    · exact ⟨_, hfirst h1⟩
    · exact ⟨_, hsecond h1 (by omega)⟩
  · rintro ⟨e, he⟩
    by_contra hok
    exact hnot hok e he
  · intro heq
    by_contra h1
    by_cases h2 : n > MaxPeers
    · rw [hsecond h1 h2] at heq
      simp only [Errorf, Prod.mk.injEq, Option.some.injEq, Error.mk.injEq, and_true] at heq
      exact tooLarge_ne_mustBeOdd _ heq
    · exact hnot (by omega) _ heq
  · intro heq
    by_cases h1 : n % 2 = 0 ∨ n ≤ 0
    · rw [hfirst h1] at heq
      simp only [Errorf, Prod.mk.injEq, Option.some.injEq, Error.mk.injEq, and_true] at heq
      exact absurd heq.symm (tooLarge_ne_mustBeOdd _)
    · refine ⟨h1, ?_⟩
      by_contra h2
      exact hnot (by omega) _ heq

/-! ## Scaling up a fully voting cluster -/

theorem digitChar_value (d : Nat) (h : d < 10) : (Nat.digitChar d).toNat - 48 = d := by
  interval_cases d <;> rfl

theorem digitsValue_toDigitsCore (fuel n : Nat) (ds : List Char) (h : n < fuel) :
    digitsValue (Nat.toDigitsCore 10 fuel n ds) 0 = digitsValue ds n := by
  induction fuel generalizing n ds with
  | zero => omega
  | succ f ih =>
    rw [Nat.toDigitsCore]
    split
    · rename_i hz
      simp only [digitsValue, List.foldl_cons, Nat.mul_zero, Nat.zero_add]
      rw [digitChar_value _ (Nat.mod_lt _ (by decide))]
      have : n % 10 = n := by omega
      rw [this]
    · rename_i hz
      rw [ih (n / 10) _ (by omega)]
      simp only [digitsValue, List.foldl_cons]
      rw [digitChar_value _ (Nat.mod_lt _ (by decide))]
      have : 10 * (n / 10) + n % 10 = n := Nat.div_add_mod n 10
      rw [this]

theorem Itoa_injective : Function.Injective Itoa := by
  intro a b h
  have h1 : Nat.toDigits 10 a = Nat.toDigits 10 b := by
    have := congrArg String.data h
    simpa [Itoa, toString, Nat.repr, List.asString] using this
  have ha := digitsValue_toDigitsCore (a + 1) a [] (by omega)
  have hb := digitsValue_toDigitsCore (b + 1) b [] (by omega)
  simp only [digitsValue, List.foldl_nil] at ha hb
  rw [← ha, ← hb]
  exact congrArg (fun l => digitsValue l 0) h1

theorem addMachineOps_stateServer (st : State) (cons envCons : Value) (series : String) (db : DB)
    (hseries : series ≠ "") (henv : st.environConstraints = Except.ok envCons)
    (hpre : ∀ s c, st.precheck s c = none)
    (hseq : ∀ i, st.sequenceErr "machine" i = none) :
    ∃ ops db1,
      st.addMachineOps (stateServerTemplate cons series) db =
        (Except.ok (newStateServerDoc cons envCons series (db.sequences "machine"), ops), db1) ∧
      db1.sequences "machine" = db.sequences "machine" + 1 := by
  unfold State.addMachineOps State.effectiveMachineTemplate State.EnvironConstraints
  simp only [stateServerTemplate, MachineTemplate.zero, hseries, henv, if_false]
  simp only [List.length_cons, List.length_nil, duplicateJob]
  simp only [State.precheckInstance, hpre, State.sequence, hseq]
  simp [newStateServerDoc, stateServerTemplate, MachineTemplate.zero]
  exact ⟨_, _, ⟨⟨rfl, rfl⟩, rfl⟩, by simp [DB.record]⟩

theorem ensureAvailabilityLoop_stateServers (st : State) (cons envCons : Value)
    (series : String) (left : Nat) (db : DB)
    (hseries : series ≠ "") (henv : st.environConstraints = Except.ok envCons)
    (hpre : ∀ s c, st.precheck s c = none)
    (hseq : ∀ i, st.sequenceErr "machine" i = none) :
    ∃ ops db1,
      st.ensureAvailabilityLoop cons series left db =
        (Except.ok ((List.range left).map
          (fun j => newStateServerDoc cons envCons series (db.sequences "machine" + j)), ops),
          db1) := by
  induction left generalizing db with
  | zero => exact ⟨[], db, rfl⟩
  | succ k ih =>
    obtain ⟨ops1, db1, h1, hc⟩ :=
      addMachineOps_stateServer st cons envCons series db hseries henv hpre hseq
    obtain ⟨ops2, db2, h2⟩ := ih db1
    refine ⟨ops1 ++ ops2, db2, ?_⟩
    unfold State.ensureAvailabilityLoop
    rw [h1]
    simp only
    rw [h2]
    simp only [Prod.mk.injEq, Except.ok.injEq, and_true]
    rw [List.range_succ_eq_map, List.map_cons, List.map_map, hc]
    simp only [Nat.add_zero, List.cons.injEq, true_and]
    apply List.map_congr_left
    intro j _
    simp only [Function.comp_apply]
    congr 1
    omega

theorem newStateServerIds_all_voting (mdocs : List machineDoc)
    (h : ∀ d ∈ mdocs, hasJob d.Jobs MachineJob.JobManageEnviron = true ∧ d.NoVote = false) :
    newStateServerIds mdocs = (mdocs.map (fun d => d.Id), mdocs.map (fun d => d.Id)) := by
  induction mdocs with
  | nil => rfl
  | cons d rest ih =>
    have hd := h d (List.mem_cons_self d rest)
    have hr := ih (fun x hx => h x (List.mem_cons_of_mem d hx))
    unfold newStateServerIds
    rw [hd.1, hd.2, hr]
    simp

theorem newStateServerDoc_fields (cons envCons : Value) (series : String) (seq : Nat) :
    (newStateServerDoc cons envCons series seq).Id = Itoa seq ∧
    (newStateServerDoc cons envCons series seq).Jobs =
      [MachineJob.JobHostUnits, MachineJob.JobManageEnviron] ∧
    (newStateServerDoc cons envCons series seq).Series = series ∧
    (newStateServerDoc cons envCons series seq).NoVote = false ∧
    (newStateServerDoc cons envCons series seq).ContainerType = "" :=
  ⟨rfl, rfl, rfl, rfl, rfl⟩



theorem stateServerDocs_ids (cons envCons : Value) (series : String) (c count : Nat) :
    newStateServerIds ((List.range count).map
        (fun j => newStateServerDoc cons envCons series (c + j))) =
      ((List.range count).map (fun j => Itoa (c + j)),
       (List.range count).map (fun j => Itoa (c + j))) := by
  rw [newStateServerIds_all_voting]
  · simp only [List.map_map]
    rfl
  · intro d hd
    obtain ⟨j, _, rfl⟩ := List.mem_map.mp hd
    exact ⟨rfl, rfl⟩

theorem freshIds_nodup (c count : Nat) :
    ((List.range count).map (fun j => Itoa (c + j))).Nodup := by
  apply List.Nodup.map
  · intro a b h
    have := Itoa_injective h
    omega
  · exact List.nodup_range count

theorem runTransaction_commit (st : State) (ops : List Op) (info : StateServerInfo)
    (ids vids : List String) (db : DB)
    (htxn : st.txnErr (ops ++ [stateServersOp info ids vids]) = none)
    (hother : ∀ op ∈ ops, op.onStateServers = false)
    (hM : db.stateServers.MachineIds.length = info.MachineIds.length)
    (hV : db.stateServers.VotingMachineIds.length = info.VotingMachineIds.length) :
    st.runTransaction (ops ++ [stateServersOp info ids vids]) db =
      (none,
        { stateServers :=
            { MachineIds := addToSet db.stateServers.MachineIds ids,
              VotingMachineIds := addToSet db.stateServers.VotingMachineIds vids },
          sequences := db.sequences,
          log := db.log ++ [Event.runTransaction (ops ++ [stateServersOp info ids vids])] }) := by
  unfold State.runTransaction
  rw [htxn]
  have hall : (ops ++ [stateServersOp info ids vids]).all
      (fun op => !op.onStateServers || op.Assert.holds db.stateServers) = true := by
    rw [List.all_eq_true]
    intro op hop
    rcases List.mem_append.mp hop with h | h
    · rw [hother op h]; rfl
    · rw [List.mem_singleton] at h
      subst h
      simp [stateServersOp, Assertion.holds, StateServerInfo.field, hM, hV]
  simp only [hall, if_true]
  have hb := foldl_applyOp_batch db.stateServers ops [stateServersOp info ids vids] [] hother
    (by simp)
  rw [List.append_nil] at hb
  rw [hb, foldl_applyOp_stateServersOp]


/-- C6: scale-up from a fully voting cluster.  With `k` machine ids that all vote,
a valid target `n > k`, a non-empty series, ids that the "machine" counter has not
handed out yet and every collaborator succeeding, `EnsureAvailability` returns
without error after submitting one batch that inserts exactly `n - k` root machine
documents, each with jobs `[JobHostUnits, JobManageEnviron]`, the given series and
`NoVote` false, together with the quorum update that adds all their ids to both
sets; the stored `VotingMachineIds` then has length `n`. -/
theorem C6_scale_up_fully_voting (st : State) (MaxPeers n : Int) (cons envCons : Value)
    (series : String) (db : DB) (k : Nat)
    (hodd : n % 2 = 1) (hpos : 0 < n) (hmax : n ≤ MaxPeers)
    (hM : db.stateServers.MachineIds.length = k)
    (hV : db.stateServers.VotingMachineIds.length = k)
    (hk : (k : Int) < n)
    (hfreshM : ∀ i, db.sequences "machine" ≤ i → Itoa i ∉ db.stateServers.MachineIds)
    (hfreshV : ∀ i, db.sequences "machine" ≤ i → Itoa i ∉ db.stateServers.VotingMachineIds)
    (hseries : series ≠ "")
    (hinfo : st.stateServerInfoErr = none)
    (henv : st.environConstraints = Except.ok envCons)
    (hpre : ∀ s c, st.precheck s c = none)
    (hseq : ∀ i, st.sequenceErr "machine" i = none)
    (htxn : ∀ ops, st.txnErr ops = none) :
    ∃ db1 batch,
      st.EnsureAvailability MaxPeers n cons series db = (none, db1) ∧
      txnsOf db1.log = txnsOf db.log ++ [batch] ∧
      machineDocsOf batch = (List.range (n - k).toNat).map
        (fun j => newStateServerDoc cons envCons series (db.sequences "machine" + j)) ∧
      ((machineDocsOf batch).length : Int) = n - k ∧
      (∀ d ∈ machineDocsOf batch,
        d.Jobs = [MachineJob.JobHostUnits, MachineJob.JobManageEnviron] ∧
        d.Series = series ∧ d.NoVote = false ∧ d.ContainerType = "") ∧
      stateServersOp db.stateServers ((machineDocsOf batch).map (fun d => d.Id))
        ((machineDocsOf batch).map (fun d => d.Id)) ∈ batch ∧
      db1.stateServers.MachineIds =
        db.stateServers.MachineIds ++ (machineDocsOf batch).map (fun d => d.Id) ∧
      db1.stateServers.VotingMachineIds =
        db.stateServers.VotingMachineIds ++ (machineDocsOf batch).map (fun d => d.Id) ∧
      (db1.stateServers.VotingMachineIds.length : Int) = n := by
  -- the documents and ids of the new machines
  have hcount : (n - (db.stateServers.MachineIds.length : Int)).toNat = (n - k).toNat := by
    rw [hM]
  obtain ⟨ops, db2, hloop⟩ := ensureAvailabilityLoop_stateServers st cons envCons series
    (n - k).toNat (db.record Event.stateServerInfo) hseries henv hpre hseq
  have hseqr : (db.record Event.stateServerInfo).sequences "machine" = db.sequences "machine" :=
    rfl
  rw [hseqr] at hloop
  obtain ⟨_, hother, hdocs⟩ := ensureAvailabilityLoop_ok st cons series _ _ db2 _ ops hloop
  have hnc := ensureAvailabilityLoop_noCommit st cons series (n - k).toNat
    (db.record Event.stateServerInfo)
  rw [hloop] at hnc
  have hss2 : db2.stateServers = db.stateServers := hnc.1
  have hids := stateServerDocs_ids cons envCons series (db.sequences "machine") (n - k).toNat
  have hpos2 : 0 < (n - k).toNat := by omega
  -- the quorum update
  have hmaint : st.maintainStateServersOps ((List.range (n - k).toNat).map
        (fun j => newStateServerDoc cons envCons series (db.sequences "machine" + j)))
      (some db.stateServers) db2 =
      (Except.ok [stateServersOp db.stateServers
        ((List.range (n - k).toNat).map (fun j => Itoa (db.sequences "machine" + j)))
        ((List.range (n - k).toNat).map (fun j => Itoa (db.sequences "machine" + j)))], db2) := by
    unfold State.maintainStateServersOps
    rw [hids]
    have hne : ¬ ((List.range (n - k).toNat).map
        (fun j => Itoa (db.sequences "machine" + j))).length = 0 := by
      simp only [List.length_map, List.length_range]; omega
    simp only [hne, if_false]
  have hcommit := runTransaction_commit st ops db.stateServers
    ((List.range (n - k).toNat).map (fun j => Itoa (db.sequences "machine" + j)))
    ((List.range (n - k).toNat).map (fun j => Itoa (db.sequences "machine" + j)))
    db2 (htxn _) hother (by rw [hss2]) (by rw [hss2])
  have hfresh1 : addToSet db.stateServers.MachineIds
      ((List.range (n - k).toNat).map (fun j => Itoa (db.sequences "machine" + j))) =
      db.stateServers.MachineIds ++
        (List.range (n - k).toNat).map (fun j => Itoa (db.sequences "machine" + j)) := by
    apply addToSet_fresh _ _ (freshIds_nodup _ _)
    intro y hy
    obtain ⟨j, _, rfl⟩ := List.mem_map.mp hy
    exact hfreshM _ (by omega)
  have hfresh2 : addToSet db.stateServers.VotingMachineIds
      ((List.range (n - k).toNat).map (fun j => Itoa (db.sequences "machine" + j))) =
      db.stateServers.VotingMachineIds ++
        (List.range (n - k).toNat).map (fun j => Itoa (db.sequences "machine" + j)) := by
    apply addToSet_fresh _ _ (freshIds_nodup _ _)
    intro y hy
    obtain ⟨j, _, rfl⟩ := List.mem_map.mp hy
    exact hfreshV _ (by omega)
  rw [hss2, hfresh1, hfresh2] at hcommit
  -- the call itself
  have hcall : st.EnsureAvailability MaxPeers n cons series db = (none,
      { stateServers :=
          { MachineIds := db.stateServers.MachineIds ++
              (List.range (n - k).toNat).map (fun j => Itoa (db.sequences "machine" + j)),
            VotingMachineIds := db.stateServers.VotingMachineIds ++
              (List.range (n - k).toNat).map (fun j => Itoa (db.sequences "machine" + j)) },
        sequences := db2.sequences,
        log := db2.log ++ [Event.runTransaction (ops ++ [stateServersOp db.stateServers
          ((List.range (n - k).toNat).map (fun j => Itoa (db.sequences "machine" + j)))
          ((List.range (n - k).toNat).map (fun j => Itoa (db.sequences "machine" + j)))])] }) := by
    have ht : n.tmod 2 = n % 2 := Int.tmod_eq_emod (by omega) (by omega)
    have hc1 : ¬ (n.tmod 2 ≠ 1 ∨ n ≤ 0) := by rw [ht]; omega
    have hc2 : ¬ n > MaxPeers := by omega
    have hc3 : ¬ (db.stateServers.VotingMachineIds.length : Int) = n := by rw [hV]; omega
    have hc4 : ¬ (db.stateServers.VotingMachineIds.length : Int) > n := by rw [hV]; omega
    have hc5 : ¬ n - (db.stateServers.MachineIds.length : Int) < 0 := by rw [hM]; omega
    unfold State.EnsureAvailability
    rw [if_neg hc1, if_neg hc2]
    simp only [State.StateServerInfo, hinfo, hc3, hc4, hc5, if_false, hcount, hloop, hmaint,
      hcommit]
  refine ⟨_, ops ++ [stateServersOp db.stateServers
      ((List.range (n - k).toNat).map (fun j => Itoa (db.sequences "machine" + j)))
      ((List.range (n - k).toNat).map (fun j => Itoa (db.sequences "machine" + j)))],
    hcall, ?_, ?_, ?_, ?_, ?_, ?_, ?_, ?_⟩
  · simp only
    rw [txnsOf_append, hnc.txns]
    simp [DB.record, txnsOf_append, txnsOf]
  · rw [machineDocsOf_append, hdocs]
    simp [machineDocsOf, stateServersOp]
  · rw [machineDocsOf_append, hdocs]
    simp [machineDocsOf, stateServersOp]
    omega
  · intro d hd
    rw [machineDocsOf_append, hdocs] at hd
    simp only [machineDocsOf, stateServersOp, List.append_nil] at hd
    obtain ⟨j, _, rfl⟩ := List.mem_map.mp hd
    exact ⟨rfl, rfl, rfl, rfl⟩
  · rw [machineDocsOf_append, hdocs]
    simp only [machineDocsOf, stateServersOp, List.append_nil, List.map_map]
    exact List.mem_append_right _ (List.mem_singleton.mpr rfl)
  · rw [machineDocsOf_append, hdocs]
    simp only [machineDocsOf, stateServersOp, List.append_nil, List.map_map]
    rfl
  · rw [machineDocsOf_append, hdocs]
    simp only [machineDocsOf, stateServersOp, List.append_nil, List.map_map]
    rfl
  · simp only [List.length_append, List.length_map, List.length_range, hV]
    omega


/-- C6 at a concrete input: one voting state server, target 3: two machines are added
and three machine ids vote. -/
theorem C6_scale_up_fully_voting_witness :
    ∃ db1 batch,
      healthy.EnsureAvailability 7 3 Value.zero "precise" oneVoter = (none, db1) ∧
      ((machineDocsOf batch).length : Int) = 3 - (1 : Nat) ∧
      txnsOf db1.log = txnsOf oneVoter.log ++ [batch] ∧
      (db1.stateServers.VotingMachineIds.length : Int) = 3 := by
  have hfresh : ∀ i, oneVoter.sequences "machine" ≤ i → Itoa i ∉ ["0"] := by
    intro i hi hmem
    rw [List.mem_singleton] at hmem
    have h0 : i = 0 := Itoa_injective (hmem.trans (rfl : "0" = Itoa 0))
    have h1 : oneVoter.sequences "machine" = 1 := rfl
    omega
  obtain ⟨db1, batch, h1, h2, _, h4, _, _, _, _, h9⟩ :=
    C6_scale_up_fully_voting healthy 7 3 Value.zero Value.zero "precise" oneVoter 1
      (by decide) (by decide) (by decide) rfl rfl (by decide) hfresh hfresh (by decide)
      rfl rfl (fun _ _ => rfl) (fun _ => rfl) (fun _ => rfl)
  exact ⟨db1, batch, h1, h4, h2, h9⟩

/-! ## Atomicity of scaling -/

theorem effectiveMachineTemplate_ok (st : State) (p eff : MachineTemplate) (allow : Bool)
    (db db1 : DB) (h : st.effectiveMachineTemplate p allow db = (Except.ok eff, db1)) :
    ∃ envCons, st.environConstraints = Except.ok envCons ∧
      eff = { p with Constraints := { p.Constraints.WithFallbacks envCons with Container := none } } ∧
      db1 = db.record Event.environConstraints := by
  unfold State.effectiveMachineTemplate at h
  split at h
  · simp at h
  · split at h
    · simp at h
    · rename_i envCons dbe heq
      simp only [State.EnvironConstraints, Prod.mk.injEq] at heq
      obtain ⟨henv, hdb⟩ := heq
      subst hdb
      refine ⟨envCons, henv, ?_⟩
      simp only at h
      split at h
      · simp at h
      · split at h
        · simp at h
        · split at h
          · simp at h
          · split at h
            · split at h
              · simp at h
              · simp only [Prod.mk.injEq, Except.ok.injEq] at h
                exact ⟨h.1.symm, h.2.symm⟩
            · split at h
              · simp at h
              · simp only [Prod.mk.injEq, Except.ok.injEq] at h
                exact ⟨h.1.symm, h.2.symm⟩

theorem addMachineOps_doc (st : State) (template : MachineTemplate) (db db1 : DB)
    (mdoc : machineDoc) (ops : List Op)
    (h : st.addMachineOps template db = (Except.ok (mdoc, ops), db1)) :
    ∃ (cons : Value) (seq : Nat),
      mdoc = machineDocForTemplate { template with Constraints := cons } (Itoa seq) := by
  unfold State.addMachineOps at h
  split at h
  · simp at h
  · rename_i eff dbe heq
    obtain ⟨envCons, _, heff, _⟩ := effectiveMachineTemplate_ok st template eff true db dbe heq
    split at h
    · simp at h
    · split at h
      · simp at h
      · rename_i seq _ _
        simp only [Prod.mk.injEq, Except.ok.injEq] at h
        obtain ⟨⟨hm, _⟩, _⟩ := h
        subst hm
        subst heff
        exact ⟨_, seq, rfl⟩

theorem ensureAvailabilityLoop_docs (st : State) (cons : Value) (series : String) (left : Nat)
    (db db1 : DB) (mdocs : List machineDoc) (ops : List Op)
    (h : st.ensureAvailabilityLoop cons series left db = (Except.ok (mdocs, ops), db1)) :
    ∀ d ∈ mdocs, d.Jobs = [MachineJob.JobHostUnits, MachineJob.JobManageEnviron] ∧
      d.Series = series ∧ d.NoVote = false ∧ d.ContainerType = "" := by
  induction left generalizing db mdocs ops with
  | zero =>
    simp only [State.ensureAvailabilityLoop, Prod.mk.injEq, Except.ok.injEq] at h
    obtain ⟨⟨hm, _⟩, _⟩ := h
    subst hm
    simp
  | succ k ih =>
    unfold State.ensureAvailabilityLoop at h
    split at h
    · simp at h
    · rename_i mdoc addOps db2 heq
      split at h
      · simp at h
      · rename_i mdocs2 ops2 db3 heq2
        simp only [Prod.mk.injEq, Except.ok.injEq] at h
        obtain ⟨⟨hm, _⟩, hdb⟩ := h
        subst hm; subst hdb
        intro d hd
        rcases List.mem_cons.mp hd with h1 | h1
        · obtain ⟨c, seq, hdoc⟩ :=
            addMachineOps_doc st (stateServerTemplate cons series) db db2 mdoc addOps heq
          rw [h1, hdoc]
          exact ⟨rfl, rfl, rfl, rfl⟩
        · exact ih db2 mdocs2 ops2 heq2 d h1

theorem maintainStateServersOps_some (st : State) (mdocs : List machineDoc)
    (info : StateServerInfo) (db : DB) :
    st.maintainStateServersOps mdocs (some info) db =
      (Except.ok (if (newStateServerIds mdocs).1.length = 0 then []
        else [stateServersOp info (newStateServerIds mdocs).1 (newStateServerIds mdocs).2]), db) := by
  unfold State.maintainStateServersOps
  split <;> rfl

theorem noCommit_frame {a b : DB} (h : NoCommit a b) :
    txnsOf b.log = txnsOf a.log ∧ b.stateServers = a.stateServers :=
  ⟨h.txns, h.1⟩

/-- C7: atomicity of scaling.  Every call of `EnsureAvailability` either submits no
transaction and leaves the state-servers document as it was, or submits exactly one
batch, after all `n - len(MachineIds)` machines were built and the quorum update was
planned; that batch holds the inserts of all the new machine documents and, when
there is one, the quorum update for their ids.  When building a machine fails
(validation, precheck or sequence allocation) the call returns that error and no
transaction is submitted.  Planning the quorum update cannot fail on this path. -/
theorem C7_single_atomic_commit (st : State) (MaxPeers n : Int) (cons : Value)
    (series : String) (db : DB) :
    ((txnsOf (st.EnsureAvailability MaxPeers n cons series db).2.log = txnsOf db.log ∧
        (st.EnsureAvailability MaxPeers n cons series db).2.stateServers = db.stateServers) ∨
      ∃ mdocs ops ssOps dbl,
        st.ensureAvailabilityLoop cons series
            (n - (db.stateServers.MachineIds.length : Int)).toNat
            (db.record Event.stateServerInfo) = (Except.ok (mdocs, ops), dbl) ∧
        (mdocs.length : Int) = n - db.stateServers.MachineIds.length ∧
        st.maintainStateServersOps mdocs (some db.stateServers) dbl = (Except.ok ssOps, dbl) ∧
        txnsOf (st.EnsureAvailability MaxPeers n cons series db).2.log =
          txnsOf db.log ++ [ops ++ ssOps] ∧
        machineDocsOf (ops ++ ssOps) = mdocs ∧
        (mdocs ≠ [] →
          stateServersOp db.stateServers (mdocs.map (fun d => d.Id))
            (mdocs.map (fun d => d.Id)) ∈ ops ++ ssOps)) ∧
    (∀ err dbl,
      ¬ (n.tmod 2 ≠ 1 ∨ n ≤ 0) → ¬ n > MaxPeers → st.stateServerInfoErr = none →
      (db.stateServers.VotingMachineIds.length : Int) < n →
      (db.stateServers.MachineIds.length : Int) ≤ n →
      st.ensureAvailabilityLoop cons series
          (n - (db.stateServers.MachineIds.length : Int)).toNat
          (db.record Event.stateServerInfo) = (Except.error err, dbl) →
      st.EnsureAvailability MaxPeers n cons series db = (some err, dbl) ∧
        txnsOf dbl.log = txnsOf db.log ∧ dbl.stateServers = db.stateServers) ∧
    (∀ mdocs info dbl, ∃ ssOps,
      st.maintainStateServersOps mdocs (some info) dbl = (Except.ok ssOps, dbl)) := by
  refine ⟨?_, ?_, fun mdocs info dbl => ⟨_, maintainStateServersOps_some st mdocs info dbl⟩⟩
  · have hinfo := StateServerInfo_db st db
    have hr : NoCommit db (db.record Event.stateServerInfo) :=
      (readOnly_record db Event.stateServerInfo rfl rfl).noCommit
    unfold State.EnsureAvailability
    split
    · exact Or.inl ⟨rfl, rfl⟩
    · split
      · exact Or.inl ⟨rfl, rfl⟩
      · split
        · rename_i heq
          rw [heq] at hinfo
          simp only at hinfo
          subst hinfo
          exact Or.inl (noCommit_frame hr)
        · rename_i info dbr heq
          obtain ⟨hi, hd⟩ := StateServerInfo_ok st db dbr info heq
          subst hi; subst hd
          split
          · exact Or.inl (noCommit_frame hr)
          · split
            · exact Or.inl (noCommit_frame hr)
            · split
              · exact Or.inl (noCommit_frame hr)
              · rename_i hcap
                have h2 := ensureAvailabilityLoop_noCommit st cons series
                  (n - (db.stateServers.MachineIds.length : Int)).toNat
                  (db.record Event.stateServerInfo)
                split
                · rename_i heq2
                  rw [heq2] at h2
                  exact Or.inl (noCommit_frame (hr.andThen h2))
                · rename_i mdocs ops db2 heq2
                  rw [heq2] at h2
                  rw [maintainStateServersOps_some]
                  simp only
                  right
                  obtain ⟨hlen, _, hdocs⟩ :=
                    ensureAvailabilityLoop_ok st cons series _ _ db2 mdocs ops heq2
                  have hjobs := ensureAvailabilityLoop_docs st cons series _ _ db2 mdocs ops heq2
                  have hids : newStateServerIds mdocs =
                      (mdocs.map (fun d => d.Id), mdocs.map (fun d => d.Id)) :=
                    newStateServerIds_all_voting mdocs
                      (fun d hd => ⟨by rw [(hjobs d hd).1]; rfl, (hjobs d hd).2.2.1⟩)
                  refine ⟨mdocs, ops, _, db2, heq2, ?_, maintainStateServersOps_some st _ _ _,
                    ?_, ?_, ?_⟩
                  · rw [hlen]; omega
                  · have h4 := (runTransaction_log st (ops ++
                      (if (newStateServerIds mdocs).1.length = 0 then []
                        else [stateServersOp db.stateServers (newStateServerIds mdocs).1
                          (newStateServerIds mdocs).2])) db2).1
                    split
                    · rename_i heq4
                      rw [heq4] at h4
                      simp only at h4 ⊢
                      rw [h4, txnsOf_append, (hr.andThen h2).txns]
                      rfl
                    · rename_i heq4
                      rw [heq4] at h4
                      simp only at h4 ⊢
                      rw [h4, txnsOf_append, (hr.andThen h2).txns]
                      rfl
                  · rw [machineDocsOf_append, hdocs]
                    split <;> simp [machineDocsOf, stateServersOp]
                  · intro hne
                    have hl : ¬ (newStateServerIds mdocs).1.length = 0 := by
                      rw [hids]
                      simp only [List.length_map]
                      exact fun h0 => hne (List.length_eq_zero.mp h0)
                    rw [if_neg hl, hids]
                    exact List.mem_append_right _ (List.mem_singleton.mpr rfl)
  · intro err dbl hc1 hc2 hinfo hv hm hloop
    have h2 := ensureAvailabilityLoop_noCommit st cons series
      (n - (db.stateServers.MachineIds.length : Int)).toNat (db.record Event.stateServerInfo)
    rw [hloop] at h2
    have hr : NoCommit db (db.record Event.stateServerInfo) :=
      (readOnly_record db Event.stateServerInfo rfl rfl).noCommit
    refine ⟨?_, noCommit_frame (hr.andThen h2)⟩
    have hc3 : ¬ (db.stateServers.VotingMachineIds.length : Int) = n := by omega
    have hc4 : ¬ (db.stateServers.VotingMachineIds.length : Int) > n := by omega
    have hc5 : ¬ n - (db.stateServers.MachineIds.length : Int) < 0 := by omega
    unfold State.EnsureAvailability
    rw [if_neg hc1, if_neg hc2]
    simp only [State.StateServerInfo, hinfo, hc3, hc4, hc5, if_false, hloop]

/-- An interrupted build: the first new machine gets its sequence number, the
allocation for the second fails; the call returns that error, no transaction is
submitted and the state-servers document is as before. -/
theorem EnsureAvailability_interrupted_build :
    (flakySequence.EnsureAvailability 7 3 Value.zero "precise" oneVoter).1 =
      some (Errorf "sequence unavailable") ∧
    txnsOf (flakySequence.EnsureAvailability 7 3 Value.zero "precise" oneVoter).2.log = [] ∧
    allocsOf (flakySequence.EnsureAvailability 7 3 Value.zero "precise" oneVoter).2.log =
      [("machine", 1)] ∧
    (flakySequence.EnsureAvailability 7 3 Value.zero "precise" oneVoter).2.stateServers =
      oneVoter.stateServers := by
  decide

/-! ## The environment-liveness assertion -/

theorem addMachine_txns (st : State) (mdoc : machineDoc) (ops : List Op) (db : DB) :
    txnsOf (st.addMachine mdoc ops db).2.log = txnsOf db.log ∨
    txnsOf (st.addMachine mdoc ops db).2.log = txnsOf db.log ++ [assertAliveOp :: ops] := by
  have hlog := (runTransaction_log st (assertAliveOp :: ops) (db.record Event.environment)).1
  have he : NoCommit db (db.record Event.environment) :=
    (readOnly_record db Event.environment rfl rfl).noCommit
  unfold State.addMachine
  split
  · rename_i heq
    simp only [State.Environment, Prod.mk.injEq] at heq
    rw [← heq.2]
    exact Or.inl he.txns
  · rename_i heq
    simp only [State.Environment, Prod.mk.injEq] at heq
    obtain ⟨_, hdb⟩ := heq
    subst hdb
    split
    · exact Or.inl he.txns
    · right
      have hcommit : ∀ dbx : DB, dbx.log = (db.record Event.environment).log ++
          [Event.runTransaction (assertAliveOp :: ops)] →
          txnsOf dbx.log = txnsOf db.log ++ [assertAliveOp :: ops] := by
        intro dbx hx
        rw [hx, txnsOf_append, he.txns]
        rfl
      split
      · rename_i heq
        rw [heq] at hlog
        simp only at hlog
        have hr : ∀ dbx : DB, txnsOf (dbx.record Event.refresh).log = txnsOf dbx.log :=
          fun dbx => (readOnly_record dbx Event.refresh rfl rfl).noCommit.txns
        simp only [State.Refresh]
        split <;> split <;>
          (rename_i heq2 _
           simp only [Prod.mk.injEq] at heq2
           rw [← heq2.2]
           exact (hr _).trans (hcommit _ hlog))
      · rename_i heq
        rw [heq] at hlog
        exact hcommit _ hlog

theorem AddMachines_txns (st : State) (templates : List MachineTemplate) (db : DB) :
    txnsOf (st.AddMachines templates db).2.log = txnsOf db.log ∨
    ∃ ops, txnsOf (st.AddMachines templates db).2.log = txnsOf db.log ++ [ops ++ [assertAliveOp]] := by
  have he : NoCommit db (db.record Event.environment) :=
    (readOnly_record db Event.environment rfl rfl).noCommit
  unfold State.AddMachines State.addMachinesBody
  split
  · rename_i heq
    split at heq
    · rename_i heqe
      simp only [State.Environment, Prod.mk.injEq] at heqe
      simp only [Prod.mk.injEq] at heq
      rw [← heq.2, ← heqe.2]
      exact Or.inl he.txns
    · rename_i heqe
      simp only [State.Environment, Prod.mk.injEq] at heqe
      obtain ⟨_, hdbe⟩ := heqe
      subst hdbe
      split at heq
      · simp only [Prod.mk.injEq] at heq
        rw [← heq.2]
        exact Or.inl he.txns
      · have h2 := addMachinesLoop_noCommit st templates (db.record Event.environment)
        split at heq
        · rename_i heq2
          rw [heq2] at h2
          simp only [Prod.mk.injEq] at heq
          rw [← heq.2]
          exact Or.inl (he.andThen h2).txns
        · rename_i mdocs ops db2 heq2
          rw [heq2] at h2
          have h3 := (maintainStateServersOps_readOnly st mdocs none db2).noCommit
          split at heq
          · rename_i heq3
            rw [heq3] at h3
            simp only [Prod.mk.injEq] at heq
            rw [← heq.2]
            exact Or.inl ((he.andThen h2).andThen h3).txns
          · rename_i ssOps db3 heq3
            rw [heq3] at h3
            have h4 := (runTransaction_log st (ops ++ ssOps ++ [assertAliveOp]) db3).1
            split at heq
            · rename_i heq4
              rw [heq4] at h4
              simp only [Prod.mk.injEq] at heq
              rw [← heq.2]
              simp only at h4 ⊢
              right
              refine ⟨ops ++ ssOps, ?_⟩
              rw [h4, txnsOf_append, ((he.andThen h2).andThen h3).txns]
              rfl
            · simp at heq
  · rename_i heq
    split at heq
    · simp at heq
    · rename_i heqe
      simp only [State.Environment, Prod.mk.injEq] at heqe
      obtain ⟨_, hdbe⟩ := heqe
      subst hdbe
      split at heq
      · simp at heq
      · have h2 := addMachinesLoop_noCommit st templates (db.record Event.environment)
        split at heq
        · simp at heq
        · rename_i mdocs ops db2 heq2
          rw [heq2] at h2
          have h3 := (maintainStateServersOps_readOnly st mdocs none db2).noCommit
          split at heq
          · simp at heq
          · rename_i ssOps db3 heq3
            rw [heq3] at h3
            have h4 := (runTransaction_log st (ops ++ ssOps ++ [assertAliveOp]) db3).1
            split at heq
            · simp at heq
            · rename_i heq4
              rw [heq4] at h4
              simp only [Prod.mk.injEq] at heq
              rw [← heq.2]
              simp only at h4 ⊢
              right
              refine ⟨ops ++ ssOps, ?_⟩
              rw [h4, txnsOf_append, ((he.andThen h2).andThen h3).txns]
              rfl

theorem AddMachineInsideMachine_txns (st : State) (template : MachineTemplate)
    (parentId containerType : String) (db : DB) :
    txnsOf (st.AddMachineInsideMachine template parentId containerType db).2.log = txnsOf db.log ∨
    ∃ ops, txnsOf (st.AddMachineInsideMachine template parentId containerType db).2.log =
      txnsOf db.log ++ [assertAliveOp :: ops] := by
  have h1 := addMachineInsideMachineOps_noCommit st template parentId containerType db
  unfold State.AddMachineInsideMachine
  split
  · rename_i heq
    rw [heq] at h1
    exact Or.inl h1.txns
  · rename_i mdoc ops db1 heq
    rw [heq] at h1
    rcases addMachine_txns st mdoc ops db1 with h | h
    · exact Or.inl (h.trans h1.txns)
    · exact Or.inr ⟨ops, h.trans (by rw [h1.txns])⟩

theorem AddMachineInsideNewMachine_txns (st : State) (template parentTemplate : MachineTemplate)
    (containerType : String) (db : DB) :
    txnsOf (st.AddMachineInsideNewMachine template parentTemplate containerType db).2.log =
      txnsOf db.log ∨
    ∃ ops, txnsOf (st.AddMachineInsideNewMachine template parentTemplate containerType db).2.log =
      txnsOf db.log ++ [assertAliveOp :: ops] := by
  have h1 := addMachineInsideNewMachineOps_noCommit st template parentTemplate containerType db
  unfold State.AddMachineInsideNewMachine
  split
  · rename_i heq
    rw [heq] at h1
    exact Or.inl h1.txns
  · rename_i mdoc ops db1 heq
    rw [heq] at h1
    rcases addMachine_txns st mdoc ops db1 with h | h
    · exact Or.inl (h.trans h1.txns)
    · exact Or.inr ⟨ops, h.trans (by rw [h1.txns])⟩

/-- The three machine-adding entry points other than `EnsureAvailability` put
`assertAliveOp` into the one batch they submit. -/
theorem machine_adding_batches_assert_alive (st : State) (db : DB) :
    (∀ templates batch, txnsOf (st.AddMachines templates db).2.log = txnsOf db.log ++ [batch] →
      assertAliveOp ∈ batch) ∧
    (∀ template parentId containerType batch,
      txnsOf (st.AddMachineInsideMachine template parentId containerType db).2.log =
        txnsOf db.log ++ [batch] → assertAliveOp ∈ batch) ∧
    (∀ template parentTemplate containerType batch,
      txnsOf (st.AddMachineInsideNewMachine template parentTemplate containerType db).2.log =
        txnsOf db.log ++ [batch] → assertAliveOp ∈ batch) := by
  refine ⟨?_, ?_, ?_⟩
  · intro templates batch hb
    rcases AddMachines_txns st templates db with h | ⟨ops, h⟩
    · rw [h] at hb
      simp at hb
    · rw [h] at hb
      have := List.append_cancel_left hb
      simp only [List.cons.injEq, and_true] at this
      rw [← this]
      simp
  · intro template parentId containerType batch hb
    rcases AddMachineInsideMachine_txns st template parentId containerType db with h | ⟨ops, h⟩
    · rw [h] at hb
      simp at hb
    · rw [h] at hb
      have := List.append_cancel_left hb
      simp only [List.cons.injEq, and_true] at this
      rw [← this]
      simp
  · intro template parentTemplate containerType batch hb
    rcases AddMachineInsideNewMachine_txns st template parentTemplate containerType db with
      h | ⟨ops, h⟩
    · rw [h] at hb
      simp at hb
    · rw [h] at hb
      have := List.append_cancel_left hb
      simp only [List.cons.injEq, and_true] at this
      rw [← this]
      simp

/-- C8: the batch that `EnsureAvailability(3, ...)` submits for a cluster of one voting
state server inserts two machine documents and does not contain the environment's
assert-alive operation; the call succeeds. -/
theorem C8_EnsureAvailability_batch_lacks_assert_alive :
    (healthy.EnsureAvailability 7 3 Value.zero "precise" oneVoter).1 = none ∧
    (txnsOf (healthy.EnsureAvailability 7 3 Value.zero "precise" oneVoter).2.log).length = 1 ∧
    ∀ batch ∈ txnsOf (healthy.EnsureAvailability 7 3 Value.zero "precise" oneVoter).2.log,
      (machineDocsOf batch).length = 2 ∧ assertAliveOp ∉ batch := by
  decide

/-! ## Validation failures -/

theorem duplicateJob_eq_none (js jset : List MachineJob) :
    duplicateJob js jset = none ↔ js.Nodup ∧ ∀ j ∈ js, j ∉ jset := by
  induction js generalizing jset with
  | nil => simp [duplicateJob]
  | cons j rest ih =>
    unfold duplicateJob
    by_cases hj : j ∈ jset
    · simp only [hj, if_true]
      constructor
      · intro h; simp at h
      · intro h; exact absurd hj (h.2 j (List.mem_cons_self j rest))
    · simp only [hj, if_false]
      rw [ih, List.nodup_cons]
      constructor
      · rintro ⟨hnd, hall⟩
        refine ⟨⟨fun hmem => hall j hmem (List.mem_cons_self j jset), hnd⟩, ?_⟩
        intro x hx
        rcases List.mem_cons.mp hx with h | h
        · rw [h]; exact hj
        · exact fun hxs => hall x h (List.mem_cons_of_mem j hxs)
      · rintro ⟨⟨hnot, hnd⟩, hall⟩
        refine ⟨hnd, ?_⟩
        intro x hx hxs
        rcases List.mem_cons.mp hxs with h | h
        · exact hnot (h ▸ hx)
        · exact hall x (List.mem_cons_of_mem j hx) h

theorem effectiveMachineTemplate_valid (st : State) (p eff : MachineTemplate) (allow : Bool)
    (db db1 : DB) (h : st.effectiveMachineTemplate p allow db = (Except.ok eff, db1)) :
    ¬ invalidTemplate p allow := by
  unfold State.effectiveMachineTemplate at h
  split at h
  · simp at h
  · rename_i hseries
    split at h
    · simp at h
    · simp only at h
      split at h
      · simp at h
      · rename_i hjobs
        split at h
        · simp at h
        · rename_i hdup
          have hnd : p.Jobs.Nodup := ((duplicateJob_eq_none p.Jobs []).mp hdup).1
          have hne : p.Jobs ≠ [] := fun h0 => hjobs (by rw [h0]; rfl)
          split at h
          · simp at h
          · rename_i hmanage
            split at h
            · rename_i hinst
              split at h
              · simp at h
              · rename_i hnonce
                rintro (h1 | h1 | h1 | h1 | h1 | h1)
                · exact hseries h1
                · exact hne h1
                · exact h1 hnd
                · exact hmanage h1
                · exact hnonce h1.2
                · exact hinst h1.1
            · rename_i hinst
              split at h
              · simp at h
              · rename_i hnonce
                rintro (h1 | h1 | h1 | h1 | h1 | h1)
                · exact hseries h1
                · exact hne h1
                · exact h1 hnd
                · exact hmanage h1
                · exact hinst h1.1
                · exact hnonce h1.2

theorem effectiveMachineTemplate_invalid (st : State) (p : MachineTemplate) (allow : Bool)
    (db : DB) (hinv : invalidTemplate p allow) :
    ∃ e db1, st.effectiveMachineTemplate p allow db = (Except.error e, db1) ∧ ReadOnly db db1 := by
  have hro := effectiveMachineTemplate_readOnly st p allow db
  cases hres : st.effectiveMachineTemplate p allow db with
  | mk r db1 =>
    rw [hres] at hro
    cases r with
    | error e => exact ⟨e, db1, rfl, hro⟩
    | ok eff => exact absurd hinv (effectiveMachineTemplate_valid st p eff allow db db1 hres)

theorem addMachineOps_invalid (st : State) (t : MachineTemplate) (db : DB)
    (hinv : invalidTemplate t true) :
    ∃ e db1, st.addMachineOps t db = (Except.error e, db1) ∧ ReadOnly db db1 := by
  obtain ⟨e, db1, he, hro⟩ := effectiveMachineTemplate_invalid st t true db hinv
  refine ⟨e, db1, ?_, hro⟩
  unfold State.addMachineOps
  rw [he]

theorem addMachinesLoop_invalid (st : State) (templates : List MachineTemplate) (db : DB)
    (hinv : ∃ t ∈ templates, invalidTemplate t true) :
    ∃ e db1, st.addMachinesLoop templates db = (Except.error e, db1) := by
  induction templates generalizing db with
  | nil =>
    obtain ⟨t, ht, _⟩ := hinv
    simp at ht
  | cons t rest ih =>
    unfold State.addMachinesLoop
    split
    · exact ⟨_, _, rfl⟩
    · rename_i mdoc addOps db1 heq
      have hrest : ∃ t2 ∈ rest, invalidTemplate t2 true := by
        obtain ⟨t2, ht2, hinv2⟩ := hinv
        rcases List.mem_cons.mp ht2 with h | h
        · subst h
          obtain ⟨e, dbe, he, _⟩ := addMachineOps_invalid st t2 db hinv2
          rw [he] at heq
          simp at heq
        · exact ⟨t2, h, hinv2⟩
      obtain ⟨e, db2, he⟩ := ih db1 hrest
      rw [he]
      exact ⟨_, _, rfl⟩

theorem addMachinesBody_invalid (st : State) (templates : List MachineTemplate) (db : DB)
    (hinv : ∃ t ∈ templates, invalidTemplate t true) :
    ∃ e db1, st.addMachinesBody templates db = (Except.error e, db1) ∧ NoCommit db db1 := by
  have he : NoCommit db (db.record Event.environment) :=
    (readOnly_record db Event.environment rfl rfl).noCommit
  have h2 := addMachinesLoop_noCommit st templates (db.record Event.environment)
  obtain ⟨e, db2, hloop⟩ := addMachinesLoop_invalid st templates (db.record Event.environment) hinv
  rw [hloop] at h2
  unfold State.addMachinesBody
  simp only [State.Environment]
  cases st.environ with
  | error err => exact ⟨_, _, rfl, he⟩
  | ok life =>
    simp only
    by_cases hl : life ≠ Life.Alive
    · rw [if_pos hl]
      exact ⟨_, _, rfl, he⟩
    · rw [if_neg hl, hloop]
      exact ⟨_, _, rfl, he.andThen h2⟩

theorem AddMachines_invalid (st : State) (templates : List MachineTemplate) (db : DB)
    (hinv : ∃ t ∈ templates, invalidTemplate t true) :
    ∃ e db1, st.AddMachines templates db = (Except.error e, db1) ∧ NoCommit db db1 := by
  obtain ⟨e, db1, hb, hn⟩ := addMachinesBody_invalid st templates db hinv
  refine ⟨wrapf "cannot add a new machine" e, db1, ?_, hn⟩
  unfold State.AddMachines
  rw [hb]

theorem AddMachines_invalid_first (st : State) (t : MachineTemplate)
    (rest : List MachineTemplate) (db : DB) (hinv : invalidTemplate t true) :
    ReadOnly db (st.AddMachines (t :: rest) db).2 := by
  have he : ReadOnly db (db.record Event.environment) :=
    readOnly_record db Event.environment rfl rfl
  obtain ⟨e, db2, hops, hro⟩ := addMachineOps_invalid st t (db.record Event.environment) hinv
  have hbody : ReadOnly db (st.addMachinesBody (t :: rest) db).2 := by
    unfold State.addMachinesBody
    simp only [State.Environment]
    cases st.environ with
    | error err => exact he
    | ok life =>
      simp only
      by_cases hl : life ≠ Life.Alive
      · rw [if_pos hl]
        exact he
      · rw [if_neg hl]
        unfold State.addMachinesLoop
        rw [hops]
        exact he.andRead hro
  unfold State.AddMachines
  split
  · rename_i heq
    rw [heq] at hbody
    exact hbody
  · rename_i heq
    rw [heq] at hbody
    exact hbody

theorem addMachineInsideMachineOps_invalid (st : State) (t : MachineTemplate)
    (parentId containerType : String) (db : DB)
    (hinv : t.InstanceId ≠ "" ∨ invalidTemplate t false ∨ containerType = "") :
    ∃ e db1, st.addMachineInsideMachineOps t parentId containerType db = (Except.error e, db1) ∧
      ReadOnly db db1 := by
  have hro := effectiveMachineTemplate_readOnly st t false db
  unfold State.addMachineInsideMachineOps
  split
  · exact ⟨_, _, rfl, ReadOnly.here db⟩
  · rename_i hinst
    split
    · rename_i heq
      rw [heq] at hro
      exact ⟨_, _, rfl, hro⟩
    · rename_i eff db1 heq
      rw [heq] at hro
      have hvalid := effectiveMachineTemplate_valid st t eff false db db1 heq
      split
      · exact ⟨_, _, rfl, hro⟩
      · rename_i hct
        rcases hinv with h | h | h
        · exact absurd h hinst
        · exact absurd h hvalid
        · exact absurd h hct

theorem addMachineInsideNewMachineOps_invalid (st : State) (t pt : MachineTemplate)
    (containerType : String) (db : DB)
    (hinv : t.InstanceId ≠ "" ∨ pt.InstanceId ≠ "" ∨ invalidTemplate pt false ∨
      containerType = "" ∨ invalidTemplate t false) :
    ∃ e db1, st.addMachineInsideNewMachineOps t pt containerType db = (Except.error e, db1) ∧
      NoCommit db db1 := by
  have hnc := addMachineInsideNewMachineOps_noCommit st t pt containerType db
  cases hres : st.addMachineInsideNewMachineOps t pt containerType db with
  | mk r db1 =>
    rw [hres] at hnc
    cases r with
    | error e => exact ⟨e, db1, rfl, hnc⟩
    | ok v =>
      exfalso
      unfold State.addMachineInsideNewMachineOps at hres
      split at hres
      · simp at hres
      · rename_i hinst
        split at hres
        · simp at hres
        · split at hres
          · simp at hres
          · rename_i peff db2 heq2
            have hpvalid := effectiveMachineTemplate_valid st pt peff false _ db2 heq2
            split at hres
            · simp at hres
            · rename_i hct
              split at hres
              · simp at hres
              · dsimp only at hres
                split at hres
                · simp at hres
                · split at hres
                  · simp at hres
                  · rename_i eff db5 heq5
                    have hvalid := effectiveMachineTemplate_valid st t eff false _ db5 heq5
                    rcases hinv with h | h | h | h | h
                    · exact hinst (Or.inl h)
                    · exact hinst (Or.inr h)
                    · exact hpvalid h
                    · exact hct h
                    · exact hvalid h

/-- C9 (as amended): a call that is given an invalid template or argument returns an
error and submits no transaction, for `AddMachines` (whatever the position of the
invalid template), `AddMachineInsideMachine` and `AddMachineInsideNewMachine` (invalid
parent or child, instance id given, empty container type).  No sequence counter moves
and no sequence number is handed out when `AddMachineInsideMachine` is the call or
when the invalid template is the first of an `AddMachines` batch. -/
theorem C9_invalid_input_submits_nothing (st : State) (db : DB) :
    (∀ templates, (∃ t ∈ templates, invalidTemplate t true) →
      ∃ e db1, st.AddMachines templates db = (Except.error e, db1) ∧
        txnsOf db1.log = txnsOf db.log ∧ db1.stateServers = db.stateServers) ∧
    (∀ t rest, invalidTemplate t true →
      (st.AddMachines (t :: rest) db).2.sequences = db.sequences ∧
      allocsOf (st.AddMachines (t :: rest) db).2.log = allocsOf db.log) ∧
    (∀ t parentId containerType,
      (t.InstanceId ≠ "" ∨ invalidTemplate t false ∨ containerType = "") →
      ∃ e db1, st.AddMachineInsideMachine t parentId containerType db = (Except.error e, db1) ∧
        txnsOf db1.log = txnsOf db.log ∧ db1.stateServers = db.stateServers ∧
        db1.sequences = db.sequences ∧ allocsOf db1.log = allocsOf db.log) ∧
    (∀ t pt containerType,
      (t.InstanceId ≠ "" ∨ pt.InstanceId ≠ "" ∨ invalidTemplate pt false ∨
        containerType = "" ∨ invalidTemplate t false) →
      ∃ e db1, st.AddMachineInsideNewMachine t pt containerType db = (Except.error e, db1) ∧
        txnsOf db1.log = txnsOf db.log ∧ db1.stateServers = db.stateServers) := by
  have hallocs : ∀ {a b : DB}, ReadOnly a b → allocsOf b.log = allocsOf a.log := by
    intro a b h
    obtain ⟨_, _, es, hl, _, ha⟩ := h
    rw [hl, allocsOf_append, ha, List.append_nil]
  refine ⟨?_, ?_, ?_, ?_⟩
  · intro templates hinv
    obtain ⟨e, db1, h, hn⟩ := AddMachines_invalid st templates db hinv
    exact ⟨e, db1, h, hn.txns, hn.1⟩
  · intro t rest hinv
    have hro := AddMachines_invalid_first st t rest db hinv
    exact ⟨hro.2.1, hallocs hro⟩
  · intro t parentId containerType hinv
    obtain ⟨e, db1, h, hro⟩ :=
      addMachineInsideMachineOps_invalid st t parentId containerType db hinv
    refine ⟨wrapf "cannot add a new machine" e, db1, ?_, hro.noCommit.txns, hro.1, hro.2.1,
      hallocs hro⟩
    unfold State.AddMachineInsideMachine
    rw [h]
  · intro t pt containerType hinv
    obtain ⟨e, db1, h, hn⟩ :=
      addMachineInsideNewMachineOps_invalid st t pt containerType db hinv
    refine ⟨wrapf "cannot add a new machine" e, db1, ?_, hn.txns, hn.1⟩
    unfold State.AddMachineInsideNewMachine
    rw [h]

/-- C9 fails as stated: the second template of an `AddMachines` batch is invalid
(empty series); the call fails on it after the "machine" counter was incremented for
the first template. -/
theorem C9_counterexample_sequence_consumed :
    errorOf (healthy.AddMachines [hostTemplate, { hostTemplate with Series := "" }] DB.empty).1 =
      some (Errorf "cannot add a new machine: no series specified") ∧
    DB.empty.sequences "machine" = 0 ∧
    (healthy.AddMachines [hostTemplate, { hostTemplate with Series := "" }]
      DB.empty).2.sequences "machine" = 1 ∧
    allocsOf (healthy.AddMachines [hostTemplate, { hostTemplate with Series := "" }]
      DB.empty).2.log = [("machine", 0)] := by
  decide

/-- The parent template of `AddMachineInsideNewMachine` is invalid (no jobs): the call
fails after a "machine" sequence number was handed out. -/
theorem AddMachineInsideNewMachine_invalid_parent_example :
    errorOf (healthy.AddMachineInsideNewMachine hostTemplate { hostTemplate with Jobs := [] }
      "lxc" DB.empty).1 = some (Errorf "cannot add a new machine: no jobs specified") ∧
    allocsOf (healthy.AddMachineInsideNewMachine hostTemplate { hostTemplate with Jobs := [] }
      "lxc" DB.empty).2.log = [("machine", 0)] ∧
    txnsOf (healthy.AddMachineInsideNewMachine hostTemplate { hostTemplate with Jobs := [] }
      "lxc" DB.empty).2.log = [] := by
  decide

/-! ## Interpretation of a failed commit -/

/-- C10 (as amended): when `runTransaction` fails with `e`, `addMachine` returns
"environment is no longer alive" if the re-read shows the environment not alive or
reports it not found, the error of the re-read if the re-read fails in another way,
and `e` itself when the re-read succeeds and shows the environment alive. -/
theorem C10_abort_interpretation (st : State) (mdoc : machineDoc) (ops : List Op) (db db2 : DB)
    (e : Error) (henv : st.environ = Except.ok Life.Alive)
    (htxn : st.runTransaction (assertAliveOp :: ops) (db.record Event.environment) =
      (some e, db2)) :
    errorOf (st.addMachine mdoc ops db).1 =
      some (match st.refreshed with
        | Except.ok life => if life ≠ Life.Alive then errNotAlive else e
        | Except.error enverr =>
          if enverr.kind = ErrKind.notFound then errNotAlive else enverr) := by
  unfold State.addMachine
  simp only [State.Environment, henv, htxn, State.Refresh]
  cases st.refreshed with
  | error enverr =>
    simp only [IsNotFoundError, ne_eq, reduceCtorEq, not_false_eq_true, not_true_eq_false,
      if_false, beq_iff_eq]
    split <;> rfl
  | ok life =>
    simp only [ne_eq, reduceCtorEq, not_false_eq_true, not_true_eq_false, if_false]
    split <;> rfl

/-- C10 at a concrete input: the store aborts, the environment is still alive, and the
abort error comes back unchanged. -/
theorem C10_abort_interpretation_witness :
    errorOf (abortingStore.addMachine (machineDocForTemplate hostTemplate "0") []
      DB.empty).1 = some ErrAborted :=
  C10_abort_interpretation abortingStore (machineDocForTemplate hostTemplate "0") [] DB.empty
    ((DB.empty.record Event.environment).record (Event.runTransaction [assertAliveOp]))
    ErrAborted rfl rfl

/-- C10 fails as stated: the store aborts the batch and the re-read of the environment
fails with an error that is not a not-found error; `addMachine` returns the error of
the re-read, neither the abort error nor "environment is no longer alive". -/
theorem C10_counterexample_refresh_error :
    (abortThenRefreshFails.runTransaction [assertAliveOp]
      (DB.empty.record Event.environment)).1 = some ErrAborted ∧
    errorOf (abortThenRefreshFails.addMachine (machineDocForTemplate hostTemplate "0") []
      DB.empty).1 = some (Errorf "connection lost") ∧
    Errorf "connection lost" ≠ ErrAborted ∧ Errorf "connection lost" ≠ errNotAlive := by
  decide

/-! ## One machine document and one container reference per machine -/

theorem addMachineOps_inserts (st : State) (template : MachineTemplate) (db db1 : DB)
    (mdoc : machineDoc) (ops : List Op)
    (h : st.addMachineOps template db = (Except.ok (mdoc, ops), db1)) :
    machineInsertsOf ops = [machineInsertOp mdoc] ∧
    containerRefInsertsOf ops = [insertNewContainerRefOp mdoc.Id []] := by
  unfold State.addMachineOps at h
  split at h
  · simp at h
  · split at h
    · simp at h
    · split at h
      · simp at h
      · simp only [Prod.mk.injEq, Except.ok.injEq] at h
        obtain ⟨⟨hm, ho⟩, _⟩ := h
        subst hm
        subst ho
        constructor
        · split <;>
            simp [machineInsertsOf, machineInsertOp, insertNewMachineOps, createConstraintsOp,
              createStatusOp, insertNewContainerRefOp, machinesC, constraintsC, statusesC,
              containerRefsC, instanceDataC, machineDocForTemplate]
        · split <;>
            simp [containerRefInsertsOf, insertNewMachineOps, createConstraintsOp,
              createStatusOp, insertNewContainerRefOp, machinesC, constraintsC, statusesC,
              containerRefsC, instanceDataC, machineDocForTemplate]

theorem addMachinesLoop_inserts (st : State) (templates : List MachineTemplate) (db db1 : DB)
    (mdocs : List machineDoc) (ops : List Op)
    (h : st.addMachinesLoop templates db = (Except.ok (mdocs, ops), db1)) :
    machineInsertsOf ops = mdocs.map machineInsertOp ∧
    containerRefInsertsOf ops = mdocs.map (fun d => insertNewContainerRefOp d.Id []) ∧
    List.Forall₂ (fun t d => ∃ (cons : Value) (seq : Nat),
      d = machineDocForTemplate { t with Constraints := cons } (Itoa seq)) templates mdocs := by
  induction templates generalizing db mdocs ops with
  | nil =>
    simp only [State.addMachinesLoop, Prod.mk.injEq, Except.ok.injEq] at h
    obtain ⟨⟨hm, ho⟩, _⟩ := h
    subst hm; subst ho
    exact ⟨rfl, rfl, List.Forall₂.nil⟩
  | cons t rest ih =>
    unfold State.addMachinesLoop at h
    split at h
    · simp at h
    · rename_i mdoc addOps db2 heq
      split at h
      · simp at h
      · rename_i mdocs2 ops2 db3 heq2
        simp only [Prod.mk.injEq, Except.ok.injEq] at h
        obtain ⟨⟨hm, ho⟩, hdb⟩ := h
        subst hm; subst ho; subst hdb
        obtain ⟨h1, h2, h3⟩ := ih db2 mdocs2 ops2 heq2
        obtain ⟨g1, g2⟩ := addMachineOps_inserts st t db db2 mdoc addOps heq
        refine ⟨?_, ?_, List.Forall₂.cons (addMachineOps_doc st t db db2 mdoc addOps heq) h3⟩
        · simp only [machineInsertsOf, List.filter_append, List.map_cons] at g1 h1 ⊢
          rw [g1, h1]; rfl
        · simp only [containerRefInsertsOf, List.filter_append, List.map_cons] at g2 h2 ⊢
          rw [g2, h2]; rfl

theorem quorum_ops_not_inserts (st : State) (mdocs : List machineDoc)
    (currentInfo : Option StateServerInfo) (db db1 : DB) (ssOps : List Op)
    (h : st.maintainStateServersOps mdocs currentInfo db = (Except.ok ssOps, db1)) :
    machineInsertsOf (ssOps ++ [assertAliveOp]) = [] ∧
    containerRefInsertsOf (ssOps ++ [assertAliveOp]) = [] := by
  rcases maintainStateServersOps_ok st mdocs currentInfo db db1 ssOps h with
    ⟨_, hnil, _⟩ | ⟨info, hop, _, _⟩
  · subst hnil
    constructor <;>
      simp [machineInsertsOf, containerRefInsertsOf, assertAliveOp, environmentsC, machinesC,
        containerRefsC]
  · subst hop
    constructor <;>
      simp [machineInsertsOf, containerRefInsertsOf, assertAliveOp, stateServersOp,
        environmentsC, machinesC, containerRefsC, stateServersC]

theorem addMachinesBody_cases (st : State) (templates : List MachineTemplate) (db : DB) :
    (NoCommit db (st.addMachinesBody templates db).2 ∧
      ∃ e, (st.addMachinesBody templates db).1 = Except.error e) ∨
    ∃ mdocs ops ssOps db2 db3,
      st.addMachinesLoop templates (db.record Event.environment) =
        (Except.ok (mdocs, ops), db2) ∧
      st.maintainStateServersOps mdocs none db2 = (Except.ok ssOps, db3) ∧
      txnsOf (st.addMachinesBody templates db).2.log =
        txnsOf db.log ++ [ops ++ ssOps ++ [assertAliveOp]] ∧
      ((st.addMachinesBody templates db).1 =
          Except.ok (mdocs.map (fun mdoc => { doc := mdoc })) ∨
        ∃ e, (st.addMachinesBody templates db).1 = Except.error e) := by
  have he : NoCommit db (db.record Event.environment) :=
    (readOnly_record db Event.environment rfl rfl).noCommit
  have h2 := addMachinesLoop_noCommit st templates (db.record Event.environment)
  unfold State.addMachinesBody
  simp only [State.Environment]
  cases st.environ with
  | error err => exact Or.inl ⟨he, _, rfl⟩
  | ok life =>
    simp only
    by_cases hl : life ≠ Life.Alive
    · rw [if_pos hl]
      exact Or.inl ⟨he, _, rfl⟩
    · rw [if_neg hl]
      cases hloop : st.addMachinesLoop templates (db.record Event.environment) with
      | mk r db2 =>
        rw [hloop] at h2
        cases r with
        | error err => exact Or.inl ⟨he.andThen h2, _, rfl⟩
        | ok v =>
          obtain ⟨mdocs, ops⟩ := v
          simp only
          have h3 := (maintainStateServersOps_readOnly st mdocs none db2).noCommit
          cases hm : st.maintainStateServersOps mdocs none db2 with
          | mk r3 db3 =>
            rw [hm] at h3
            cases r3 with
            | error err => exact Or.inl ⟨(he.andThen h2).andThen h3, _, rfl⟩
            | ok ssOps =>
              simp only
              have h4 := (runTransaction_log st (ops ++ ssOps ++ [assertAliveOp]) db3).1
              right
              refine ⟨mdocs, ops, ssOps, db2, db3, rfl, hm, ?_, ?_⟩
              · cases ht : st.runTransaction (ops ++ ssOps ++ [assertAliveOp]) db3 with
                | mk r4 db4 =>
                  rw [ht] at h4
                  simp only at h4
                  cases r4 <;>
                    (simp only
                     rw [h4, txnsOf_append, ((he.andThen h2).andThen h3).txns]
                     rfl)
              · cases ht : st.runTransaction (ops ++ ssOps ++ [assertAliveOp]) db3 with
                | mk r4 db4 =>
                  cases r4 with
                  | none => exact Or.inl rfl
                  | some err => exact Or.inr ⟨_, rfl⟩

theorem AddMachines_cases (st : State) (templates : List MachineTemplate) (db : DB) :
    (NoCommit db (st.AddMachines templates db).2 ∧
      ∃ e, (st.AddMachines templates db).1 = Except.error e) ∨
    ∃ mdocs ops ssOps db2 db3,
      st.addMachinesLoop templates (db.record Event.environment) =
        (Except.ok (mdocs, ops), db2) ∧
      st.maintainStateServersOps mdocs none db2 = (Except.ok ssOps, db3) ∧
      txnsOf (st.AddMachines templates db).2.log =
        txnsOf db.log ++ [ops ++ ssOps ++ [assertAliveOp]] ∧
      ((st.AddMachines templates db).1 =
          Except.ok (mdocs.map (fun mdoc => { doc := mdoc })) ∨
        ∃ e, (st.AddMachines templates db).1 = Except.error e) := by
  have hb := addMachinesBody_cases st templates db
  unfold State.AddMachines
  cases hres : st.addMachinesBody templates db with
  | mk r db1 =>
    rw [hres] at hb
    cases r with
    | error err =>
      rcases hb with ⟨hn, _⟩ | ⟨mdocs, ops, ssOps, db2, db3, h1, h2, h3, h4⟩
      · exact Or.inl ⟨hn, _, rfl⟩
      · refine Or.inr ⟨mdocs, ops, ssOps, db2, db3, h1, h2, h3, Or.inr ⟨_, rfl⟩⟩
    | ok ms =>
      rcases hb with ⟨_, e, he⟩ | ⟨mdocs, ops, ssOps, db2, db3, h1, h2, h3, h4⟩
      · simp at he
      · refine Or.inr ⟨mdocs, ops, ssOps, db2, db3, h1, h2, h3, ?_⟩
        rcases h4 with h4 | ⟨e, h4⟩
        · exact Or.inl h4
        · simp at h4

/-! ## Template validation -/

theorem effectiveMachineTemplate_total (st : State) (p : MachineTemplate) (allow : Bool)
    (db : DB) (envCons : Value) (henv : st.environConstraints = Except.ok envCons)
    (hvalid : ¬ invalidTemplate p allow) :
    st.effectiveMachineTemplate p allow db =
      (Except.ok { p with Constraints := effectiveConstraints p.Constraints envCons },
        db.record Event.environConstraints) := by
  have hro := effectiveMachineTemplate_readOnly st p allow db
  cases hres : st.effectiveMachineTemplate p allow db with
  | mk r db1 =>
    cases r with
    | error e =>
      exfalso
      apply hvalid
      unfold State.effectiveMachineTemplate at hres
      simp only [State.EnvironConstraints, henv] at hres
      by_cases h1 : p.Series = ""
      · exact Or.inl h1
      · rw [if_neg h1] at hres
        by_cases h2 : p.Jobs = []
        · exact Or.inr (Or.inl h2)
        · have h2l : ¬ p.Jobs.length = 0 := fun h0 => h2 (List.length_eq_zero.mp h0)
          rw [if_neg h2l] at hres
          by_cases h3 : p.Jobs.Nodup
          · have hd : duplicateJob p.Jobs [] = none :=
              (duplicateJob_eq_none p.Jobs []).mpr ⟨h3, fun j _ hj => by simp at hj⟩
            rw [hd] at hres
            simp only at hres
            by_cases h4 : MachineJob.JobManageEnviron ∈ p.Jobs ∧ allow = false
            · exact Or.inr (Or.inr (Or.inr (Or.inl h4)))
            · rw [if_neg h4] at hres
              by_cases h5 : p.InstanceId ≠ ""
              · rw [if_pos h5] at hres
                by_cases h6 : p.Nonce = ""
                · exact Or.inr (Or.inr (Or.inr (Or.inr (Or.inl ⟨h5, h6⟩))))
                · rw [if_neg h6] at hres
                  simp at hres
              · rw [if_neg h5] at hres
                by_cases h6 : p.Nonce ≠ ""
                · exact Or.inr (Or.inr (Or.inr (Or.inr (Or.inr ⟨not_not.mp h5, h6⟩))))
                · rw [if_neg h6] at hres
                  simp at hres
          · exact Or.inr (Or.inr (Or.inl h3))
    | ok eff =>
      obtain ⟨c, hc, heff, hdb⟩ := effectiveMachineTemplate_ok st p eff allow db db1 hres
      rw [henv] at hc
      simp only [Except.ok.injEq] at hc
      subst hc
      rw [heff, hdb]
      rfl

theorem duplicateJob_msg_ne (x : String) :
    "duplicate job: " ++ x ≠ "state server jobs specified without calling EnsureAvailability" := by
  intro h
  have h1 := congrArg (fun s : String => s.data.head?) h
  simp at h1

theorem effectiveMachineTemplate_notAllowed (st : State) (p : MachineTemplate) (allow : Bool)
    (db : DB) (envCons : Value) (henv : st.environConstraints = Except.ok envCons) :
    errorOf (st.effectiveMachineTemplate p allow db).1 = some errStateServerNotAllowed ↔
      (p.Series ≠ "" ∧ p.Jobs ≠ [] ∧ p.Jobs.Nodup ∧
        MachineJob.JobManageEnviron ∈ p.Jobs ∧ allow = false) := by
  unfold State.effectiveMachineTemplate
  simp only [State.EnvironConstraints, henv]
  by_cases h1 : p.Series = ""
  · rw [if_pos h1]
    simp [errorOf, Errorf, errStateServerNotAllowed, h1]
  · rw [if_neg h1]
    by_cases h2 : p.Jobs = []
    · have h2l : p.Jobs.length = 0 := by rw [h2]; rfl
      rw [if_pos h2l]
      simp [errorOf, Errorf, errStateServerNotAllowed, h2]
    · have h2l : ¬ p.Jobs.length = 0 := fun h0 => h2 (List.length_eq_zero.mp h0)
      rw [if_neg h2l]
      by_cases h3 : p.Jobs.Nodup
      · have hd : duplicateJob p.Jobs [] = none :=
          (duplicateJob_eq_none p.Jobs []).mpr ⟨h3, fun j _ hj => by simp at hj⟩
        rw [hd]
        simp only
        by_cases h4 : MachineJob.JobManageEnviron ∈ p.Jobs ∧ allow = false
        · rw [if_pos h4]
          simp [errorOf, h1, h2, h3, h4.1, h4.2]
        · rw [if_neg h4]
          have hno : ¬ (p.Series ≠ "" ∧ p.Jobs ≠ [] ∧ p.Jobs.Nodup ∧
              MachineJob.JobManageEnviron ∈ p.Jobs ∧ allow = false) :=
            fun hh => h4 ⟨hh.2.2.2.1, hh.2.2.2.2⟩
          by_cases h5 : p.InstanceId ≠ ""
          · rw [if_pos h5]
            by_cases h6 : p.Nonce = ""
            · rw [if_pos h6]
              simp only [errorOf, Errorf, errStateServerNotAllowed]
              constructor
              · intro hh; simp at hh
              · intro hh; exact absurd hh hno
            · rw [if_neg h6]
              simp only [errorOf]
              constructor
              · intro hh; simp at hh
              · intro hh; exact absurd hh hno
          · rw [if_neg h5]
            by_cases h6 : p.Nonce ≠ ""
            · rw [if_pos h6]
              simp only [errorOf, Errorf, errStateServerNotAllowed]
              constructor
              · intro hh; simp at hh
              · intro hh; exact absurd hh hno
            · rw [if_neg h6]
              simp only [errorOf]
              constructor
              · intro hh; simp at hh
              · intro hh; exact absurd hh hno
      · cases hd : duplicateJob p.Jobs [] with
        | none => exact absurd ((duplicateJob_eq_none p.Jobs []).mp hd).1 h3
        | some j =>
          simp only [errorOf, Errorf, errStateServerNotAllowed]
          constructor
          · intro hh
            simp only [Option.some.injEq, Error.mk.injEq, and_true] at hh
            exact absurd hh (duplicateJob_msg_ne _)
          · intro hh; exact absurd hh.2.2.1 h3

/-- C15 (as amended): when the environment constraints can be read, `effectiveMachineTemplate`
returns an error iff the series is empty, or there is no job, or some job is listed
twice, or `JobManageEnviron` is listed while `allowStateServer` is false, or exactly
one of the instance id and the nonce is empty.  The error is
`errStateServerNotAllowed` exactly when the state-server check is the first to
fail (series, empty job list and duplicates are checked before it). -/
theorem C15_validation_fails_exactly (st : State) (p : MachineTemplate) (allow : Bool)
    (db : DB) (envCons : Value) (henv : st.environConstraints = Except.ok envCons) :
    ((∃ e, (st.effectiveMachineTemplate p allow db).1 = Except.error e) ↔
      (p.Series = "" ∨ p.Jobs = [] ∨ ¬ p.Jobs.Nodup ∨
        (MachineJob.JobManageEnviron ∈ p.Jobs ∧ allow = false) ∨
        (p.InstanceId = "" ∧ p.Nonce ≠ "") ∨ (p.InstanceId ≠ "" ∧ p.Nonce = ""))) ∧
    ((∃ eff, (st.effectiveMachineTemplate p allow db).1 = Except.ok eff) ↔
      ¬ (p.Series = "" ∨ p.Jobs = [] ∨ ¬ p.Jobs.Nodup ∨
        (MachineJob.JobManageEnviron ∈ p.Jobs ∧ allow = false) ∨
        (p.InstanceId = "" ∧ p.Nonce ≠ "") ∨ (p.InstanceId ≠ "" ∧ p.Nonce = ""))) ∧
    (errorOf (st.effectiveMachineTemplate p allow db).1 = some errStateServerNotAllowed ↔
      (p.Series ≠ "" ∧ p.Jobs ≠ [] ∧ p.Jobs.Nodup ∧
        MachineJob.JobManageEnviron ∈ p.Jobs ∧ allow = false)) := by
  have hiff : invalidTemplate p allow ↔
      (p.Series = "" ∨ p.Jobs = [] ∨ ¬ p.Jobs.Nodup ∨
        (MachineJob.JobManageEnviron ∈ p.Jobs ∧ allow = false) ∨
        (p.InstanceId = "" ∧ p.Nonce ≠ "") ∨ (p.InstanceId ≠ "" ∧ p.Nonce = "")) := by
    unfold invalidTemplate
    tauto
  refine ⟨?_, ?_, effectiveMachineTemplate_notAllowed st p allow db envCons henv⟩
  · rw [← hiff]
    constructor
    · rintro ⟨e, he⟩
      by_contra hvalid
      rw [effectiveMachineTemplate_total st p allow db envCons henv hvalid] at he
      simp at he
    · intro hinv
      obtain ⟨e, db1, he, _⟩ := effectiveMachineTemplate_invalid st p allow db hinv
      exact ⟨e, by rw [he]⟩
  · rw [← hiff]
    constructor
    · rintro ⟨eff, he⟩ hinv
      obtain ⟨e, db1, he2, _⟩ := effectiveMachineTemplate_invalid st p allow db hinv
      rw [he2] at he
      simp at he
    · intro hvalid
      exact ⟨_, by rw [effectiveMachineTemplate_total st p allow db envCons henv hvalid]⟩

theorem addMachineOps_constraints (st : State) (p : MachineTemplate) (db db1 : DB)
    (mdoc : machineDoc) (ops : List Op)
    (h : st.addMachineOps p db = (Except.ok (mdoc, ops), db1)) :
    ∃ envCons, st.environConstraints = Except.ok envCons ∧
      createConstraintsOp (machineGlobalKey mdoc.Id)
        (effectiveConstraints p.Constraints envCons) ∈ ops := by
  unfold State.addMachineOps at h
  split at h
  · simp at h
  · rename_i eff dbe heq
    obtain ⟨envCons, henv, heff, _⟩ := effectiveMachineTemplate_ok st p eff true db dbe heq
    refine ⟨envCons, henv, ?_⟩
    split at h
    · simp at h
    · split at h
      · simp at h
      · simp only [Prod.mk.injEq, Except.ok.injEq] at h
        obtain ⟨⟨hm, ho⟩, _⟩ := h
        subst hm
        subst ho
        subst heff
        split <;> simp [insertNewMachineOps, effectiveConstraints]

theorem addMachineInsideMachineOps_constraints (st : State) (p : MachineTemplate)
    (parentId containerType : String) (db db1 : DB) (mdoc : machineDoc) (ops : List Op)
    (h : st.addMachineInsideMachineOps p parentId containerType db =
      (Except.ok (mdoc, ops), db1)) :
    ∃ envCons, st.environConstraints = Except.ok envCons ∧
      createConstraintsOp (machineGlobalKey mdoc.Id)
        (effectiveConstraints p.Constraints envCons) ∈ ops := by
  unfold State.addMachineInsideMachineOps at h
  split at h
  · simp at h
  · split at h
    · simp at h
    · rename_i eff dbe heq
      obtain ⟨envCons, henv, heff, _⟩ := effectiveMachineTemplate_ok st p eff false db dbe heq
      refine ⟨envCons, henv, ?_⟩
      split at h
      · simp at h
      · split at h
        · simp at h
        · split at h
          · simp at h
          · split at h
            · simp at h
            · simp only [Prod.mk.injEq, Except.ok.injEq] at h
              obtain ⟨⟨hm, ho⟩, _⟩ := h
              subst hm
              subst ho
              subst heff
              simp [insertNewMachineOps, effectiveConstraints]

/-- C16: when `effectiveMachineTemplate(p, allow)` succeeds, the template it returns
is `p` with only `Constraints` replaced; the new constraints are
`p.Constraints.WithFallbacks(envCons)` with `Container` cleared: every other field
has the value of `p` when `p` sets it and the value of the environment otherwise.
These constraints are the ones in the constraints document inserted with a new root
machine or a new container on an existing machine. -/
theorem C16_effective_template (st : State) (p eff : MachineTemplate) (allow : Bool)
    (db db1 : DB) (h : st.effectiveMachineTemplate p allow db = (Except.ok eff, db1)) :
    ∃ envCons, st.environConstraints = Except.ok envCons ∧
      eff = { p with Constraints := eff.Constraints } ∧
      eff.Constraints = { p.Constraints.WithFallbacks envCons with Container := none } ∧
      eff.Constraints.Container = none ∧
      eff.Constraints.Arch = (p.Constraints.Arch <|> envCons.Arch) ∧
      eff.Constraints.CpuCores = (p.Constraints.CpuCores <|> envCons.CpuCores) ∧
      eff.Constraints.CpuPower = (p.Constraints.CpuPower <|> envCons.CpuPower) ∧
      eff.Constraints.Mem = (p.Constraints.Mem <|> envCons.Mem) ∧
      eff.Constraints.RootDisk = (p.Constraints.RootDisk <|> envCons.RootDisk) ∧
      eff.Constraints.Tags = (p.Constraints.Tags <|> envCons.Tags) ∧
      (∀ dbx dby mdoc ops, st.addMachineOps p dbx = (Except.ok (mdoc, ops), dby) →
        createConstraintsOp (machineGlobalKey mdoc.Id) eff.Constraints ∈ ops) ∧
      (∀ parentId containerType dbx dby mdoc ops,
        st.addMachineInsideMachineOps p parentId containerType dbx =
          (Except.ok (mdoc, ops), dby) →
        createConstraintsOp (machineGlobalKey mdoc.Id) eff.Constraints ∈ ops) := by
  obtain ⟨envCons, henv, heff, _⟩ := effectiveMachineTemplate_ok st p eff allow db db1 h
  refine ⟨envCons, henv, ?_, ?_, ?_, ?_, ?_, ?_, ?_, ?_, ?_, ?_, ?_⟩
  · rw [heff]
  · rw [heff]
  · rw [heff]
  · rw [heff]; rfl
  · rw [heff]; rfl
  · rw [heff]; rfl
  · rw [heff]; rfl
  · rw [heff]; rfl
  · rw [heff]; rfl
  · intro dbx dby mdoc ops hops
    obtain ⟨c, hc, hmem⟩ := addMachineOps_constraints st p dbx dby mdoc ops hops
    rw [henv] at hc
    simp only [Except.ok.injEq] at hc
    subst hc
    rw [heff]
    exact hmem
  · intro parentId containerType dbx dby mdoc ops hops
    obtain ⟨c, hc, hmem⟩ :=
      addMachineInsideMachineOps_constraints st p parentId containerType dbx dby mdoc ops hops
    rw [henv] at hc
    simp only [Except.ok.injEq] at hc
    subst hc
    rw [heff]
    exact hmem

/-! ## The instance precheck -/

theorem sequence_events (st : State) (name : String) (db : DB) :
    ∃ r, (st.sequence name db).2.log = db.log ++ [Event.sequence name r] := by
  unfold State.sequence
  split
  · exact ⟨none, rfl⟩
  · exact ⟨some (db.sequences name), rfl⟩

theorem addMachineOps_events (st : State) (t : MachineTemplate) (db : DB) (envCons : Value)
    (henv : st.environConstraints = Except.ok envCons) (hvalid : ¬ invalidTemplate t true) :
    (t.InstanceId = "" ∧
      ((∃ e, st.precheck t.Series (effectiveConstraints t.Constraints envCons) = some e ∧
          st.addMachineOps t db = (Except.error e,
            (db.record Event.environConstraints).record
              (Event.precheckInstance t.Series (effectiveConstraints t.Constraints envCons)))) ∨
       (st.precheck t.Series (effectiveConstraints t.Constraints envCons) = none ∧
          ∃ r, (st.addMachineOps t db).2.log = db.log ++
            [Event.environConstraints,
             Event.precheckInstance t.Series (effectiveConstraints t.Constraints envCons),
             Event.sequence "machine" r]))) ∨
    (t.InstanceId ≠ "" ∧
      ∃ r, (st.addMachineOps t db).2.log = db.log ++
        [Event.environConstraints, Event.sequence "machine" r]) := by
  unfold State.addMachineOps
  rw [effectiveMachineTemplate_total st t true db envCons henv hvalid]
  simp only
  by_cases hid : t.InstanceId = ""
  · left
    refine ⟨hid, ?_⟩
    rw [if_pos hid]
    simp only [State.precheckInstance]
    cases hp : st.precheck t.Series (effectiveConstraints t.Constraints envCons) with
    | some e => exact Or.inl ⟨e, rfl, rfl⟩
    | none =>
      right
      refine ⟨rfl, ?_⟩
      simp only
      obtain ⟨r, hr⟩ := sequence_events st "machine"
        ((db.record Event.environConstraints).record
          (Event.precheckInstance t.Series (effectiveConstraints t.Constraints envCons)))
      refine ⟨r, ?_⟩
      split
      · rename_i heq
        rw [heq] at hr
        simp only at hr ⊢
        rw [hr]
        simp [DB.record]
      · rename_i heq
        rw [heq] at hr
        simp only at hr ⊢
        rw [hr]
        simp [DB.record]
  · right
    refine ⟨hid, ?_⟩
    rw [if_neg hid]
    simp only
    obtain ⟨r, hr⟩ := sequence_events st "machine" (db.record Event.environConstraints)
    refine ⟨r, ?_⟩
    split
    · rename_i heq
      rw [heq] at hr
      simp only at hr ⊢
      rw [hr]
      simp [DB.record]
    · rename_i heq
      rw [heq] at hr
      simp only at hr ⊢
      rw [hr]
      simp [DB.record]

theorem prechecksOf_append (a b : List Event) :
    prechecksOf (a ++ b) = prechecksOf a ++ prechecksOf b := by
  induction a with
  | nil => rfl
  | cons e es ih => cases e <;> simp [prechecksOf, ih]

theorem AddOneMachine_store (st : State) (t : MachineTemplate) (db : DB) :
    (st.AddOneMachine t db).2 = (st.AddMachines [t] db).2 := by
  unfold State.AddOneMachine
  split <;> (rename_i heq; rw [heq])

theorem AddMachines_single_error (st : State) (t : MachineTemplate) (db db1 : DB) (e : Error)
    (halive : st.environ = Except.ok Life.Alive)
    (h : st.addMachineOps t (db.record Event.environment) = (Except.error e, db1)) :
    st.AddMachines [t] db = (Except.error (wrapf "cannot add a new machine" e), db1) ∧
    st.AddOneMachine t db = (Except.error (wrapf "cannot add a new machine" e), db1) := by
  have h1 : st.AddMachines [t] db =
      (Except.error (wrapf "cannot add a new machine" e), db1) := by
    unfold State.AddMachines State.addMachinesBody State.addMachinesLoop
    simp only [State.Environment, halive, h]
    simp
  refine ⟨h1, ?_⟩
  unfold State.AddOneMachine
  rw [h1]

theorem maintainStateServersOps_db (st : State) (mdocs : List machineDoc)
    (currentInfo : Option StateServerInfo) (db : DB) :
    (st.maintainStateServersOps mdocs currentInfo db).2 = db ∨
    (st.maintainStateServersOps mdocs currentInfo db).2 = db.record Event.stateServerInfo := by
  have hinfo := StateServerInfo_db st db
  unfold State.maintainStateServersOps
  split
  · exact Or.inl rfl
  · split
    · exact Or.inl rfl
    · split
      · exact Or.inl rfl
      · split
        · rename_i heq
          rw [heq] at hinfo
          exact Or.inr hinfo
        · rename_i heq
          rw [heq] at hinfo
          split <;> exact Or.inr hinfo
    · exact Or.inl rfl

theorem AddMachines_single_tail (st : State) (t : MachineTemplate) (db : DB)
    (halive : st.environ = Except.ok Life.Alive) :
    ∃ tail, (st.AddMachines [t] db).2.log =
        (st.addMachineOps t (db.record Event.environment)).2.log ++ tail ∧
      prechecksOf tail = [] ∧ allocsOf tail = [] := by
  cases hops : st.addMachineOps t (db.record Event.environment) with
  | mk r db1 =>
    cases r with
    | error e =>
      rw [(AddMachines_single_error st t db db1 e halive hops).1]
      exact ⟨[], by simp, rfl, rfl⟩
    | ok v =>
      obtain ⟨mdoc, ops⟩ := v
      unfold State.AddMachines State.addMachinesBody State.addMachinesLoop
      simp only [State.Environment, halive, hops, State.addMachinesLoop]
      simp only [ne_eq, not_true_eq_false, if_false, List.append_nil]
      rcases maintainStateServersOps_db st [mdoc] none db1 with hm | hm
      · cases hres : st.maintainStateServersOps [mdoc] none db1 with
        | mk r3 db3 =>
          rw [hres] at hm
          simp only at hm
          subst hm
          cases r3 with
          | error err => exact ⟨[], by simp, rfl, rfl⟩
          | ok ssOps =>
            simp only
            have h4 := (runTransaction_log st (ops ++ ssOps ++ [assertAliveOp]) db3).1
            refine ⟨[Event.runTransaction (ops ++ ssOps ++ [assertAliveOp])], ?_, rfl, rfl⟩
            cases ht : st.runTransaction (ops ++ ssOps ++ [assertAliveOp]) db3 with
            | mk r4 db4 =>
              rw [ht] at h4
              cases r4 <;> exact h4
      · cases hres : st.maintainStateServersOps [mdoc] none db1 with
        | mk r3 db3 =>
          rw [hres] at hm
          simp only at hm
          subst hm
          cases r3 with
          | error err => exact ⟨[Event.stateServerInfo], rfl, rfl, rfl⟩
          | ok ssOps =>
            simp only
            have h4 := (runTransaction_log st (ops ++ ssOps ++ [assertAliveOp])
              (db1.record Event.stateServerInfo)).1
            refine ⟨[Event.stateServerInfo,
              Event.runTransaction (ops ++ ssOps ++ [assertAliveOp])], ?_, rfl, rfl⟩
            cases ht : st.runTransaction (ops ++ ssOps ++ [assertAliveOp])
                (db1.record Event.stateServerInfo) with
            | mk r4 db4 =>
              rw [ht] at h4
              simp only at h4
              cases r4 <;> (simp only; rw [h4]; simp [DB.record])

theorem drop_log_extension {a b : DB} {es : List Event} (h : b.log = a.log ++ es) :
    b.log.drop a.log.length = es := by
  rw [h]
  exact List.drop_left' rfl

/-- C17 (as amended): for a valid root-machine template with no instance id and
readable environment constraints `envCons`, adding the machine calls the instance
precheck exactly once, with the template's series and with
`template.Constraints.WithFallbacks(envCons)` after its `Container` field was
cleared; these are the merged constraints themselves when they name no container. -/
theorem C17_precheck_arguments (st : State) (t : MachineTemplate) (db : DB) (envCons : Value)
    (henv : st.environConstraints = Except.ok envCons) (hvalid : ¬ invalidTemplate t true)
    (hid : t.InstanceId = "") :
    prechecksOf ((st.addMachineOps t db).2.log.drop db.log.length) =
      [(t.Series, { t.Constraints.WithFallbacks envCons with Container := none })] ∧
    (st.environ = Except.ok Life.Alive →
      prechecksOf ((st.AddOneMachine t db).2.log.drop db.log.length) =
        [(t.Series, { t.Constraints.WithFallbacks envCons with Container := none })]) ∧
    ((t.Constraints.WithFallbacks envCons).Container = none →
      ({ t.Constraints.WithFallbacks envCons with Container := none } : Value) =
        t.Constraints.WithFallbacks envCons) := by
  have hadd : ∀ dbx : DB, ∃ es, (st.addMachineOps t dbx).2.log = dbx.log ++ es ∧
      prechecksOf es = [(t.Series, effectiveConstraints t.Constraints envCons)] := by
    intro dbx
    rcases addMachineOps_events st t dbx envCons henv hvalid with
      ⟨_, ⟨e, _, h⟩ | ⟨_, r, h⟩⟩ | ⟨hne, _⟩
    · rw [h]
      exact ⟨[Event.environConstraints,
        Event.precheckInstance t.Series (effectiveConstraints t.Constraints envCons)],
        by simp [DB.record], rfl⟩
    · exact ⟨_, h, rfl⟩
    · exact absurd hid hne
  refine ⟨?_, ?_, ?_⟩
  · obtain ⟨es, hlog, hpre⟩ := hadd db
    rw [drop_log_extension hlog, hpre]
    rfl
  · intro halive
    obtain ⟨es, hlog, hpre⟩ := hadd (db.record Event.environment)
    obtain ⟨tail, htail, hpt, _⟩ := AddMachines_single_tail st t db halive
    have hfull : (st.AddOneMachine t db).2.log =
        db.log ++ (Event.environment :: (es ++ tail)) := by
      rw [AddOneMachine_store, htail, hlog]
      simp [DB.record]
    rw [drop_log_extension hfull]
    simp only [prechecksOf, prechecksOf_append, hpre, hpt, List.append_nil]
    rfl
  · intro hc
    cases hw : t.Constraints.WithFallbacks envCons with
    | mk a c cc cp m r tg =>
      rw [hw] at hc
      simp only at hc
      subst hc
      rfl

/-- C17 at a concrete input: environment `mem=4G`, template `cpu-cores=4`, as in
`TestPrecheckInstance`. -/
theorem C17_precheck_arguments_witness :
    prechecksOf ((envMem4G.AddOneMachine cpuCores4Template DB.empty).2.log.drop
        DB.empty.log.length) =
      [("precise", { Value.zero with Mem := some 4096, CpuCores := some 4 })] :=
  (C17_precheck_arguments envMem4G cpuCores4Template DB.empty
    { Value.zero with Mem := some 4096 } rfl (by decide) rfl).2.1 rfl

/-- C17 fails as stated: the template's constraints name a container type; the
precheck is called with the container value cleared, not with
`template.Constraints.WithFallbacks(envCons)` itself. -/
theorem C17_counterexample_container_cleared :
    ¬ invalidTemplate lxcConstrained true ∧ lxcConstrained.InstanceId = "" ∧
    errorOf (healthy.AddOneMachine lxcConstrained DB.empty).1 = none ∧
    prechecksOf (healthy.AddOneMachine lxcConstrained DB.empty).2.log =
      [("precise", Value.zero)] ∧
    lxcConstrained.Constraints.WithFallbacks Value.zero =
      { Value.zero with Container := some "lxc" } ∧
    lxcConstrained.Constraints.WithFallbacks Value.zero ≠ Value.zero := by
  decide

/-- C18: for a valid root-machine template and readable environment constraints,
`addMachineOps` calls the instance precheck iff the template's `InstanceId` is empty.
With an instance id the calls made are the read of the environment constraints and
the sequence allocation only; without one the precheck follows the read of the
environment constraints and comes before the sequence allocation, which is not made
when the precheck vetoes. -/
theorem C18_precheck_iff_no_instance_id (st : State) (t : MachineTemplate) (db : DB)
    (envCons : Value) (henv : st.environConstraints = Except.ok envCons)
    (hvalid : ¬ invalidTemplate t true) :
    (prechecksOf ((st.addMachineOps t db).2.log.drop db.log.length) ≠ [] ↔
      t.InstanceId = "") ∧
    (t.InstanceId ≠ "" →
      ∃ r, (st.addMachineOps t db).2.log.drop db.log.length =
        [Event.environConstraints, Event.sequence "machine" r]) ∧
    (t.InstanceId = "" →
      ∃ after, (st.addMachineOps t db).2.log.drop db.log.length =
          [Event.environConstraints,
           Event.precheckInstance t.Series
             { t.Constraints.WithFallbacks envCons with Container := none }] ++ after ∧
        allocsOf [Event.environConstraints,
           Event.precheckInstance t.Series
             { t.Constraints.WithFallbacks envCons with Container := none }] = [] ∧
        (after = [] ∨ ∃ r, after = [Event.sequence "machine" r])) := by
  rcases addMachineOps_events st t db envCons henv hvalid with
    ⟨hid, ⟨e, _, h⟩ | ⟨_, r, h⟩⟩ | ⟨hne, r, h⟩
  · have hlog : (st.addMachineOps t db).2.log = db.log ++ [Event.environConstraints,
        Event.precheckInstance t.Series (effectiveConstraints t.Constraints envCons)] := by
      rw [h]; simp [DB.record]
    rw [drop_log_extension hlog]
    refine ⟨⟨fun _ => hid, fun _ => by simp [prechecksOf]⟩, fun hne => absurd hid hne, ?_⟩
    intro _
    exact ⟨[], rfl, rfl, Or.inl rfl⟩
  · rw [drop_log_extension h]
    refine ⟨⟨fun _ => hid, fun _ => by simp [prechecksOf]⟩, fun hne => absurd hid hne, ?_⟩
    intro _
    exact ⟨[Event.sequence "machine" r], rfl, rfl, Or.inr ⟨r, rfl⟩⟩
  · rw [drop_log_extension h]
    refine ⟨⟨fun hp => absurd rfl hp, fun hid => absurd hid hne⟩, fun _ => ⟨r, rfl⟩,
      fun hid => absurd hid hne⟩

/-- C18 at a concrete input: a machine injected with the instance id "bootstrap", as in
`TestPrecheckInstanceInjectMachine`, is not prechecked. -/
theorem C18_precheck_iff_no_instance_id_witness :
    ∃ r, (healthy.addMachineOps injectedTemplate DB.empty).2.log.drop DB.empty.log.length =
      [Event.environConstraints, Event.sequence "machine" r] :=
  (C18_precheck_iff_no_instance_id healthy injectedTemplate DB.empty Value.zero rfl
    (by decide)).2.1 (by decide)

/-- C19: for a valid root-machine template with no instance id, when the precheck
returns the error `e` for the template's series and merged constraints,
`addMachineOps` returns `e` itself (no machine document, no operations) without
touching a sequence counter; `AddOneMachine` on a live environment then fails with
"cannot add a new machine: " followed by the message of `e`, and submits no
transaction. -/
theorem C19_precheck_error (st : State) (t : MachineTemplate) (db : DB) (envCons : Value)
    (e : Error) (halive : st.environ = Except.ok Life.Alive)
    (henv : st.environConstraints = Except.ok envCons) (hvalid : ¬ invalidTemplate t true)
    (hid : t.InstanceId = "")
    (hveto : st.precheck t.Series { t.Constraints.WithFallbacks envCons with Container := none }
      = some e) :
    (∃ db1, st.addMachineOps t db = (Except.error e, db1) ∧ db1.sequences = db.sequences ∧
      allocsOf db1.log = allocsOf db.log ∧ txnsOf db1.log = txnsOf db.log) ∧
    (∃ db1, st.AddOneMachine t db =
        (Except.error (Errorf ("cannot add a new machine: " ++ e.msg)), db1) ∧
      txnsOf db1.log = txnsOf db.log ∧ allocsOf db1.log = allocsOf db.log ∧
      db1.sequences = db.sequences ∧ db1.stateServers = db.stateServers) := by
  have hadd : ∀ dbx : DB, st.addMachineOps t dbx = (Except.error e,
      (dbx.record Event.environConstraints).record
        (Event.precheckInstance t.Series (effectiveConstraints t.Constraints envCons))) := by
    intro dbx
    rcases addMachineOps_events st t dbx envCons henv hvalid with
      ⟨_, ⟨e2, he2, h⟩ | ⟨hnone, _⟩⟩ | ⟨hne, _⟩
    · have : st.precheck t.Series (effectiveConstraints t.Constraints envCons) = some e := hveto
      rw [this] at he2
      simp only [Option.some.injEq] at he2
      rw [he2]
      exact h
    · have : st.precheck t.Series (effectiveConstraints t.Constraints envCons) = some e := hveto
      rw [this] at hnone
      simp at hnone
    · exact absurd hid hne
  refine ⟨⟨_, hadd db, rfl, ?_, ?_⟩, ?_⟩
  · simp [DB.record, allocsOf_append, allocsOf]
  · simp [DB.record, txnsOf_append, txnsOf]
  · refine ⟨_, (AddMachines_single_error st t db _ e halive
      (hadd (db.record Event.environment))).2, ?_, ?_, rfl, rfl⟩
    · simp [DB.record, txnsOf_append, txnsOf]
    · simp [DB.record, allocsOf_append, allocsOf]

/-- C19 at a concrete input: the prechecker of `TestPrecheckErrors` answers
"no instance for you". -/
theorem C19_precheck_error_witness :
    ∃ db1, vetoing.AddOneMachine hostTemplate DB.empty =
        (Except.error (Errorf "cannot add a new machine: no instance for you"), db1) ∧
      txnsOf db1.log = txnsOf DB.empty.log :=
  let h := (C19_precheck_error vetoing hostTemplate DB.empty Value.zero
    (Errorf "no instance for you") rfl rfl (by decide) rfl rfl).2
  ⟨h.choose, h.choose_spec.1, h.choose_spec.2.1⟩

theorem hasJob_iff (jobs : List MachineJob) (job : MachineJob) :
    hasJob jobs job = true ↔ job ∈ jobs := by
  induction jobs with
  | nil => simp [hasJob]
  | cons j js ih =>
    unfold hasJob
    by_cases h : j = job
    · simp [h]
    · simp only [h, if_false, ih, List.mem_cons]
      constructor
      · exact fun hm => Or.inr hm
      · rintro (hm | hm)
        · exact absurd hm.symm h
        · exact hm

theorem newStateServerIds_eq (mdocs : List machineDoc) :
    newStateServerIds mdocs =
      ((mdocs.filter (fun d => decide (MachineJob.JobManageEnviron ∈ d.Jobs))).map
          (fun d => d.Id),
       (mdocs.filter (fun d => decide (MachineJob.JobManageEnviron ∈ d.Jobs) &&
          !d.NoVote)).map (fun d => d.Id)) := by
  induction mdocs with
  | nil => rfl
  | cons d rest ih =>
    unfold newStateServerIds
    by_cases hj : MachineJob.JobManageEnviron ∈ d.Jobs
    · have hh : hasJob d.Jobs MachineJob.JobManageEnviron = true := (hasJob_iff _ _).mpr hj
      rw [hh, ih]
      cases hv : d.NoVote <;> simp [List.filter_cons, hj, hv]
    · have hh : hasJob d.Jobs MachineJob.JobManageEnviron = false := by
        cases hc : hasJob d.Jobs MachineJob.JobManageEnviron with
        | false => rfl
        | true => exact absurd ((hasJob_iff _ _).mp hc) hj
      rw [hh, ih]
      simp [List.filter_cons, hj]

theorem newStateServerIds_ne_nil (mdocs : List machineDoc)
    (h : ∃ d ∈ mdocs, MachineJob.JobManageEnviron ∈ d.Jobs) :
    ¬ (newStateServerIds mdocs).1.length = 0 := by
  obtain ⟨d, hd, hj⟩ := h
  rw [newStateServerIds_eq]
  simp only [List.length_map]
  intro h0
  have hnil := List.length_eq_zero.mp h0
  have hmem : d ∈ mdocs.filter (fun d => decide (MachineJob.JobManageEnviron ∈ d.Jobs)) :=
    List.mem_filter.mpr ⟨hd, by simpa using hj⟩
  rw [hnil] at hmem
  simp at hmem

theorem newStateServerIds_nil (mdocs : List machineDoc)
    (h : ∀ d ∈ mdocs, MachineJob.JobManageEnviron ∉ d.Jobs) :
    (newStateServerIds mdocs).1.length = 0 := by
  rw [newStateServerIds_eq]
  simp only [List.length_map, List.length_eq_zero, List.filter_eq_nil_iff]
  intro d hd
  simpa using h d hd

/-! ## The bootstrap rule and the quorum update -/

/-- C12: the bootstrap rule.  For a list in which some document carries
`JobManageEnviron`, `maintainStateServersOps(mdocs, nil)` fails with
`errStateServerNotAllowed`, without reading anything, unless the list is a single
document with id "0".  For such a list and a readable state-servers document it fails
with "state servers already exist" iff the stored document lists a machine id or a
voting id, and succeeds otherwise.  Two state-server machines are always refused. -/
theorem C12_bootstrap_rule (st : State) (mdocs : List machineDoc) (db : DB)
    (h : ∃ d ∈ mdocs, MachineJob.JobManageEnviron ∈ d.Jobs) :
    ((¬ ∃ d, mdocs = [d] ∧ d.Id = "0") →
      st.maintainStateServersOps mdocs none db = (Except.error errStateServerNotAllowed, db)) ∧
    (∀ d1 d2, mdocs = [d1, d2] →
      st.maintainStateServersOps mdocs none db = (Except.error errStateServerNotAllowed, db)) ∧
    (∀ d, mdocs = [d] → d.Id = "0" → st.stateServerInfoErr = none →
      (errorOf (st.maintainStateServersOps mdocs none db).1 =
          some (Errorf "state servers already exist") ↔
        (db.stateServers.MachineIds ≠ [] ∨ db.stateServers.VotingMachineIds ≠ [])) ∧
      ((db.stateServers.MachineIds ≠ [] ∨ db.stateServers.VotingMachineIds ≠ []) →
        st.maintainStateServersOps mdocs none db =
          (Except.error (Errorf "state servers already exist"),
            db.record Event.stateServerInfo)) ∧
      (¬ (db.stateServers.MachineIds ≠ [] ∨ db.stateServers.VotingMachineIds ≠ []) →
        st.maintainStateServersOps mdocs none db =
          (Except.ok [stateServersOp db.stateServers (newStateServerIds mdocs).1
            (newStateServerIds mdocs).2], db.record Event.stateServerInfo))) ∧
    (∀ d e, mdocs = [d] → d.Id = "0" → st.stateServerInfoErr = some e →
      st.maintainStateServersOps mdocs none db =
        (Except.error (wrapf "cannot get state server info" e),
          db.record Event.stateServerInfo)) := by
  have hne := newStateServerIds_ne_nil mdocs h
  have hfirst : (¬ ∃ d, mdocs = [d] ∧ d.Id = "0") →
      st.maintainStateServersOps mdocs none db =
        (Except.error errStateServerNotAllowed, db) := by
    intro hnot
    unfold State.maintainStateServersOps
    rw [if_neg hne]
    rcases mdocs with _ | ⟨d, _ | ⟨d2, rest⟩⟩
    · rfl
    · by_cases hid : d.Id = "0"
      · exact absurd ⟨d, rfl, hid⟩ hnot
      · simp only [ne_eq, hid, not_false_eq_true, if_true]
    · rfl
  have hread : ∀ d, mdocs = [d] → d.Id = "0" →
      st.maintainStateServersOps mdocs none db =
        match st.StateServerInfo db with
        | (Except.error err, db1) =>
          (Except.error (wrapf "cannot get state server info" err), db1)
        | (Except.ok info, db1) =>
          if info.MachineIds.length > 0 ∨ info.VotingMachineIds.length > 0 then
            (Except.error (Errorf "state servers already exist"), db1)
          else
            (Except.ok [stateServersOp info (newStateServerIds mdocs).1
              (newStateServerIds mdocs).2], db1) := by
    intro d hd hid
    subst hd
    unfold State.maintainStateServersOps
    rw [if_neg hne]
    simp only [hid, ne_eq, not_true_eq_false, if_false]
  have hlen : ∀ l : List String, l.length > 0 ↔ l ≠ [] := by
    intro l
    cases l <;> simp
  refine ⟨hfirst, ?_, ?_, ?_⟩
  · intro d1 d2 hd
    apply hfirst
    rintro ⟨d, hd2, _⟩
    rw [hd] at hd2
    simp at hd2
  · intro d hd hid herr
    have hres := hread d hd hid
    simp only [State.StateServerInfo, herr, hlen] at hres
    by_cases hex : db.stateServers.MachineIds ≠ [] ∨ db.stateServers.VotingMachineIds ≠ []
    · rw [if_pos hex] at hres
      refine ⟨?_, fun _ => hres, fun hno => absurd hex hno⟩
      rw [hres]
      simp [errorOf, hex]
    · rw [if_neg hex] at hres
      refine ⟨?_, fun hyes => absurd hyes hex, fun _ => hres⟩
      rw [hres]
      simp only [errorOf]
      constructor
      · intro hh; simp at hh
      · intro hh; exact absurd hh hex
  · intro d e hd hid herr
    have hres := hread d hd hid
    simp only [State.StateServerInfo, herr] at hres
    exact hres

/-- C12 at a concrete input: two state-server machines with no prior info. -/
theorem C12_bootstrap_rule_witness :
    healthy.maintainStateServersOps
        [machineDocForTemplate (stateServerTemplate Value.zero "precise") "0",
         machineDocForTemplate (stateServerTemplate Value.zero "precise") "1"] none DB.empty =
      (Except.error errStateServerNotAllowed, DB.empty) :=
  (C12_bootstrap_rule healthy
    [machineDocForTemplate (stateServerTemplate Value.zero "precise") "0",
     machineDocForTemplate (stateServerTemplate Value.zero "precise") "1"] DB.empty
    ⟨_, List.mem_cons_self _ _, by decide⟩).2.1 _ _ rfl

theorem stateServersOp_holds (r s : StateServerInfo) (ids vids : List String) :
    (stateServersOp r ids vids).Assert.holds s = true ↔
      (s.MachineIds.length = r.MachineIds.length ∧
        s.VotingMachineIds.length = r.VotingMachineIds.length) := by
  simp [stateServersOp, Assertion.holds, StateServerInfo.field]

/-- C13: when `maintainStateServersOps` succeeds for a list in which some document
carries `JobManageEnviron`, it returns exactly one operation, on the state-servers
document.  Its assertion holds on a document iff the sizes of `machineids` and
`votingmachineids` are `len(currentInfo.MachineIds)` and
`len(currentInfo.VotingMachineIds)` (the document read, when `currentInfo` is nil).
Its update adds to `machineids` the ids of the documents that carry
`JobManageEnviron`, in input order, and to `votingmachineids` the ids of those of
them whose `NoVote` is false.  A list without such a document gives no operation and
no error. -/
theorem C13_quorum_update_content (st : State) (mdocs : List machineDoc)
    (currentInfo : Option StateServerInfo) (db db1 : DB) (ops : List Op)
    (hok : st.maintainStateServersOps mdocs currentInfo db = (Except.ok ops, db1))
    (h : ∃ d ∈ mdocs, MachineJob.JobManageEnviron ∈ d.Jobs) :
    (∃ info : StateServerInfo,
      (currentInfo = some info ∨ (currentInfo = none ∧ info = db.stateServers)) ∧
      ops =
        [{ C := stateServersC,
           Id := environGlobalKey,
           Assert := Assertion.sizes
             [("machineids", info.MachineIds.length),
              ("votingmachineids", info.VotingMachineIds.length)],
           Insert := none,
           Update :=
             [{ op := "$addToSet", field := "machineids",
                each := (mdocs.filter
                  (fun d => decide (MachineJob.JobManageEnviron ∈ d.Jobs))).map
                    (fun d => d.Id) },
              { op := "$addToSet", field := "votingmachineids",
                each := (mdocs.filter
                  (fun d => decide (MachineJob.JobManageEnviron ∈ d.Jobs) &&
                    !d.NoVote)).map (fun d => d.Id) }] }] ∧
      (∀ op ∈ ops, ∀ s : StateServerInfo,
        (op.Assert.holds s = true ↔
          (s.MachineIds.length = info.MachineIds.length ∧
            s.VotingMachineIds.length = info.VotingMachineIds.length)) ∧
        applyOp s op =
          { MachineIds := addToSet s.MachineIds
              ((mdocs.filter (fun d => decide (MachineJob.JobManageEnviron ∈ d.Jobs))).map
                (fun d => d.Id)),
            VotingMachineIds := addToSet s.VotingMachineIds
              ((mdocs.filter (fun d => decide (MachineJob.JobManageEnviron ∈ d.Jobs) &&
                !d.NoVote)).map (fun d => d.Id)) })) ∧
    (∀ (mdocs2 : List machineDoc) (cur : Option StateServerInfo) (dbx : DB),
      (∀ d ∈ mdocs2, MachineJob.JobManageEnviron ∉ d.Jobs) →
      st.maintainStateServersOps mdocs2 cur dbx = (Except.ok [], dbx)) := by
  constructor
  · have hne := newStateServerIds_ne_nil mdocs h
    rcases maintainStateServersOps_ok st mdocs currentInfo db db1 ops hok with
      ⟨hnil, _, _⟩ | ⟨info, hop, _, hcase⟩
    · rw [hnil] at hne
      simp at hne
    · have hcur : currentInfo = some info ∨ (currentInfo = none ∧ info = db.stateServers) := by
        rcases hcase with ⟨hc, _⟩ | ⟨hc, hi, _⟩
        · exact Or.inl hc
        · exact Or.inr ⟨hc, hi⟩
      have hids := newStateServerIds_eq mdocs
      have h1 : (newStateServerIds mdocs).1 = (mdocs.filter
          (fun d => decide (MachineJob.JobManageEnviron ∈ d.Jobs))).map (fun d => d.Id) := by
        rw [hids]
      have h2 : (newStateServerIds mdocs).2 = (mdocs.filter
          (fun d => decide (MachineJob.JobManageEnviron ∈ d.Jobs) && !d.NoVote)).map
            (fun d => d.Id) := by
        rw [hids]
      rw [h1, h2] at hop
      refine ⟨info, hcur, hop, ?_⟩
      intro op hmem s
      rw [hop, List.mem_singleton] at hmem
      subst hmem
      exact ⟨stateServersOp_holds info s _ _, applyOp_stateServersOp s info _ _⟩
  · intro mdocs2 cur dbx hnone
    unfold State.maintainStateServersOps
    rw [if_pos (newStateServerIds_nil mdocs2 hnone)]

/-- C13 at a concrete input: a voting and a non-voting state server and a machine that
only hosts units are added to a cluster of one. -/
theorem C13_quorum_update_content_witness :
    ∃ info : StateServerInfo,
      [stateServersOp { MachineIds := ["0"], VotingMachineIds := ["0"] } ["1", "2"] ["1"]] =
        [{ C := stateServersC,
           Id := environGlobalKey,
           Assert := Assertion.sizes
             [("machineids", info.MachineIds.length),
              ("votingmachineids", info.VotingMachineIds.length)],
           Insert := none,
           Update :=
             [{ op := "$addToSet", field := "machineids", each := ["1", "2"] },
              { op := "$addToSet", field := "votingmachineids", each := ["1"] }] }] :=
  let h := (C13_quorum_update_content healthy
    [machineDocForTemplate (stateServerTemplate Value.zero "precise") "1",
     machineDocForTemplate { stateServerTemplate Value.zero "precise" with NoVote := true } "2",
     machineDocForTemplate { hostTemplate with NoVote := true } "3"]
    (some { MachineIds := ["0"], VotingMachineIds := ["0"] }) DB.empty DB.empty
    [stateServersOp { MachineIds := ["0"], VotingMachineIds := ["0"] } ["1", "2"] ["1"]]
    rfl ⟨_, List.mem_cons_self _ _, by decide⟩).1
  ⟨h.choose, h.choose_spec.2.1⟩

/-! ## The lost-update guard -/

theorem addToSet_extends (ys xs : List String) : ∃ zs, addToSet xs ys = xs ++ zs := by
  unfold addToSet
  induction ys generalizing xs with
  | nil => exact ⟨[], by simp⟩
  | cons y ys ih =>
    rw [List.foldl_cons]
    by_cases hy : y ∈ xs
    · simp only [hy, if_true]
      exact ih xs
    · simp only [hy, if_false]
      obtain ⟨zs, hzs⟩ := ih (xs ++ [y])
      exact ⟨y :: zs, by rw [hzs]; simp⟩

theorem addToSet_same_length (ys xs : List String)
    (h : (addToSet xs ys).length = xs.length) : addToSet xs ys = xs := by
  obtain ⟨zs, hzs⟩ := addToSet_extends ys xs
  rw [hzs] at h ⊢
  have : zs.length = 0 := by
    rw [List.length_append] at h
    omega
  rw [List.length_eq_zero.mp this, List.append_nil]

/-- C14: the assertion of the operation that `maintainStateServersOps`
builds from the document `r` is false on a stored document `s` iff
`len(s.MachineIds)` or `len(s.VotingMachineIds)` differs from the value in `r`.  It is
false in particular when `s` came from `r` by adding ids to its sets and differs from
`r`; each batch that holds the operation is then rejected by `runTransaction` and the
stored document stays as it is. -/
theorem C14_size_guard (st : State) (mdocs : List machineDoc) (r s : StateServerInfo)
    (db db1 : DB) (ops : List Op)
    (hok : st.maintainStateServersOps mdocs (some r) db = (Except.ok ops, db1)) :
    ∀ op ∈ ops,
      (op.Assert.holds s = false ↔
        (s.MachineIds.length ≠ r.MachineIds.length ∨
          s.VotingMachineIds.length ≠ r.VotingMachineIds.length)) ∧
      (∀ xs ys, s = { MachineIds := addToSet r.MachineIds xs,
                      VotingMachineIds := addToSet r.VotingMachineIds ys } →
        s ≠ r → op.Assert.holds s = false) ∧
      (op.Assert.holds s = false →
        ∀ (st2 : State) (before after : List Op) (sequences : String → Nat) (log : List Event),
          ∃ e, (st2.runTransaction (before ++ op :: after)
              { stateServers := s, sequences := sequences, log := log }).1 = some e ∧
            (st2.runTransaction (before ++ op :: after)
              { stateServers := s, sequences := sequences, log := log }).2.stateServers = s) := by
  intro op hmem
  have hop : op = stateServersOp r (newStateServerIds mdocs).1 (newStateServerIds mdocs).2 := by
    rcases maintainStateServersOps_ok st mdocs (some r) db db1 ops hok with
      ⟨_, hnil, _⟩ | ⟨info, hops, _, hcase⟩
    · rw [hnil] at hmem
      simp at hmem
    · rcases hcase with ⟨hc, _⟩ | ⟨hc, _⟩
      · simp only [Option.some.injEq] at hc
        rw [hops, List.mem_singleton] at hmem
        rw [hmem, hc]
      · simp at hc
  have hiff : op.Assert.holds s = false ↔
      (s.MachineIds.length ≠ r.MachineIds.length ∨
        s.VotingMachineIds.length ≠ r.VotingMachineIds.length) := by
    have h1 := stateServersOp_holds r s (newStateServerIds mdocs).1 (newStateServerIds mdocs).2
    rw [← hop] at h1
    cases hh : op.Assert.holds s with
    | true =>
      have := h1.mp hh
      constructor
      · intro hf; simp at hf
      · rintro (hf | hf)
        · exact absurd this.1 hf
        · exact absurd this.2 hf
    | false =>
      constructor
      · intro _
        by_contra hno
        have hboth : s.MachineIds.length = r.MachineIds.length ∧
            s.VotingMachineIds.length = r.VotingMachineIds.length :=
          ⟨not_not.mp (fun hf => hno (Or.inl hf)), not_not.mp (fun hf => hno (Or.inr hf))⟩
        have := h1.mpr hboth
        rw [hh] at this
        simp at this
      · intro _; rfl
  refine ⟨hiff, ?_, ?_⟩
  · intro xs ys hs hne
    rw [hiff]
    by_contra hno
    apply hne
    have hm : s.MachineIds.length = r.MachineIds.length :=
      not_not.mp (fun hf => hno (Or.inl hf))
    have hv : s.VotingMachineIds.length = r.VotingMachineIds.length :=
      not_not.mp (fun hf => hno (Or.inr hf))
    rw [hs] at hm hv ⊢
    simp only at hm hv
    rw [addToSet_same_length xs _ hm, addToSet_same_length ys _ hv]
  · intro hfalse st2 before after sequences log
    have hon : op.onStateServers = true := by
      rw [hop]; exact stateServersOp_onStateServers _ _ _
    have hall : (before ++ op :: after).all
        (fun o => !o.onStateServers || o.Assert.holds s) = false := by
      rw [List.all_eq_false]
      exact ⟨op, List.mem_append_right _ (List.mem_cons_self _ _), by simp [hon, hfalse]⟩
    unfold State.runTransaction
    cases st2.txnErr (before ++ op :: after) with
    | some e => exact ⟨e, rfl, rfl⟩
    | none =>
      simp only [hall]
      exact ⟨ErrAborted, rfl, rfl⟩

/-- C14 at a concrete input: another writer added machine "1" to both sets after the
document with the single machine "0" was read. -/
theorem C14_size_guard_witness :
    (stateServersOp { MachineIds := ["0"], VotingMachineIds := ["0"] } ["2"]
        ["2"]).Assert.holds { MachineIds := ["0", "1"], VotingMachineIds := ["0", "1"] } =
      false :=
  ((C14_size_guard healthy
    [machineDocForTemplate (stateServerTemplate Value.zero "precise") "2"]
    { MachineIds := ["0"], VotingMachineIds := ["0"] }
    { MachineIds := ["0", "1"], VotingMachineIds := ["0", "1"] } DB.empty DB.empty
    [stateServersOp { MachineIds := ["0"], VotingMachineIds := ["0"] } ["2"] ["2"]] rfl
    _ (List.mem_singleton.mpr rfl)).1).mpr (by decide)

/-- The guard compares sizes only: on a stored document in which machine "1" took the
place of machine "0" the assertion holds and the batch is applied.  Such a document
does not arise from the one read by adding ids, which is all the writers of this file
do (`AddMachines_adds_only`, `EnsureAvailability_adds_only`). -/
theorem same_sizes_example :
    ({ MachineIds := ["1"], VotingMachineIds := ["1"] } : StateServerInfo) ≠
      { MachineIds := ["0"], VotingMachineIds := ["0"] } ∧
    (healthy.maintainStateServersOps
        [machineDocForTemplate (stateServerTemplate Value.zero "precise") "2"]
        (some { MachineIds := ["0"], VotingMachineIds := ["0"] }) DB.empty).1.toOption =
      some [stateServersOp { MachineIds := ["0"], VotingMachineIds := ["0"] } ["2"] ["2"]] ∧
    (stateServersOp { MachineIds := ["0"], VotingMachineIds := ["0"] } ["2"]
        ["2"]).Assert.holds { MachineIds := ["1"], VotingMachineIds := ["1"] } = true ∧
    (healthy.runTransaction
        [stateServersOp { MachineIds := ["0"], VotingMachineIds := ["0"] } ["2"] ["2"]]
        { stateServers := { MachineIds := ["1"], VotingMachineIds := ["1"] },
          sequences := fun _ => 0, log := [] }).1 = none ∧
    (healthy.runTransaction
        [stateServersOp { MachineIds := ["0"], VotingMachineIds := ["0"] } ["2"] ["2"]]
        { stateServers := { MachineIds := ["1"], VotingMachineIds := ["1"] },
          sequences := fun _ => 0, log := [] }).2.stateServers =
      { MachineIds := ["1", "2"], VotingMachineIds := ["1", "2"] } := by
  decide

/-! ## Instance ids on containers -/

/-- C20: a template with a non-empty `InstanceId` makes `AddMachineInsideMachine` fail
with the store and the log of collaborator calls exactly as they were (no validation,
no load of the parent, no sequence number, no transaction), whatever the parent id
and the container type; `AddMachineInsideNewMachine` fails in the same way when the
child or the parent template has a non-empty `InstanceId`. -/
theorem C20_instance_id_on_container (st : State) (t : MachineTemplate) (db : DB)
    (h : t.InstanceId ≠ "") :
    (∀ parentId containerType,
      st.AddMachineInsideMachine t parentId containerType db =
        (Except.error (Errorf
          "cannot add a new machine: cannot specify instance id for a new container"), db)) ∧
    (∀ parentTemplate containerType,
      st.AddMachineInsideNewMachine t parentTemplate containerType db =
        (Except.error (Errorf
          "cannot add a new machine: cannot specify instance id for a new container"), db)) ∧
    (∀ child containerType,
      st.AddMachineInsideNewMachine child t containerType db =
        (Except.error (Errorf
          "cannot add a new machine: cannot specify instance id for a new container"), db)) := by
  refine ⟨?_, ?_, ?_⟩
  · intro parentId containerType
    unfold State.AddMachineInsideMachine State.addMachineInsideMachineOps
    rw [if_pos h]
    rfl
  · intro parentTemplate containerType
    unfold State.AddMachineInsideNewMachine State.addMachineInsideNewMachineOps
    rw [if_pos (Or.inl h)]
    rfl
  · intro child containerType
    unfold State.AddMachineInsideNewMachine State.addMachineInsideNewMachineOps
    rw [if_pos (Or.inr h)]
    rfl

/-- C20 at a concrete input: a container for the injected machine template on
machine "0". -/
theorem C20_instance_id_on_container_witness :
    healthy.AddMachineInsideMachine injectedTemplate "0" "lxc" DB.empty =
      (Except.error (Errorf
        "cannot add a new machine: cannot specify instance id for a new container"),
        DB.empty) :=
  (C20_instance_id_on_container healthy injectedTemplate DB.empty (by decide)).1 "0" "lxc"

theorem addMachineOps_total (st : State) (t : MachineTemplate) (db : DB) (envCons : Value)
    (henv : st.environConstraints = Except.ok envCons) (hvalid : ¬ invalidTemplate t true)
    (hpre : ∀ s c, st.precheck s c = none)
    (hseq : ∀ i, st.sequenceErr "machine" i = none) :
    ∃ mdoc ops db1, st.addMachineOps t db = (Except.ok (mdoc, ops), db1) := by
  unfold State.addMachineOps
  rw [effectiveMachineTemplate_total st t true db envCons henv hvalid]
  simp only [State.precheckInstance, hpre, State.sequence, hseq]
  by_cases hid : t.InstanceId = ""
  · simp only [hid, if_true]
    exact ⟨_, _, _, rfl⟩
  · simp only [hid, if_false]
    exact ⟨_, _, _, rfl⟩

theorem addMachinesLoop_total (st : State) (templates : List MachineTemplate) (db : DB)
    (envCons : Value) (henv : st.environConstraints = Except.ok envCons)
    (hvalid : ∀ t ∈ templates, ¬ invalidTemplate t true)
    (hpre : ∀ s c, st.precheck s c = none)
    (hseq : ∀ i, st.sequenceErr "machine" i = none) :
    ∃ mdocs ops db1, st.addMachinesLoop templates db = (Except.ok (mdocs, ops), db1) := by
  induction templates generalizing db with
  | nil => exact ⟨[], [], db, rfl⟩
  | cons t rest ih =>
    obtain ⟨mdoc, ops, db1, h1⟩ := addMachineOps_total st t db envCons henv
      (hvalid t (List.mem_cons_self t rest)) hpre hseq
    obtain ⟨mdocs, ops2, db2, h2⟩ := ih db1 (fun x hx => hvalid x (List.mem_cons_of_mem t hx))
    refine ⟨mdoc :: mdocs, ops ++ ops2, db2, ?_⟩
    unfold State.addMachinesLoop
    rw [h1]
    simp only
    rw [h2]

theorem addMachinesLoop_rejects (st : State) (templates : List MachineTemplate) (db : DB)
    (hrej : ∃ t ∈ templates, st.rejects t) :
    ∃ e db1, st.addMachinesLoop templates db = (Except.error e, db1) := by
  induction templates generalizing db with
  | nil =>
    obtain ⟨t, ht, _⟩ := hrej
    simp at ht
  | cons t rest ih =>
    unfold State.addMachinesLoop
    split
    · exact ⟨_, _, rfl⟩
    · rename_i mdoc addOps db1 heq
      have hrest : ∃ t2 ∈ rest, st.rejects t2 := by
        obtain ⟨t2, ht2, hr2⟩ := hrej
        rcases List.mem_cons.mp ht2 with h | h
        · subst h
          have := hr2 db
          rw [heq] at this
          simp [errorOf] at this
        · exact ⟨t2, h, hr2⟩
      obtain ⟨e, db2, he⟩ := ih db1 hrest
      rw [he]
      exact ⟨_, _, rfl⟩

theorem invalidTemplate_rejects (st : State) (t : MachineTemplate)
    (hinv : invalidTemplate t true) : st.rejects t := by
  intro db
  obtain ⟨e, db1, he, _⟩ := addMachineOps_invalid st t db hinv
  rw [he]
  simp [errorOf]

theorem forall₂_jobs (templates : List MachineTemplate) (mdocs : List machineDoc)
    (h : List.Forall₂ (fun t d => ∃ (cons : Value) (seq : Nat),
      d = machineDocForTemplate { t with Constraints := cons } (Itoa seq)) templates mdocs)
    (hno : ∀ t ∈ templates, MachineJob.JobManageEnviron ∉ t.Jobs) :
    ∀ d ∈ mdocs, MachineJob.JobManageEnviron ∉ d.Jobs := by
  induction h with
  | nil => simp
  | @cons t d ts ds hd _ ih =>
    intro x hx
    rcases List.mem_cons.mp hx with h1 | h1
    · obtain ⟨c, seq, hdoc⟩ := hd
      rw [h1, hdoc]
      exact hno t (List.mem_cons_self t ts)
    · exact ih (fun y hy => hno y (List.mem_cons_of_mem t hy)) x h1

theorem singleton_batch {α : Type} (xs : List (List α)) (a b : List α)
    (h : xs ++ [a] = xs ++ [b]) : a = b := by
  have := List.append_cancel_left h
  simpa using this

/-- C11: one machine document and one container-reference document per created
machine, in one batch.  A batch that `AddMachines` submits for `k` templates holds
exactly `k` operations on the machines collection, each the insert of a machine
document under its id asserting that it is missing, and exactly `k` inserts of
container-reference documents, for the same ids in the same order; the documents
come from the templates in template order, and a successful call returns the `k`
machines of these documents.  A call that succeeds has submitted such a batch.  If
some template is refused (an invalid template is) the call returns an error and
submits nothing.  When the environment is alive, every template is valid and none
asks for `JobManageEnviron`, and every collaborator succeeds, the call succeeds. -/
theorem C11_one_machine_one_containerRef (st : State) (templates : List MachineTemplate)
    (db : DB) :
    (∀ batch, txnsOf (st.AddMachines templates db).2.log = txnsOf db.log ++ [batch] →
      ∃ mdocs : List machineDoc,
        mdocs.length = templates.length ∧
        machineInsertsOf batch = mdocs.map machineInsertOp ∧
        containerRefInsertsOf batch = mdocs.map (fun d => insertNewContainerRefOp d.Id []) ∧
        List.Forall₂ (fun t d => ∃ (cons : Value) (seq : Nat),
          d = machineDocForTemplate { t with Constraints := cons } (Itoa seq)) templates mdocs ∧
        (∀ ms, (st.AddMachines templates db).1 = Except.ok ms →
          ms = mdocs.map (fun d => { doc := d }))) ∧
    (∀ ms, (st.AddMachines templates db).1 = Except.ok ms →
      ms.length = templates.length ∧
      ∃ batch, txnsOf (st.AddMachines templates db).2.log = txnsOf db.log ++ [batch]) ∧
    ((∃ t ∈ templates, st.rejects t) →
      (∃ e, (st.AddMachines templates db).1 = Except.error e) ∧
      txnsOf (st.AddMachines templates db).2.log = txnsOf db.log) ∧
    (∀ t, invalidTemplate t true → st.rejects t) ∧
    (∀ envCons, st.environ = Except.ok Life.Alive →
      st.environConstraints = Except.ok envCons →
      (∀ s c, st.precheck s c = none) → (∀ i, st.sequenceErr "machine" i = none) →
      (∀ ops, st.txnErr ops = none) →
      (∀ t ∈ templates, ¬ invalidTemplate t true ∧ MachineJob.JobManageEnviron ∉ t.Jobs) →
      ∃ ms, (st.AddMachines templates db).1 = Except.ok ms) := by
  have hcases := AddMachines_cases st templates db
  refine ⟨?_, ?_, ?_, fun t => invalidTemplate_rejects st t, ?_⟩
  · intro batch hb
    rcases hcases with ⟨hn, _⟩ | ⟨mdocs, ops, ssOps, db2, db3, hloop, hmaint, htx, hres⟩
    · rw [hn.txns] at hb
      simp at hb
    · rw [htx] at hb
      have hbatch := singleton_batch _ _ _ hb
      obtain ⟨hlen, _, _⟩ := addMachinesLoop_ok st templates _ db2 mdocs ops hloop
      obtain ⟨hm, hc, hf⟩ := addMachinesLoop_inserts st templates _ db2 mdocs ops hloop
      obtain ⟨hq1, hq2⟩ := quorum_ops_not_inserts st mdocs none db2 db3 ssOps hmaint
      refine ⟨mdocs, hlen, ?_, ?_, hf, ?_⟩
      · rw [← hbatch, List.append_assoc]
        simp only [machineInsertsOf, List.filter_append] at hm hq1 ⊢
        rw [hm, hq1, List.append_nil]
      · rw [← hbatch, List.append_assoc]
        simp only [containerRefInsertsOf, List.filter_append] at hc hq2 ⊢
        rw [hc, hq2, List.append_nil]
      · intro ms hms
        rcases hres with h1 | ⟨e, h1⟩
        · rw [h1] at hms
          simp only [Except.ok.injEq] at hms
          exact hms.symm
        · rw [h1] at hms
          simp at hms
  · intro ms hms
    rcases hcases with ⟨_, e, he⟩ | ⟨mdocs, ops, ssOps, db2, db3, hloop, hmaint, htx, hres⟩
    · rw [he] at hms
      simp at hms
    · obtain ⟨hlen, _, _⟩ := addMachinesLoop_ok st templates _ db2 mdocs ops hloop
      refine ⟨?_, _, htx⟩
      rcases hres with h1 | ⟨e, h1⟩
      · rw [h1] at hms
        simp only [Except.ok.injEq] at hms
        rw [← hms, List.length_map, hlen]
      · rw [h1] at hms
        simp at hms
  · intro hrej
    obtain ⟨e, db1, hloop⟩ :=
      addMachinesLoop_rejects st templates (db.record Event.environment) hrej
    rcases hcases with ⟨hn, he⟩ | ⟨mdocs, ops, ssOps, db2, db3, hloop2, _⟩
    · exact ⟨he, hn.txns⟩
    · rw [hloop] at hloop2
      simp at hloop2
  · intro envCons halive henv hpre hseq htxn hvalid
    obtain ⟨mdocs, ops, db2, hloop⟩ := addMachinesLoop_total st templates
      (db.record Event.environment) envCons henv (fun t ht => (hvalid t ht).1) hpre hseq
    obtain ⟨_, hother, _⟩ := addMachinesLoop_ok st templates _ db2 mdocs ops hloop
    obtain ⟨_, _, hf⟩ := addMachinesLoop_inserts st templates _ db2 mdocs ops hloop
    have hnojob := forall₂_jobs templates mdocs hf (fun t ht => (hvalid t ht).2)
    have hmaint : st.maintainStateServersOps mdocs none db2 = (Except.ok [], db2) := by
      unfold State.maintainStateServersOps
      rw [if_pos (newStateServerIds_nil mdocs hnojob)]
    have hall : (ops ++ [] ++ [assertAliveOp]).all
        (fun op => !op.onStateServers || op.Assert.holds db2.stateServers) = true := by
      rw [List.all_eq_true]
      intro op hop
      simp only [List.append_nil, List.mem_append] at hop
      rcases hop with h1 | h1
      · rw [hother op h1]; rfl
      · rw [assertAliveOp_other op h1]; rfl
    refine ⟨mdocs.map (fun mdoc => { doc := mdoc }), ?_⟩
    unfold State.AddMachines State.addMachinesBody
    simp only [State.Environment, halive, hloop, hmaint, State.runTransaction, htxn, hall]
    simp

/-- An evaluation of `AddMachines` for two valid templates: one batch, which inserts
the machine documents "0" and "1" and their container-reference documents. -/
theorem AddMachines_two_templates_example :
    txnsOf (healthy.AddMachines [hostTemplate, cpuCores4Template] DB.empty).2.log =
      [insertNewMachineOps (machineDocForTemplate hostTemplate "0") Value.zero ++
        [insertNewContainerRefOp "0" []] ++
        (insertNewMachineOps (machineDocForTemplate cpuCores4Template "1")
          cpuCores4Template.Constraints ++ [insertNewContainerRefOp "1" []]) ++
        [assertAliveOp]] ∧
    errorOf (healthy.AddMachines [hostTemplate, cpuCores4Template] DB.empty).1 = none := by
  decide

/-- C15 at a concrete input: a container template that asks for `JobManageEnviron`. -/
theorem C15_validation_fails_exactly_witness :
    errorOf (healthy.effectiveMachineTemplate (stateServerTemplate Value.zero "precise")
      false DB.empty).1 = some errStateServerNotAllowed :=
  ((C15_validation_fails_exactly healthy (stateServerTemplate Value.zero "precise") false
    DB.empty Value.zero rfl).2.2).mpr (by decide)

/-- C16 at a concrete input: environment constraints `mem=4G`, template constraints
`cpu-cores=4`; the constraints document inserted with machine "0" holds both. -/
theorem C16_effective_template_witness :
    createConstraintsOp (machineGlobalKey "0")
        { Value.zero with Mem := some 4096, CpuCores := some 4 } ∈
      opsOf (envMem4G.addMachineOps cpuCores4Template DB.empty).1 := by
  obtain ⟨envCons, _, _, _, _, _, _, _, _, _, _, hstored, _⟩ :=
    C16_effective_template envMem4G cpuCores4Template
      { cpuCores4Template with
        Constraints := { Value.zero with Mem := some 4096, CpuCores := some 4 } }
      true DB.empty (DB.empty.record Event.environConstraints) rfl
  exact hstored DB.empty _ (machineDocForTemplate
      { cpuCores4Template with
        Constraints := { Value.zero with Mem := some 4096, CpuCores := some 4 } } "0") _ rfl

/-! ## Targets that need no new machine -/

theorem EnsureAvailability_reads_info (st : State) (MaxPeers n : Int) (cons : Value)
    (series : String) (db : DB) (hodd : n.tmod 2 = 1) (hpos : 0 < n) (hmax : n ≤ MaxPeers)
    (hread : st.stateServerInfoErr = none) :
    st.EnsureAvailability MaxPeers n cons series db =
      if (db.stateServers.VotingMachineIds.length : Int) = n then
        (none, db.record Event.stateServerInfo)
      else if (db.stateServers.VotingMachineIds.length : Int) > n then
        (some (Errorf "cannot reduce state server count"), db.record Event.stateServerInfo)
      else if n - (db.stateServers.MachineIds.length : Int) < 0 then
        (some makeslicePanic, db.record Event.stateServerInfo)
      else
        match st.ensureAvailabilityLoop cons series
            (n - (db.stateServers.MachineIds.length : Int)).toNat
            (db.record Event.stateServerInfo) with
        | (Except.error err, db2) => (some err, db2)
        | (Except.ok (mdocs, ops), db2) =>
          match st.maintainStateServersOps mdocs (some db.stateServers) db2 with
          | (Except.error err, db3) =>
            (some (wrapf "cannot prepare machine add operations" err), db3)
          | (Except.ok ssOps, db3) =>
            match st.runTransaction (ops ++ ssOps) db3 with
            | (some err, db4) =>
              (some (wrapf "failed to create new state server machines" err), db4)
            | (none, db4) => (none, db4) := by
  have h1 : ¬ (n.tmod 2 ≠ 1 ∨ n ≤ 0) := by
    rintro (h | h)
    · exact h hodd
    · omega
  have h2 : ¬ n > MaxPeers := by omega
  have hinfo : st.StateServerInfo db = (Except.ok db.stateServers, db.record Event.stateServerInfo) := by
    unfold State.StateServerInfo
    rw [hread]
  unfold State.EnsureAvailability
  rw [if_neg h1, if_neg h2, hinfo]

/-- C25: when the target is valid, the state-server information can be read and the
number of voting machine ids already equals the target, `EnsureAvailability` returns
success and the store is as before but for the record of that one read: no template
was validated, no sequence number was handed out, no counter moved, no transaction
was submitted and the state-servers document is unchanged.  Neither the constraints,
nor the series (the empty one included), nor the number of machine ids matter. -/
theorem C25_target_already_met (st : State) (MaxPeers n : Int) (cons : Value)
    (series : String) (db : DB) (hodd : n.tmod 2 = 1) (hpos : 0 < n) (hmax : n ≤ MaxPeers)
    (hread : st.stateServerInfoErr = none)
    (hvote : (db.stateServers.VotingMachineIds.length : Int) = n) :
    st.EnsureAvailability MaxPeers n cons series db = (none, db.record Event.stateServerInfo) ∧
    (st.EnsureAvailability MaxPeers n cons series db).2.log = db.log ++ [Event.stateServerInfo] ∧
    txnsOf (st.EnsureAvailability MaxPeers n cons series db).2.log = txnsOf db.log ∧
    allocsOf (st.EnsureAvailability MaxPeers n cons series db).2.log = allocsOf db.log ∧
    (st.EnsureAvailability MaxPeers n cons series db).2.sequences = db.sequences ∧
    (st.EnsureAvailability MaxPeers n cons series db).2.stateServers = db.stateServers := by
  have h := EnsureAvailability_reads_info st MaxPeers n cons series db hodd hpos hmax hread
  rw [if_pos hvote] at h
  rw [h]
  refine ⟨rfl, rfl, ?_, ?_, rfl, rfl⟩
  · simp [DB.record, txnsOf_append, txnsOf]
  · simp [DB.record, allocsOf_append, allocsOf]

/-- C25 at a concrete input: one voter among five state servers, target 1, the empty
series. -/
theorem C25_target_already_met_witness :
    healthy.EnsureAvailability 7 1 Value.zero "" fiveServersOneVoter =
      (none, fiveServersOneVoter.record Event.stateServerInfo) :=
  (C25_target_already_met healthy 7 1 Value.zero "" fiveServersOneVoter
    (by decide) (by decide) (by decide) rfl (by decide)).1

theorem effectiveMachineTemplate_series (st : State) (p : MachineTemplate) (allow : Bool)
    (db : DB) :
    (p.Series = "" ∧
      st.effectiveMachineTemplate p allow db = (Except.error (Errorf "no series specified"), db)) ∨
    (p.Series ≠ "" ∧
      (st.effectiveMachineTemplate p allow db).2 = db.record Event.environConstraints) := by
  by_cases hs : p.Series = ""
  · left
    refine ⟨hs, ?_⟩
    unfold State.effectiveMachineTemplate
    rw [if_pos hs]
  · right
    refine ⟨hs, ?_⟩
    unfold State.effectiveMachineTemplate
    rw [if_neg hs]
    simp only [State.EnvironConstraints]
    cases st.environConstraints with
    | error e => rfl
    | ok c =>
      simp only
      repeat (first | rfl | split)

theorem addMachineOps_series (st : State) (t : MachineTemplate) (db : DB) :
    (t.Series = "" ∧
      st.addMachineOps t db = (Except.error (Errorf "no series specified"), db)) ∨
    (t.Series ≠ "" ∧ db.log.length < (st.addMachineOps t db).2.log.length) := by
  rcases effectiveMachineTemplate_series st t true db with ⟨hs, h⟩ | ⟨hs, h⟩
  · left
    refine ⟨hs, ?_⟩
    unfold State.addMachineOps
    rw [h]
  · right
    refine ⟨hs, ?_⟩
    have hlen : db.log.length < (db.record Event.environConstraints).log.length := by
      simp [DB.record]
    unfold State.addMachineOps
    split
    · rename_i heq
      rw [heq] at h
      simp only at h
      subst h
      exact hlen
    · rename_i eff db1 heq
      rw [heq] at h
      simp only at h
      subst h
      have h2 := (precheckIf_readOnly st (eff.InstanceId = "") eff.Series eff.Constraints
        (db.record Event.environConstraints)).noCommit.log_length
      split
      · rename_i heq2
        rw [heq2] at h2
        exact lt_of_lt_of_le hlen h2
      · rename_i db2 heq2
        rw [heq2] at h2
        have h3 := (sequence_noCommit st "machine" db2).log_length
        split
        · rename_i heq3
          rw [heq3] at h3
          exact lt_of_lt_of_le hlen (le_trans h2 h3)
        · rename_i heq3
          rw [heq3] at h3
          exact lt_of_lt_of_le hlen (le_trans h2 h3)

theorem ensureAvailabilityLoop_error (st : State) (cons : Value) (series : String)
    (left : Nat) (db db1 : DB) (err : Error)
    (h : st.ensureAvailabilityLoop cons series left db = (Except.error err, db1))
    (hlen : db1.log.length = db.log.length) : err = Errorf "no series specified" := by
  cases left with
  | zero => simp [State.ensureAvailabilityLoop] at h
  | succ k =>
    have hs := addMachineOps_series st (stateServerTemplate cons series) db
    unfold State.ensureAvailabilityLoop at h
    rcases hs with ⟨_, hs⟩ | ⟨_, hs⟩
    · rw [hs] at h
      simp only [Prod.mk.injEq, Except.error.injEq] at h
      exact h.1.symm
    · exfalso
      split at h
      · rename_i heq
        rw [heq] at hs
        simp only [Prod.mk.injEq, Except.error.injEq] at h
        rw [h.2] at hs
        simp only at hs
        omega
      · rename_i mdoc addOps db2 heq
        rw [heq] at hs
        have h2 := (ensureAvailabilityLoop_noCommit st cons series k db2).log_length
        split at h
        · rename_i heq2
          rw [heq2] at h2
          simp only [Prod.mk.injEq, Except.error.injEq] at h
          rw [h.2] at h2
          simp only at hs h2
          omega
        · simp at h

theorem cannotReduce_ne_noSeries :
    Errorf "no series specified" ≠ Errorf "cannot reduce state server count" := by decide

/-- C26: when the target is valid and the state-server information can be read,
`EnsureAvailability` stops at its own check with the error "cannot reduce state server
count", the store being as before but for the record of that one read, iff there are
more voting machine ids than the target.  In that case no sequence number was handed
out, no counter moved, no transaction was submitted and the state-servers document is
unchanged.  (On every other path the call succeeds, fails with another error, or has
called further collaborators.) -/
theorem C26_cannot_reduce (st : State) (MaxPeers n : Int) (cons : Value)
    (series : String) (db : DB) (hodd : n.tmod 2 = 1) (hpos : 0 < n) (hmax : n ≤ MaxPeers)
    (hread : st.stateServerInfoErr = none) :
    (st.EnsureAvailability MaxPeers n cons series db =
        (some (Errorf "cannot reduce state server count"), db.record Event.stateServerInfo) ↔
      n < (db.stateServers.VotingMachineIds.length : Int)) ∧
    (n < (db.stateServers.VotingMachineIds.length : Int) →
      (st.EnsureAvailability MaxPeers n cons series db).1 =
        some (Errorf "cannot reduce state server count") ∧
      txnsOf (st.EnsureAvailability MaxPeers n cons series db).2.log = txnsOf db.log ∧
      allocsOf (st.EnsureAvailability MaxPeers n cons series db).2.log = allocsOf db.log ∧
      (st.EnsureAvailability MaxPeers n cons series db).2.sequences = db.sequences ∧
      (st.EnsureAvailability MaxPeers n cons series db).2.stateServers = db.stateServers) := by
  have h := EnsureAvailability_reads_info st MaxPeers n cons series db hodd hpos hmax hread
  have hback : n < (db.stateServers.VotingMachineIds.length : Int) →
      st.EnsureAvailability MaxPeers n cons series db =
        (some (Errorf "cannot reduce state server count"), db.record Event.stateServerInfo) := by
    intro hgt
    rw [h, if_neg (by omega), if_pos (by omega)]
  refine ⟨⟨?_, hback⟩, ?_⟩
  · intro hres
    by_contra hle
    rw [h] at hres
    by_cases heq : (db.stateServers.VotingMachineIds.length : Int) = n
    · rw [if_pos heq] at hres
      simp at hres
    · rw [if_neg heq, if_neg (by omega)] at hres
      split at hres
      · simp [makeslicePanic, Errorf] at hres
      · split at hres
        · rename_i err db2 heq2
          simp only [Prod.mk.injEq, Option.some.injEq] at hres
          have := ensureAvailabilityLoop_error st cons series _ _ _ _ heq2 (by rw [hres.2])
          rw [hres.1] at this
          exact cannotReduce_ne_noSeries this.symm
        · rename_i mdocs ops db2 heq2
          have hl := (ensureAvailabilityLoop_noCommit st cons series
            (n - (db.stateServers.MachineIds.length : Int)).toNat
            (db.record Event.stateServerInfo)).log_length
          rw [heq2] at hl
          rw [maintainStateServersOps_some] at hres
          simp only at hres
          have hlog := (runTransaction_log st
            (ops ++ (if (newStateServerIds mdocs).1.length = 0 then []
              else [stateServersOp db.stateServers (newStateServerIds mdocs).1
                (newStateServerIds mdocs).2])) db2).1
          split at hres
          · rename_i heq3
            rw [heq3] at hlog
            simp only [Prod.mk.injEq] at hres
            rw [hres.2] at hlog
            have := congrArg List.length hlog
            simp only [List.length_append, List.length_singleton] at this
            simp only at hl
            omega
          · simp at hres
  · intro hgt
    rw [hback hgt]
    refine ⟨rfl, ?_, ?_, rfl, rfl⟩
    · simp [DB.record, txnsOf_append, txnsOf]
    · simp [DB.record, allocsOf_append, allocsOf]

/-- C26 at a concrete input: three voters, target 1. -/
theorem C26_cannot_reduce_witness :
    healthy.EnsureAvailability 7 1 Value.zero "precise" threeVoters =
      (some (Errorf "cannot reduce state server count"),
        threeVoters.record Event.stateServerInfo) :=
  (C26_cannot_reduce healthy 7 1 Value.zero "precise" threeVoters
    (by decide) (by decide) (by decide) rfl).1.2 (by decide)

/-! ## The capacity of the slice of new machine documents -/

theorem EnsureAvailability_negative_capacity (st : State) (MaxPeers n : Int) (cons : Value)
    (series : String) (db : DB) (hodd : n.tmod 2 = 1) (hpos : 0 < n) (hmax : n ≤ MaxPeers)
    (hread : st.stateServerInfoErr = none)
    (hvote : (db.stateServers.VotingMachineIds.length : Int) < n)
    (hmach : n < (db.stateServers.MachineIds.length : Int)) :
    st.EnsureAvailability MaxPeers n cons series db =
      (some makeslicePanic, db.record Event.stateServerInfo) := by
  rw [EnsureAvailability_reads_info st MaxPeers n cons series db hodd hpos hmax hread,
    if_neg (by omega), if_neg (by omega), if_pos (by omega)]

/-- A store that holds more state servers than the target but fewer voters: five
state servers of which one votes, target 3.  No sequence of calls of this file
produces such a store (see `reachable_nonvoters`); on it the capacity requested for
the slice of new machine documents is `3 - 5 = -2` and the model returns the panic of
`make`. -/
theorem negative_capacity_example :
    (fiveServersOneVoter.stateServers.VotingMachineIds.length : Int) < 3 ∧
    (3 : Int) - (fiveServersOneVoter.stateServers.MachineIds.length : Int) = -2 ∧
    healthy.EnsureAvailability 7 3 Value.zero "precise" fiveServersOneVoter =
      (some makeslicePanic, fiveServersOneVoter.record Event.stateServerInfo) :=
  ⟨by decide, by decide,
    EnsureAvailability_negative_capacity healthy 7 3 Value.zero "precise" fiveServersOneVoter
      (by decide) (by decide) (by decide) rfl (by decide) (by decide)⟩

/-! ## The keys of the quorum update document -/

/-- C29: every operation that `maintainStateServersOps` returns has an update
document of two entries that both carry the key "$addToSet"; the first addresses
`machineids` with the new ids, the second `votingmachineids` with the new voting ids.
The two fields differ, and applying the entries in order adds both lists to the
state-servers document.  When some document carries `JobManageEnviron` there is
exactly one such operation. -/
theorem C29_update_document_shape (st : State) (mdocs : List machineDoc)
    (currentInfo : Option StateServerInfo) (db db1 : DB) (ops : List Op)
    (h : st.maintainStateServersOps mdocs currentInfo db = (Except.ok ops, db1)) :
    (∀ op ∈ ops,
      updateKeys op = ["$addToSet", "$addToSet"] ∧
      updateFields op = ["machineids", "votingmachineids"] ∧
      (updateFields op).Nodup ∧
      op.Update.map (fun u => u.each) =
        [(newStateServerIds mdocs).1, (newStateServerIds mdocs).2] ∧
      ∀ s : StateServerInfo, applyOp s op =
        { MachineIds := addToSet s.MachineIds (newStateServerIds mdocs).1,
          VotingMachineIds := addToSet s.VotingMachineIds (newStateServerIds mdocs).2 }) ∧
    ((newStateServerIds mdocs).1 ≠ [] → ∃ op, ops = [op]) := by
  rcases maintainStateServersOps_ok st mdocs currentInfo db db1 ops h with
    ⟨hnil, hops, _⟩ | ⟨info, hops, _, _⟩
  · subst hops
    exact ⟨by simp, fun hne => absurd hnil hne⟩
  · subst hops
    refine ⟨?_, fun _ => ⟨_, rfl⟩⟩
    intro op hop
    rw [List.mem_singleton] at hop
    subst hop
    refine ⟨rfl, rfl, ?_, rfl, ?_⟩
    · show ["machineids", "votingmachineids"].Nodup
      decide
    intro s
    exact applyOp_stateServersOp s info _ _

/-- C29 at a concrete input: the update for one new voting state server "1" next to
the state server "0". -/
theorem C29_update_document_shape_witness :
    updateKeys (stateServersOp oneVoter.stateServers ["1"] ["1"]) =
      ["$addToSet", "$addToSet"] ∧
    updateFields (stateServersOp oneVoter.stateServers ["1"] ["1"]) =
      ["machineids", "votingmachineids"] ∧
    (updateFields (stateServersOp oneVoter.stateServers ["1"] ["1"])).Nodup ∧
    (stateServersOp oneVoter.stateServers ["1"] ["1"]).Update.map (fun u => u.each) =
      [["1"], ["1"]] ∧
    ∀ s : StateServerInfo, applyOp s (stateServersOp oneVoter.stateServers ["1"] ["1"]) =
      { MachineIds := addToSet s.MachineIds ["1"],
        VotingMachineIds := addToSet s.VotingMachineIds ["1"] } :=
  (C29_update_document_shape healthy [newStateServerDoc Value.zero Value.zero "precise" 1]
    (some oneVoter.stateServers) oneVoter oneVoter
    [stateServersOp oneVoter.stateServers ["1"] ["1"]] rfl).1
    (stateServersOp oneVoter.stateServers ["1"] ["1"]) (List.mem_singleton.mpr rfl)

/-- C29, the claim as it was stated: the two top-level keys of the update document
that `maintainStateServersOps` builds for a new state server are equal, not pairwise
distinct. -/
theorem C29_counterexample_duplicate_key :
    ∃ op, (healthy.maintainStateServersOps
        [newStateServerDoc Value.zero Value.zero "precise" 1]
        (some oneVoter.stateServers) oneVoter).1 = Except.ok [op] ∧
      updateKeys op = ["$addToSet", "$addToSet"] ∧ ¬ (updateKeys op).Nodup :=
  ⟨stateServersOp oneVoter.stateServers ["1"] ["1"], rfl, rfl, by decide⟩

/-! ## Shape of the container batches -/

theorem sequence_ok (st : State) (name : String) (db db1 : DB) (n : Nat)
    (h : st.sequence name db = (Except.ok n, db1)) :
    n = db.sequences name ∧ db1.stateServers = db.stateServers ∧
    db1.sequences = (fun k => if k = name then db.sequences name + 1 else db.sequences k) ∧
    db1.log = db.log ++ [Event.sequence name (some (db.sequences name))] := by
  unfold State.sequence at h
  split at h
  · simp at h
  · simp only [Prod.mk.injEq, Except.ok.injEq] at h
    obtain ⟨hn, hdb⟩ := h
    subst hn; subst hdb
    exact ⟨rfl, rfl, rfl, rfl⟩

theorem newContainerId_ok (st : State) (parentId containerType : String) (db db1 : DB)
    (id : String) (h : st.newContainerId parentId containerType db = (Except.ok id, db1)) :
    st.sequence ("machine" ++ parentId ++ containerType ++ "Container") db =
      (Except.ok (db.sequences ("machine" ++ parentId ++ containerType ++ "Container")), db1) ∧
    id = parentId ++ "/" ++ containerType ++ "/" ++
      Itoa (db.sequences ("machine" ++ parentId ++ containerType ++ "Container")) := by
  unfold State.newContainerId at h
  split at h
  · simp at h
  · rename_i seq dbs heq
    simp only [Prod.mk.injEq, Except.ok.injEq] at h
    obtain ⟨hid, hdb⟩ := h
    subst hdb
    obtain ⟨hn, _⟩ := sequence_ok st _ db dbs seq heq
    subst hn
    exact ⟨heq, hid.symm⟩

theorem addMachineInsideMachineOps_ok (st : State) (template : MachineTemplate)
    (parentId containerType : String) (db db1 : DB) (mdoc : machineDoc) (ops : List Op)
    (h : st.addMachineInsideMachineOps template parentId containerType db =
      (Except.ok (mdoc, ops), db1)) :
    template.InstanceId = "" ∧ containerType ≠ "" ∧
    ∃ eff parent newId,
      st.effectiveMachineTemplate template false db =
        (Except.ok eff, db.record Event.environConstraints) ∧
      st.machine parentId = Except.ok parent ∧
      parent.supportsContainerType containerType = true ∧
      st.newContainerId parentId containerType
        ((db.record Event.environConstraints).record (Event.machine parentId)) =
        (Except.ok newId, db1) ∧
      mdoc = { machineDocForTemplate eff newId with ContainerType := containerType } ∧
      ops = insertNewMachineOps mdoc eff.Constraints ++
        [addChildToContainerRefOp parentId mdoc.Id, insertNewContainerRefOp mdoc.Id []] := by
  unfold State.addMachineInsideMachineOps at h
  split at h
  · simp at h
  · rename_i hinst
    split at h
    · simp at h
    · rename_i eff dbe heq
      obtain ⟨_, _, _, hdbe⟩ := effectiveMachineTemplate_ok st template eff false db dbe heq
      subst hdbe
      split at h
      · simp at h
      · rename_i hct
        split at h
        · simp at h
        · rename_i parent dbm heqm
          simp only [State.Machine, Prod.mk.injEq] at heqm
          obtain ⟨hpar, hdbm⟩ := heqm
          subst hdbm
          split at h
          · simp at h
          · rename_i hsup
            split at h
            · simp at h
            · rename_i newId dbn heqn
              simp only [Prod.mk.injEq, Except.ok.injEq] at h
              obtain ⟨⟨hm, ho⟩, hdb⟩ := h
              subst hdb
              refine ⟨by simpa using hinst, hct, eff, parent, newId, heq, hpar,
                by simpa using hsup, heqn, hm.symm, ?_⟩
              subst hm
              exact ho.symm

theorem addMachineInsideNewMachineOps_ok (st : State) (template parentTemplate : MachineTemplate)
    (containerType : String) (db db1 : DB) (mdoc : machineDoc) (ops : List Op)
    (h : st.addMachineInsideNewMachineOps template parentTemplate containerType db =
      (Except.ok (mdoc, ops), db1)) :
    template.InstanceId = "" ∧ parentTemplate.InstanceId = "" ∧ containerType ≠ "" ∧
    ∃ dbs peff dbp newId dbn eff,
      st.sequence "machine" db = (Except.ok (db.sequences "machine"), dbs) ∧
      st.effectiveMachineTemplate parentTemplate false dbs =
        (Except.ok peff, dbs.record Event.environConstraints) ∧
      ReadOnly (dbs.record Event.environConstraints) dbp ∧
      st.newContainerId (Itoa (db.sequences "machine")) containerType dbp =
        (Except.ok newId, dbn) ∧
      st.effectiveMachineTemplate template false dbn = (Except.ok eff, db1) ∧
      mdoc = { machineDocForTemplate eff newId with ContainerType := containerType } ∧
      ops = insertNewMachineOps (machineDocForTemplate peff (Itoa (db.sequences "machine")))
          peff.Constraints ++
        insertNewMachineOps mdoc eff.Constraints ++
        [insertNewContainerRefOp mdoc.Id [],
         insertNewContainerRefOp (Itoa (db.sequences "machine")) [mdoc.Id]] := by
  unfold State.addMachineInsideNewMachineOps at h
  split at h
  · simp at h
  · rename_i hinst
    have hinst2 : template.InstanceId = "" ∧ parentTemplate.InstanceId = "" := by
      constructor
      · by_contra hc; exact hinst (Or.inl hc)
      · by_contra hc; exact hinst (Or.inr hc)
    split at h
    · simp at h
    · rename_i seq dbs heqs
      obtain ⟨hseq, _⟩ := sequence_ok st _ db dbs seq heqs
      subst hseq
      split at h
      · simp at h
      · rename_i peff dbe heqp
        obtain ⟨_, _, _, hdbe⟩ :=
          effectiveMachineTemplate_ok st parentTemplate peff false dbs dbe heqp
        subst hdbe
        split at h
        · simp at h
        · rename_i hct
          have hro := precheckIf_readOnly st (peff.InstanceId = "") peff.Series peff.Constraints
            (dbs.record Event.environConstraints)
          split at h
          · simp at h
          · rename_i dbp heqpre
            rw [heqpre] at hro
            simp only at h
            split at h
            · simp at h
            · rename_i newId dbn heqn
              split at h
              · simp at h
              · rename_i eff dbc heqc
                simp only [Prod.mk.injEq, Except.ok.injEq] at h
                obtain ⟨⟨hm, ho⟩, hdb⟩ := h
                subst hdb
                refine ⟨hinst2.1, hinst2.2, hct, dbs, peff, dbp, newId, dbn, eff, heqs, heqp,
                  hro, heqn, heqc, hm.symm, ?_⟩
                subst hm
                exact ho.symm

theorem addMachineOps_steps (st : State) (template : MachineTemplate) (db db1 : DB)
    (mdoc : machineDoc) (ops : List Op)
    (h : st.addMachineOps template db = (Except.ok (mdoc, ops), db1)) :
    ∃ eff db2,
      st.effectiveMachineTemplate template true db =
        (Except.ok eff, db.record Event.environConstraints) ∧
      ReadOnly db db2 ∧
      st.sequence "machine" db2 = (Except.ok (db2.sequences "machine"), db1) ∧
      mdoc = machineDocForTemplate eff (Itoa (db2.sequences "machine")) := by
  unfold State.addMachineOps at h
  split at h
  · simp at h
  · rename_i eff dbe heq
    obtain ⟨_, _, _, hdbe⟩ := effectiveMachineTemplate_ok st template eff true db dbe heq
    subst hdbe
    have hro1 : ReadOnly db (db.record Event.environConstraints) :=
      readOnly_record db Event.environConstraints rfl rfl
    have hro := precheckIf_readOnly st (eff.InstanceId = "") eff.Series eff.Constraints
      (db.record Event.environConstraints)
    split at h
    · simp at h
    · rename_i db2 heqpre
      rw [heqpre] at hro
      split at h
      · simp at h
      · rename_i seq db3 heqs
        obtain ⟨hseq, _⟩ := sequence_ok st _ db2 db3 seq heqs
        subst hseq
        simp only [Prod.mk.injEq, Except.ok.injEq] at h
        obtain ⟨⟨hm, _⟩, hdb⟩ := h
        subst hdb
        exact ⟨eff, db2, heq, hro1.andRead hro, heqs, hm.symm⟩

theorem containerSequence_ne_machine (p t : String) :
    "machine" ++ p ++ t ++ "Container" ≠ "machine" := by
  intro h
  have h1 := congrArg String.length h
  simp only [String.length_append] at h1
  have h2 : "Container".length = 9 := by decide
  omega

theorem readOnly_allocs {a b : DB} (h : ReadOnly a b) : allocsOf b.log = allocsOf a.log := by
  obtain ⟨_, _, es, hl, _, ha⟩ := h
  rw [hl, allocsOf_append, ha, List.append_nil]

/-- C22: `newContainerId(p, t)` that returns an id has drawn exactly one value `n`, the
current one, from the sequence named "machine" ++ p ++ t ++ "Container" (whose counter
then stands at `n + 1`) and returns `p ++ "/" ++ t ++ "/" ++ decimal(n)`; it returns an
id whenever that sequence does not fail.  The document that
`addMachineInsideMachineOps` builds has this id and container type `t`, and that one
draw is the only one of the call.  `addMachineInsideNewMachineOps` draws the parent's
number `m` from "machine" and the child's from "machine" ++ decimal(m) ++ t ++
"Container": the parent's document has id `decimal(m)` and an empty container type,
the child's has id `decimal(m) ++ "/" ++ t ++ "/" ++ decimal(n)` and container type
`t`.  A root machine's document, built by `addMachineOps`, has the id `decimal(n)` of
the one value drawn from "machine" and an empty container type. -/
theorem C22_machine_ids (st : State) (db : DB) :
    (∀ p t id db1, st.newContainerId p t db = (Except.ok id, db1) →
      id = p ++ "/" ++ t ++ "/" ++ Itoa (db.sequences ("machine" ++ p ++ t ++ "Container")) ∧
      db1.log = db.log ++ [Event.sequence ("machine" ++ p ++ t ++ "Container")
        (some (db.sequences ("machine" ++ p ++ t ++ "Container")))] ∧
      db1.sequences ("machine" ++ p ++ t ++ "Container") =
        db.sequences ("machine" ++ p ++ t ++ "Container") + 1) ∧
    (∀ p t, st.sequenceErr ("machine" ++ p ++ t ++ "Container")
        (db.sequences ("machine" ++ p ++ t ++ "Container")) = none →
      (st.newContainerId p t db).1 = Except.ok
        (p ++ "/" ++ t ++ "/" ++ Itoa (db.sequences ("machine" ++ p ++ t ++ "Container")))) ∧
    (∀ template p t mdoc ops db1,
      st.addMachineInsideMachineOps template p t db = (Except.ok (mdoc, ops), db1) →
      mdoc.Id = p ++ "/" ++ t ++ "/" ++
        Itoa (db.sequences ("machine" ++ p ++ t ++ "Container")) ∧
      mdoc.ContainerType = t ∧ machineDocsOf ops = [mdoc] ∧
      allocsOf db1.log = allocsOf db.log ++
        [("machine" ++ p ++ t ++ "Container",
          db.sequences ("machine" ++ p ++ t ++ "Container"))]) ∧
    (∀ template parentTemplate t mdoc ops db1,
      st.addMachineInsideNewMachineOps template parentTemplate t db =
        (Except.ok (mdoc, ops), db1) →
      ∃ parentDoc, machineDocsOf ops = [parentDoc, mdoc] ∧
        parentDoc.Id = Itoa (db.sequences "machine") ∧ parentDoc.ContainerType = "" ∧
        mdoc.Id = parentDoc.Id ++ "/" ++ t ++ "/" ++
          Itoa (db.sequences ("machine" ++ parentDoc.Id ++ t ++ "Container")) ∧
        mdoc.ContainerType = t ∧
        allocsOf db1.log = allocsOf db.log ++
          [("machine", db.sequences "machine"),
           ("machine" ++ parentDoc.Id ++ t ++ "Container",
            db.sequences ("machine" ++ parentDoc.Id ++ t ++ "Container"))]) ∧
    (∀ template mdoc ops db1,
      st.addMachineOps template db = (Except.ok (mdoc, ops), db1) →
      mdoc.Id = Itoa (db.sequences "machine") ∧ mdoc.ContainerType = "" ∧
      machineDocsOf ops = [mdoc] ∧
      allocsOf db1.log = allocsOf db.log ++ [("machine", db.sequences "machine")]) := by
  refine ⟨?_, ?_, ?_, ?_, ?_⟩
  · intro p t id db1 h
    obtain ⟨hs, hid⟩ := newContainerId_ok st p t db db1 id h
    obtain ⟨_, _, hq, hl⟩ := sequence_ok st _ db db1 _ hs
    refine ⟨hid, hl, ?_⟩
    rw [hq]
    simp
  · intro p t herr
    unfold State.newContainerId State.sequence
    rw [herr]
  · intro template p t mdoc ops db1 h
    obtain ⟨_, _, eff, parent, newId, _, _, _, hn, hm, ho⟩ :=
      addMachineInsideMachineOps_ok st template p t db db1 mdoc ops h
    obtain ⟨hs, hid⟩ := newContainerId_ok st p t _ db1 newId hn
    obtain ⟨_, _, _, hl⟩ := sequence_ok st _ _ db1 _ hs
    subst hid
    refine ⟨by rw [hm]; rfl, by rw [hm], ?_, ?_⟩
    · rw [ho]
      simp [machineDocsOf, insertNewMachineOps, createConstraintsOp, createStatusOp,
        addChildToContainerRefOp, insertNewContainerRefOp]
    · rw [hl]
      simp [DB.record, allocsOf_append, allocsOf]
  · intro template parentTemplate t mdoc ops db1 h
    obtain ⟨_, _, _, dbs, peff, dbp, newId, dbn, eff, hs, _, hro, hn, hc, hm, ho⟩ :=
      addMachineInsideNewMachineOps_ok st template parentTemplate t db db1 mdoc ops h
    obtain ⟨_, _, hq, hl⟩ := sequence_ok st _ db dbs _ hs
    obtain ⟨hs2, hid⟩ := newContainerId_ok st _ t dbp dbn newId hn
    obtain ⟨_, _, _, hl2⟩ := sequence_ok st _ dbp dbn _ hs2
    have hro2 := effectiveMachineTemplate_readOnly st template false dbn
    rw [hc] at hro2
    have hseq : dbp.sequences ("machine" ++ Itoa (db.sequences "machine") ++ t ++ "Container") =
        db.sequences ("machine" ++ Itoa (db.sequences "machine") ++ t ++ "Container") := by
      rw [hro.2.1]
      show dbs.sequences _ = _
      rw [hq]
      simp only
      rw [if_neg (containerSequence_ne_machine _ _)]
    rw [hseq] at hid hl2
    refine ⟨machineDocForTemplate peff (Itoa (db.sequences "machine")), ?_, rfl, rfl, ?_,
      by rw [hm], ?_⟩
    · rw [ho]
      simp [machineDocsOf, insertNewMachineOps, createConstraintsOp, createStatusOp,
        insertNewContainerRefOp]
    · rw [hm, hid]
      rfl
    · rw [readOnly_allocs hro2, hl2, allocsOf_append, readOnly_allocs hro]
      simp only [DB.record]
      rw [hl]
      simp [allocsOf_append, allocsOf, machineDocForTemplate]
  · intro template mdoc ops db1 h
    obtain ⟨_, hdocs⟩ := addMachineOps_ok st template db db1 mdoc ops h
    obtain ⟨eff, db2, _, hro, hs, hm⟩ := addMachineOps_steps st template db db1 mdoc ops h
    obtain ⟨_, _, _, hl⟩ := sequence_ok st _ db2 db1 _ hs
    rw [hro.2.1] at hm hl
    refine ⟨by rw [hm]; rfl, by rw [hm]; rfl, hdocs, ?_⟩
    rw [hl, allocsOf_append, readOnly_allocs hro]
    simp [allocsOf]

/-- C22 at a concrete input: the first lxc container on machine "0" and the first
container inside a new machine, from the empty store. -/
theorem C22_machine_ids_witness :
    (∃ mdoc ops db1,
      anyHost.addMachineInsideMachineOps hostTemplate "0" "lxc" DB.empty =
        (Except.ok (mdoc, ops), db1) ∧
      mdoc.Id = "0/lxc/0" ∧ mdoc.ContainerType = "lxc" ∧
      allocsOf db1.log = [("machine0lxcContainer", 0)]) ∧
    (∃ mdoc ops db1,
      healthy.addMachineInsideNewMachineOps hostTemplate hostTemplate "lxc" DB.empty =
        (Except.ok (mdoc, ops), db1) ∧
      (machineDocsOf ops).map (fun d => (d.Id, d.ContainerType)) =
        [("0", ""), ("0/lxc/0", "lxc")]) :=
  ⟨⟨_, _, _, rfl,
    ((C22_machine_ids anyHost DB.empty).2.2.1 hostTemplate "0" "lxc" _ _ _ rfl).1,
    ((C22_machine_ids anyHost DB.empty).2.2.1 hostTemplate "0" "lxc" _ _ _ rfl).2.1,
    ((C22_machine_ids anyHost DB.empty).2.2.1 hostTemplate "0" "lxc" _ _ _ rfl).2.2.2⟩,
   ⟨_, _, _, rfl, by decide⟩⟩

theorem addMachine_ok (st : State) (mdoc : machineDoc) (ops : List Op) (db db1 : DB)
    (m : Machine) (h : st.addMachine mdoc ops db = (Except.ok m, db1)) :
    m = { doc := mdoc } ∧ st.environ = Except.ok Life.Alive ∧
    st.runTransaction (assertAliveOp :: ops) (db.record Event.environment) = (none, db1) := by
  unfold State.addMachine at h
  split at h
  · simp at h
  · rename_i life dbe heq
    simp only [State.Environment, Prod.mk.injEq] at heq
    obtain ⟨henv, hdbe⟩ := heq
    subst hdbe
    split at h
    · simp at h
    · rename_i hlife
      have hl : life = Life.Alive := by simpa using hlife
      subst hl
      split at h
      · split at h
        · split at h <;> simp at h
        · split at h <;> simp at h
      · rename_i db2 heqt
        simp only [Prod.mk.injEq, Except.ok.injEq] at h
        obtain ⟨hm, hdb⟩ := h
        subst hdb
        exact ⟨hm.symm, henv, heqt⟩

theorem AddMachineInsideMachine_ok (st : State) (template : MachineTemplate)
    (parentId containerType : String) (db db1 : DB) (m : Machine)
    (h : st.AddMachineInsideMachine template parentId containerType db = (Except.ok m, db1)) :
    ∃ mdoc ops db2,
      st.addMachineInsideMachineOps template parentId containerType db =
        (Except.ok (mdoc, ops), db2) ∧
      st.addMachine mdoc ops db2 = (Except.ok m, db1) := by
  unfold State.AddMachineInsideMachine at h
  split at h
  · simp at h
  · rename_i mdoc ops db2 heq
    exact ⟨mdoc, ops, db2, heq, h⟩

theorem AddMachineInsideNewMachine_ok (st : State) (template parentTemplate : MachineTemplate)
    (containerType : String) (db db1 : DB) (m : Machine)
    (h : st.AddMachineInsideNewMachine template parentTemplate containerType db =
      (Except.ok m, db1)) :
    ∃ mdoc ops db2,
      st.addMachineInsideNewMachineOps template parentTemplate containerType db =
        (Except.ok (mdoc, ops), db2) ∧
      st.addMachine mdoc ops db2 = (Except.ok m, db1) := by
  unfold State.AddMachineInsideNewMachine at h
  split at h
  · simp at h
  · rename_i mdoc ops db2 heq
    exact ⟨mdoc, ops, db2, heq, h⟩

/-! ## Parent and child in one batch -/

/-- C27: the batch that `addMachineInsideMachineOps` builds inserts the child's
machine document, and its operations on the container references are exactly the
addition of the child's id to the parent's reference document (which must exist) and
the insert of the child's own reference document, without children.  The batch that
`addMachineInsideNewMachineOps` builds inserts the parent's and the child's machine
documents, and its operations on the container references are exactly the insert of
the child's reference document without children and the insert of the parent's with
the child's id as its only child; no operation of that batch has an update, so there
is no separate append.  In both cases the child's id is the parent's id followed by
"/" and a rest.  A successful `AddMachineInsideMachine` or
`AddMachineInsideNewMachine` has submitted that batch, after the assertion that the
environment is alive, as its one transaction. -/
theorem C27_linkage_in_same_batch (st : State) (db : DB) :
    (∀ template p t mdoc ops db1,
      st.addMachineInsideMachineOps template p t db = (Except.ok (mdoc, ops), db1) →
      machineDocsOf ops = [mdoc] ∧
      ops.filter (fun op => op.C == containerRefsC) =
        [addChildToContainerRefOp p mdoc.Id, insertNewContainerRefOp mdoc.Id []] ∧
      containerRefInsertsOf ops = [insertNewContainerRefOp mdoc.Id []] ∧
      ∃ rest, mdoc.Id = p ++ "/" ++ rest) ∧
    (∀ template parentTemplate t mdoc ops db1,
      st.addMachineInsideNewMachineOps template parentTemplate t db =
        (Except.ok (mdoc, ops), db1) →
      ∃ parentDoc, machineDocsOf ops = [parentDoc, mdoc] ∧
        ops.filter (fun op => op.C == containerRefsC) =
          [insertNewContainerRefOp mdoc.Id [],
           insertNewContainerRefOp parentDoc.Id [mdoc.Id]] ∧
        containerRefInsertsOf ops =
          [insertNewContainerRefOp mdoc.Id [],
           insertNewContainerRefOp parentDoc.Id [mdoc.Id]] ∧
        (∀ op ∈ ops, op.Update = []) ∧
        ∃ rest, mdoc.Id = parentDoc.Id ++ "/" ++ rest) ∧
    (∀ template p t m db1,
      st.AddMachineInsideMachine template p t db = (Except.ok m, db1) →
      ∃ ops db2, st.addMachineInsideMachineOps template p t db =
          (Except.ok (m.doc, ops), db2) ∧
        txnsOf db1.log = txnsOf db.log ++ [assertAliveOp :: ops]) ∧
    (∀ template parentTemplate t m db1,
      st.AddMachineInsideNewMachine template parentTemplate t db = (Except.ok m, db1) →
      ∃ ops db2, st.addMachineInsideNewMachineOps template parentTemplate t db =
          (Except.ok (m.doc, ops), db2) ∧
        txnsOf db1.log = txnsOf db.log ++ [assertAliveOp :: ops]) := by
  refine ⟨?_, ?_, ?_, ?_⟩
  · intro template p t mdoc ops db1 h
    obtain ⟨_, _, eff, parent, newId, _, _, _, hn, hm, ho⟩ :=
      addMachineInsideMachineOps_ok st template p t db db1 mdoc ops h
    obtain ⟨_, hid⟩ := newContainerId_ok st p t _ db1 newId hn
    refine ⟨?_, ?_, ?_, ?_⟩
    · rw [ho]
      simp [machineDocsOf, insertNewMachineOps, createConstraintsOp, createStatusOp,
        addChildToContainerRefOp, insertNewContainerRefOp]
    · rw [ho]
      simp [insertNewMachineOps, createConstraintsOp, createStatusOp,
        addChildToContainerRefOp, insertNewContainerRefOp, machinesC, containerRefsC,
        constraintsC, statusesC]
    · rw [ho]
      simp [containerRefInsertsOf, insertNewMachineOps, createConstraintsOp, createStatusOp,
        addChildToContainerRefOp, insertNewContainerRefOp, machinesC, containerRefsC,
        constraintsC, statusesC]
    · refine ⟨t ++ "/" ++ Itoa (db.sequences ("machine" ++ p ++ t ++ "Container")), ?_⟩
      rw [hm]
      show newId = _
      rw [hid]
      simp [String.append_assoc, DB.record]
  · intro template parentTemplate t mdoc ops db1 h
    obtain ⟨_, _, _, dbs, peff, dbp, newId, dbn, eff, _, _, _, hn, _, hm, ho⟩ :=
      addMachineInsideNewMachineOps_ok st template parentTemplate t db db1 mdoc ops h
    obtain ⟨_, hid⟩ := newContainerId_ok st _ t dbp dbn newId hn
    refine ⟨machineDocForTemplate peff (Itoa (db.sequences "machine")), ?_, ?_, ?_, ?_, ?_⟩
    · rw [ho]
      simp [machineDocsOf, insertNewMachineOps, createConstraintsOp, createStatusOp,
        insertNewContainerRefOp]
    · rw [ho]
      simp [insertNewMachineOps, createConstraintsOp, createStatusOp,
        insertNewContainerRefOp, machinesC, containerRefsC, constraintsC, statusesC,
        machineDocForTemplate]
    · rw [ho]
      simp [containerRefInsertsOf, insertNewMachineOps, createConstraintsOp, createStatusOp,
        insertNewContainerRefOp, machinesC, containerRefsC, constraintsC, statusesC,
        machineDocForTemplate]
    · rw [ho]
      simp [insertNewMachineOps, createConstraintsOp, createStatusOp,
        insertNewContainerRefOp]
    · refine ⟨t ++ "/" ++ Itoa (dbp.sequences
        ("machine" ++ Itoa (db.sequences "machine") ++ t ++ "Container")), ?_⟩
      rw [hm]
      show newId = Itoa (db.sequences "machine") ++ "/" ++ _
      rw [hid]
      simp [String.append_assoc]
  · intro template p t m db1 h
    obtain ⟨mdoc, ops, db2, hb, ha⟩ := AddMachineInsideMachine_ok st template p t db db1 m h
    obtain ⟨hm, _, ht⟩ := addMachine_ok st mdoc ops db2 db1 m ha
    subst hm
    refine ⟨ops, db2, hb, ?_⟩
    have hnc := addMachineInsideMachineOps_noCommit st template p t db
    rw [hb] at hnc
    rw [(runTransaction_ok st _ _ db1 ht).2.2]
    simp only [DB.record, txnsOf_append]
    rw [hnc.txns]
    simp [txnsOf]
  · intro template parentTemplate t m db1 h
    obtain ⟨mdoc, ops, db2, hb, ha⟩ :=
      AddMachineInsideNewMachine_ok st template parentTemplate t db db1 m h
    obtain ⟨hm, _, ht⟩ := addMachine_ok st mdoc ops db2 db1 m ha
    subst hm
    refine ⟨ops, db2, hb, ?_⟩
    have hnc := addMachineInsideNewMachineOps_noCommit st template parentTemplate t db
    rw [hb] at hnc
    rw [(runTransaction_ok st _ _ db1 ht).2.2]
    simp only [DB.record, txnsOf_append]
    rw [hnc.txns]
    simp [txnsOf]

/-- C27 at a concrete input: the first lxc container on the existing machine "0". -/
theorem C27_linkage_in_same_batch_witness :
    ∃ mdoc ops db1,
      anyHost.addMachineInsideMachineOps hostTemplate "0" "lxc" DB.empty =
        (Except.ok (mdoc, ops), db1) ∧
      ops.filter (fun op => op.C == containerRefsC) =
        [addChildToContainerRefOp "0" "0/lxc/0", insertNewContainerRefOp "0/lxc/0" []] :=
  ⟨_, _, _, rfl,
    ((C27_linkage_in_same_batch anyHost DB.empty).1 hostTemplate "0" "lxc" _ _ _ rfl).2.1⟩

/-! ## Container types that the parent cannot host -/

theorem supportsContainerType_eq_false (m : Machine) (c : String) :
    m.supportsContainerType c = false ↔
      (m.doc.SupportedContainersKnown = true ∧ c ∉ m.doc.SupportedContainers) := by
  unfold Machine.supportsContainerType Machine.SupportedContainers
  cases hk : m.doc.SupportedContainersKnown with
  | false => simp
  | true =>
    simp only [List.any_eq_false, beq_iff_eq, true_and]
    constructor
    · intro h hmem
      exact h c hmem rfl
    · intro h x hx hxc
      exact h (hxc ▸ hx)

theorem addMachine_log (st : State) (mdoc : machineDoc) (ops : List Op) (db : DB) :
    ∃ es, (st.addMachine mdoc ops db).2.log = db.log ++ Event.environment :: es := by
  have hlog := (runTransaction_log st (assertAliveOp :: ops) (db.record Event.environment)).1
  unfold State.addMachine
  simp only [State.Environment]
  cases st.environ with
  | error e => exact ⟨[], rfl⟩
  | ok life =>
    simp only
    split
    · exact ⟨[], rfl⟩
    · split
      · rename_i err db2 heq
        rw [heq] at hlog
        simp only [State.Refresh]
        simp only at hlog
        cases st.refreshed with
        | error e =>
          simp only
          split <;> exact ⟨[Event.runTransaction (assertAliveOp :: ops), Event.refresh],
            by simp [DB.record, hlog]⟩
        | ok l2 =>
          simp only
          split <;> exact ⟨[Event.runTransaction (assertAliveOp :: ops), Event.refresh],
            by simp [DB.record, hlog]⟩
      · rename_i db2 heq
        rw [heq] at hlog
        simp only at hlog
        exact ⟨[Event.runTransaction (assertAliveOp :: ops)], by simp [DB.record, hlog]⟩

theorem addMachineInsideMachineOps_checked (st : State) (t : MachineTemplate)
    (parentId ctype : String) (db : DB) (parent : Machine) (envCons : Value)
    (hparent : st.machine parentId = Except.ok parent)
    (henv : st.environConstraints = Except.ok envCons)
    (hinst : t.InstanceId = "") (hvalid : ¬ invalidTemplate t false) (hct : ctype ≠ "") :
    st.addMachineInsideMachineOps t parentId ctype db =
      if parent.supportsContainerType ctype = false then
        (Except.error (Errorf ("machine " ++ parentId ++ " cannot host " ++ ctype
          ++ " containers")),
          (db.record Event.environConstraints).record (Event.machine parentId))
      else
        match st.newContainerId parentId ctype
            ((db.record Event.environConstraints).record (Event.machine parentId)) with
        | (Except.error err, db3) => (Except.error err, db3)
        | (Except.ok newId, db3) =>
          (Except.ok
            ({ machineDocForTemplate
                { t with Constraints := effectiveConstraints t.Constraints envCons } newId with
                ContainerType := ctype },
             insertNewMachineOps
                { machineDocForTemplate
                  { t with Constraints := effectiveConstraints t.Constraints envCons } newId with
                  ContainerType := ctype }
                (effectiveConstraints t.Constraints envCons) ++
              [addChildToContainerRefOp parentId newId, insertNewContainerRefOp newId []]),
            db3) := by
  unfold State.addMachineInsideMachineOps
  rw [if_neg (by simpa using hinst),
    effectiveMachineTemplate_total st t false db envCons henv hvalid]
  simp only [State.Machine, hparent]
  rw [if_neg hct]
  rfl

theorem AddMachineInsideMachine_proceeds (st : State) (t : MachineTemplate)
    (parentId ctype : String) (db : DB) (parent : Machine) (envCons : Value)
    (hparent : st.machine parentId = Except.ok parent)
    (henv : st.environConstraints = Except.ok envCons)
    (hinst : t.InstanceId = "") (hvalid : ¬ invalidTemplate t false) (hct : ctype ≠ "")
    (hsup : parent.supportsContainerType ctype = true) :
    ∃ r es, (st.AddMachineInsideMachine t parentId ctype db).2.log =
      db.log ++ [Event.environConstraints, Event.machine parentId,
        Event.sequence ("machine" ++ parentId ++ ctype ++ "Container") r] ++ es := by
  obtain ⟨r, hseq⟩ := sequence_events st ("machine" ++ parentId ++ ctype ++ "Container")
    ((db.record Event.environConstraints).record (Event.machine parentId))
  unfold State.AddMachineInsideMachine
  rw [addMachineInsideMachineOps_checked st t parentId ctype db parent envCons hparent henv
    hinst hvalid hct, if_neg (by simp [hsup])]
  unfold State.newContainerId
  cases hs : st.sequence ("machine" ++ parentId ++ ctype ++ "Container")
      ((db.record Event.environConstraints).record (Event.machine parentId)) with
  | mk res dbq =>
    rw [hs] at hseq
    simp only at hseq
    cases res with
    | error e =>
      refine ⟨r, [], ?_⟩
      simp [hseq, DB.record]
    | ok n =>
      simp only
      obtain ⟨es, hes⟩ := addMachine_log st
        { machineDocForTemplate
            { t with Constraints := effectiveConstraints t.Constraints envCons }
            (parentId ++ "/" ++ ctype ++ "/" ++ Itoa n) with ContainerType := ctype }
        (insertNewMachineOps
            { machineDocForTemplate
              { t with Constraints := effectiveConstraints t.Constraints envCons }
              (parentId ++ "/" ++ ctype ++ "/" ++ Itoa n) with ContainerType := ctype }
            (effectiveConstraints t.Constraints envCons) ++
          [addChildToContainerRefOp (parentId)
            (parentId ++ "/" ++ ctype ++ "/" ++ Itoa n),
           insertNewContainerRefOp (parentId ++ "/" ++ ctype ++ "/" ++ Itoa n) []]) dbq
      refine ⟨r, Event.environment :: es, ?_⟩
      rw [hes, hseq]
      simp [DB.record]

/-- C21: for an existing parent machine, a valid container template that has no
`InstanceId`, readable environment constraints and a non-empty container type `t`,
`AddMachineInsideMachine` stops at the check of the parent with the error
"machine <parent> cannot host <t> containers" (in the context "cannot add a new
machine"), having only read the environment constraints and loaded the parent, iff
the parent's list of supported containers is known and does not contain `t`.  When
the list is unknown `supportsContainerType` is true for every type.  Whenever the
check passes the request proceeds: the container's sequence number is requested next;
and when the sequence does not fail, the environment is alive and the store accepts
the batch, the call returns the machine with id `<parent>/<t>/<n>` and container
type `t`. -/
theorem C21_unsupported_container (st : State) (t : MachineTemplate)
    (parentId ctype : String) (db : DB) (parent : Machine) (envCons : Value)
    (hparent : st.machine parentId = Except.ok parent)
    (henv : st.environConstraints = Except.ok envCons)
    (hinst : t.InstanceId = "") (hvalid : ¬ invalidTemplate t false) (hct : ctype ≠ "") :
    (st.AddMachineInsideMachine t parentId ctype db =
        (Except.error (wrapf "cannot add a new machine"
          (Errorf ("machine " ++ parentId ++ " cannot host " ++ ctype ++ " containers"))),
          (db.record Event.environConstraints).record (Event.machine parentId)) ↔
      (parent.doc.SupportedContainersKnown = true ∧ ctype ∉ parent.doc.SupportedContainers)) ∧
    (parent.doc.SupportedContainersKnown = false →
      ∀ c, parent.supportsContainerType c = true) ∧
    (¬ (parent.doc.SupportedContainersKnown = true ∧
          ctype ∉ parent.doc.SupportedContainers) →
      ∃ r es, (st.AddMachineInsideMachine t parentId ctype db).2.log =
        db.log ++ [Event.environConstraints, Event.machine parentId,
          Event.sequence ("machine" ++ parentId ++ ctype ++ "Container") r] ++ es) ∧
    (¬ (parent.doc.SupportedContainersKnown = true ∧
          ctype ∉ parent.doc.SupportedContainers) →
      st.sequenceErr ("machine" ++ parentId ++ ctype ++ "Container")
        (db.sequences ("machine" ++ parentId ++ ctype ++ "Container")) = none →
      st.environ = Except.ok Life.Alive → (∀ ops, st.txnErr ops = none) →
      ∃ m db1, st.AddMachineInsideMachine t parentId ctype db = (Except.ok m, db1) ∧
        m.doc.Id = parentId ++ "/" ++ ctype ++ "/" ++
          Itoa (db.sequences ("machine" ++ parentId ++ ctype ++ "Container")) ∧
        m.doc.ContainerType = ctype) := by
  have hiff := supportsContainerType_eq_false parent ctype
  have hchk := addMachineInsideMachineOps_checked st t parentId ctype db parent envCons
    hparent henv hinst hvalid hct
  refine ⟨⟨?_, ?_⟩, ?_, ?_, ?_⟩
  · intro hres
    by_contra hno
    have hsup : parent.supportsContainerType ctype = true := by
      cases hb : parent.supportsContainerType ctype with
      | true => rfl
      | false => exact absurd (hiff.mp hb) hno
    obtain ⟨r, es, hlog⟩ := AddMachineInsideMachine_proceeds st t parentId ctype db parent
      envCons hparent henv hinst hvalid hct hsup
    rw [hres] at hlog
    have := congrArg List.length hlog
    simp [DB.record] at this
  · intro hk
    unfold State.AddMachineInsideMachine
    rw [hchk, if_pos (hiff.mpr hk)]
  · intro hk c
    unfold Machine.supportsContainerType Machine.SupportedContainers
    rw [hk]
  · intro hno
    have hsup : parent.supportsContainerType ctype = true := by
      cases hb : parent.supportsContainerType ctype with
      | true => rfl
      | false => exact absurd (hiff.mp hb) hno
    exact AddMachineInsideMachine_proceeds st t parentId ctype db parent
      envCons hparent henv hinst hvalid hct hsup
  · intro hno hseq halive htxn
    have hsup : parent.supportsContainerType ctype = true := by
      cases hb : parent.supportsContainerType ctype with
      | true => rfl
      | false => exact absurd (hiff.mp hb) hno
    have hs : st.sequenceErr ("machine" ++ parentId ++ ctype ++ "Container")
        (((db.record Event.environConstraints).record (Event.machine parentId)).sequences
          ("machine" ++ parentId ++ ctype ++ "Container")) = none := hseq
    unfold State.AddMachineInsideMachine
    rw [hchk, if_neg (by simp [hsup])]
    unfold State.newContainerId State.sequence
    rw [hs]
    simp only
    unfold State.addMachine
    simp only [State.Environment, halive]
    rw [if_neg (by simp)]
    unfold State.runTransaction
    rw [htxn]
    simp only
    rw [if_pos (by
      simp [Op.onStateServers, assertAliveOp, insertNewMachineOps, createConstraintsOp,
        createStatusOp, addChildToContainerRefOp, insertNewContainerRefOp, stateServersC,
        machinesC, constraintsC, statusesC, containerRefsC, environmentsC])]
    exact ⟨_, _, rfl, rfl, rfl⟩

/-- C21 at a concrete input: a kvm container on machine "0", which is known to
support lxc only. -/
theorem C21_unsupported_container_witness :
    lxcOnlyHost.AddMachineInsideMachine hostTemplate "0" "kvm" DB.empty =
      (Except.error (wrapf "cannot add a new machine"
        (Errorf ("machine " ++ "0" ++ " cannot host " ++ "kvm" ++ " containers"))),
        (DB.empty.record Event.environConstraints).record (Event.machine "0")) :=
  (C21_unsupported_container lxcOnlyHost hostTemplate "0" "kvm" DB.empty
    { doc := { machineDocForTemplate hostTemplate "0" with
               SupportedContainers := ["lxc"], SupportedContainersKnown := true } }
    Value.zero rfl rfl rfl (by decide) (by decide)).1.2 (by decide)

/-- The same request against a parent whose list of supported containers is not
known succeeds. -/
theorem AddMachineInsideMachine_unknown_support_example :
    ∃ m db1, anyHost.AddMachineInsideMachine hostTemplate "0" "kvm" DB.empty =
        (Except.ok m, db1) ∧
      m.doc.Id = "0/kvm/0" ∧ m.doc.ContainerType = "kvm" :=
  ⟨_, _, rfl, rfl, rfl⟩

/-! ## The state-server job outside the bootstrap -/

theorem forall₂_some_job (templates : List MachineTemplate) (mdocs : List machineDoc)
    (h : List.Forall₂ (fun t d => ∃ (cons : Value) (seq : Nat),
      d = machineDocForTemplate { t with Constraints := cons } (Itoa seq)) templates mdocs)
    (hsome : ∃ t ∈ templates, MachineJob.JobManageEnviron ∈ t.Jobs) :
    ∃ d ∈ mdocs, MachineJob.JobManageEnviron ∈ d.Jobs := by
  induction h with
  | nil => simp at hsome
  | @cons t d ts ds hd _ ih =>
    obtain ⟨x, hx, hj⟩ := hsome
    rcases List.mem_cons.mp hx with h1 | h1
    · obtain ⟨c, seq, hdoc⟩ := hd
      refine ⟨d, List.mem_cons_self d ds, ?_⟩
      rw [hdoc]
      rw [h1] at hj
      exact hj
    · obtain ⟨y, hy, hjy⟩ := ih ⟨x, h1, hj⟩
      exact ⟨y, List.mem_cons_of_mem d hy, hjy⟩

theorem stateServerJob_invalid (t : MachineTemplate)
    (hj : MachineJob.JobManageEnviron ∈ t.Jobs) : invalidTemplate t false :=
  Or.inr (Or.inr (Or.inr (Or.inl ⟨hj, rfl⟩)))

theorem effectiveMachineTemplate_stateServer (st : State) (t : MachineTemplate) (db : DB)
    (envCons : Value) (henv : st.environConstraints = Except.ok envCons)
    (hseries : t.Series ≠ "") (hnodup : t.Jobs.Nodup)
    (hj : MachineJob.JobManageEnviron ∈ t.Jobs) :
    st.effectiveMachineTemplate t false db =
      (Except.error errStateServerNotAllowed, db.record Event.environConstraints) := by
  have hne : t.Jobs ≠ [] := by
    intro h0
    rw [h0] at hj
    simp at hj
  have h := (effectiveMachineTemplate_notAllowed st t false db envCons henv).mpr
    ⟨hseries, hne, hnodup, hj, rfl⟩
  rcases effectiveMachineTemplate_series st t false db with ⟨hs, _⟩ | ⟨_, hdb⟩
  · exact absurd hs hseries
  · cases hres : st.effectiveMachineTemplate t false db with
    | mk r db1 =>
      rw [hres] at h hdb
      simp only at hdb
      subst hdb
      cases r with
      | ok eff => simp [errorOf] at h
      | error e =>
        simp only [errorOf, Option.some.injEq] at h
        rw [h]

/-! ## Machine ids are not handed out twice -/

theorem split_at_first {α : Type} (c : α) (l1 l2 r1 r2 : List α) (h1 : c ∉ l1) (h2 : c ∉ l2)
    (h : l1 ++ c :: r1 = l2 ++ c :: r2) : l1 = l2 ∧ r1 = r2 := by
  induction l1 generalizing l2 with
  | nil =>
    cases l2 with
    | nil => simpa using h
    | cons y l2 =>
      simp only [List.nil_append, List.cons_append, List.cons.injEq] at h
      exact absurd (h.1 ▸ List.mem_cons_self y l2) h2
  | cons x l1 ih =>
    cases l2 with
    | nil =>
      simp only [List.nil_append, List.cons_append, List.cons.injEq] at h
      exact absurd (h.1 ▸ List.mem_cons_self x l1) h1
    | cons y l2 =>
      simp only [List.cons_append, List.cons.injEq] at h
      obtain ⟨hl, hr⟩ := ih l2 (fun hm => h1 (List.mem_cons_of_mem x hm))
        (fun hm => h2 (List.mem_cons_of_mem y hm)) h.2
      exact ⟨by rw [h.1, hl], hr⟩

theorem split_at_last {α : Type} (c : α) (l1 l2 r1 r2 : List α) (h1 : c ∉ r1) (h2 : c ∉ r2)
    (h : l1 ++ c :: r1 = l2 ++ c :: r2) : l1 = l2 ∧ r1 = r2 := by
  have hr := congrArg List.reverse h
  simp only [List.reverse_append, List.reverse_cons, List.append_assoc, List.singleton_append]
    at hr
  obtain ⟨ha, hb⟩ := split_at_first c r1.reverse r2.reverse l1.reverse l2.reverse
    (by simpa using h1) (by simpa using h2) hr
  exact ⟨List.reverse_injective hb, List.reverse_injective ha⟩

theorem digitChar_ne_slash (d : Nat) (h : d < 10) : Nat.digitChar d ≠ slash := by
  interval_cases d <;> decide

theorem toDigitsCore_no_slash (fuel n : Nat) (ds : List Char) (h : slash ∉ ds) :
    slash ∉ Nat.toDigitsCore 10 fuel n ds := by
  induction fuel generalizing n ds with
  | zero => simpa [Nat.toDigitsCore] using h
  | succ f ih =>
    rw [Nat.toDigitsCore]
    have hd : slash ∉ Nat.digitChar (n % 10) :: ds := by
      intro hm
      rcases List.mem_cons.mp hm with h1 | h1
      · exact digitChar_ne_slash (n % 10) (Nat.mod_lt _ (by decide)) h1.symm
      · exact h h1
    split
    · exact hd
    · exact ih _ _ hd

theorem Itoa_no_slash (n : Nat) : slash ∉ (Itoa n).data := by
  have h := toDigitsCore_no_slash (n + 1) n [] (by simp)
  simpa [Itoa, toString, Nat.repr, Nat.toDigits, List.asString] using h

theorem containerId_data (p t : String) (n : Nat) :
    (p ++ "/" ++ t ++ "/" ++ Itoa n).data =
      (p.data ++ slash :: t.data) ++ slash :: (Itoa n).data := by
  simp [String.data_append, slash]

theorem rootId_ne_containerId (m n : Nat) (p t : String) :
    Itoa m ≠ p ++ "/" ++ t ++ "/" ++ Itoa n := by
  intro h
  have hd := congrArg String.data h
  rw [containerId_data] at hd
  have hmem : slash ∈ (Itoa m).data := by
    rw [hd]
    simp
  exact Itoa_no_slash m hmem

theorem containerId_injective (p p1 t t1 : String) (n n1 : Nat)
    (ht : slash ∉ t.data) (ht1 : slash ∉ t1.data)
    (h : p ++ "/" ++ t ++ "/" ++ Itoa n = p1 ++ "/" ++ t1 ++ "/" ++ Itoa n1) :
    p = p1 ∧ t = t1 ∧ n = n1 := by
  have hd := congrArg String.data h
  rw [containerId_data, containerId_data] at hd
  obtain ⟨h1, h2⟩ := split_at_last slash _ _ _ _ (Itoa_no_slash n) (Itoa_no_slash n1) hd
  obtain ⟨h3, h4⟩ := split_at_last slash _ _ _ _ ht ht1 h1
  exact ⟨String.ext h3, String.ext h4, Itoa_injective (String.ext h2)⟩

theorem issued_mono (s s1 : String → Nat) (id : String) (hle : ∀ k, s k ≤ s1 k)
    (h : Issued s id) : Issued s1 id := by
  rcases h with ⟨n, hid, hn⟩ | ⟨p, t, n, hid, ht, hn⟩
  · exact Or.inl ⟨n, hid, lt_of_lt_of_le hn (hle _)⟩
  · exact Or.inr ⟨p, t, n, hid, ht, lt_of_lt_of_le hn (hle _)⟩

theorem issued_ne_next_root (s : String → Nat) (id : String) (h : Issued s id) :
    id ≠ Itoa (s "machine") := by
  rcases h with ⟨n, hid, hn⟩ | ⟨p, t, n, hid, _, _⟩
  · intro heq
    rw [hid] at heq
    have := Itoa_injective heq
    omega
  · intro heq
    rw [hid] at heq
    exact rootId_ne_containerId _ _ _ _ heq.symm

theorem issued_ne_next_container (s : String → Nat) (id p t : String)
    (ht : slash ∉ t.data) (h : Issued s id) :
    id ≠ p ++ "/" ++ t ++ "/" ++ Itoa (s ("machine" ++ p ++ t ++ "Container")) := by
  rcases h with ⟨n, hid, _⟩ | ⟨p1, t1, n, hid, ht1, hn⟩
  · intro heq
    rw [hid] at heq
    exact rootId_ne_containerId _ _ _ _ heq
  · intro heq
    rw [hid] at heq
    obtain ⟨hp, htt, hnn⟩ := containerId_injective p1 p t1 t n _ ht1 ht heq
    subst hp; subst htt
    omega

theorem issued_step (s s1 : String → Nat) (ids : List String) (key id : String)
    (hinv : ids.Nodup ∧ ∀ x ∈ ids, Issued s x)
    (hs1 : s1 = fun k => if k = key then s key + 1 else s k)
    (hfresh : ∀ x, Issued s x → x ≠ id) (hid : Issued s1 id) :
    (ids ++ [id]).Nodup ∧ ∀ x ∈ ids ++ [id], Issued s1 x := by
  have hle : ∀ k, s k ≤ s1 k := by
    intro k
    rw [hs1]
    simp only
    split
    · rename_i hk; rw [hk]; omega
    · exact le_refl _
  refine ⟨?_, ?_⟩
  · rw [List.nodup_append]
    refine ⟨hinv.1, by simp, ?_⟩
    intro x hx hx2
    rw [List.mem_singleton] at hx2
    exact hfresh x (hinv.2 x hx) hx2
  · intro x hx
    rcases List.mem_append.mp hx with h1 | h1
    · exact issued_mono s s1 x hle (hinv.2 x h1)
    · rw [List.mem_singleton] at h1
      rw [h1]
      exact hid

theorem issued_root_step (s s1 : String → Nat) (ids : List String)
    (hinv : ids.Nodup ∧ ∀ x ∈ ids, Issued s x)
    (hs1 : s1 = fun k => if k = "machine" then s "machine" + 1 else s k) :
    (ids ++ [Itoa (s "machine")]).Nodup ∧
      ∀ x ∈ ids ++ [Itoa (s "machine")], Issued s1 x := by
  refine issued_step s s1 ids "machine" _ hinv hs1 (fun x hx => issued_ne_next_root s x hx) ?_
  refine Or.inl ⟨s "machine", rfl, ?_⟩
  rw [hs1]
  simp

theorem issued_container_step (s s1 : String → Nat) (ids : List String) (p t : String)
    (ht : slash ∉ t.data) (hinv : ids.Nodup ∧ ∀ x ∈ ids, Issued s x)
    (hs1 : s1 = fun k => if k = "machine" ++ p ++ t ++ "Container"
      then s ("machine" ++ p ++ t ++ "Container") + 1 else s k) :
    (ids ++ [p ++ "/" ++ t ++ "/" ++ Itoa (s ("machine" ++ p ++ t ++ "Container"))]).Nodup ∧
      ∀ x ∈ ids ++ [p ++ "/" ++ t ++ "/" ++ Itoa (s ("machine" ++ p ++ t ++ "Container"))],
        Issued s1 x := by
  refine issued_step s s1 ids _ _ hinv hs1
    (fun x hx => issued_ne_next_container s x p t ht hx) ?_
  refine Or.inr ⟨p, t, _, rfl, ht, ?_⟩
  rw [hs1]
  simp

theorem addMachineOps_issued (st : State) (template : MachineTemplate) (db db1 : DB)
    (mdoc : machineDoc) (ops : List Op) (ids : List String)
    (h : st.addMachineOps template db = (Except.ok (mdoc, ops), db1))
    (hinv : ids.Nodup ∧ ∀ x ∈ ids, Issued db.sequences x) :
    (ids ++ [mdoc.Id]).Nodup ∧ ∀ x ∈ ids ++ [mdoc.Id], Issued db1.sequences x := by
  obtain ⟨eff, db2, _, hro, hs, hm⟩ := addMachineOps_steps st template db db1 mdoc ops h
  obtain ⟨_, _, hq, _⟩ := sequence_ok st _ db2 db1 _ hs
  rw [hro.2.1] at hq hm
  rw [hm]
  exact issued_root_step db.sequences db1.sequences ids hinv hq

theorem addMachinesLoop_issued (st : State) (templates : List MachineTemplate) (db db1 : DB)
    (mdocs : List machineDoc) (ops : List Op) (ids : List String)
    (h : st.addMachinesLoop templates db = (Except.ok (mdocs, ops), db1))
    (hinv : ids.Nodup ∧ ∀ x ∈ ids, Issued db.sequences x) :
    (ids ++ mdocs.map (fun d => d.Id)).Nodup ∧
      ∀ x ∈ ids ++ mdocs.map (fun d => d.Id), Issued db1.sequences x := by
  induction templates generalizing db mdocs ops ids with
  | nil =>
    simp only [State.addMachinesLoop, Prod.mk.injEq, Except.ok.injEq] at h
    obtain ⟨⟨hm, _⟩, hdb⟩ := h
    subst hm; subst hdb
    simpa using hinv
  | cons t rest ih =>
    unfold State.addMachinesLoop at h
    split at h
    · simp at h
    · rename_i mdoc addOps db2 heq
      split at h
      · simp at h
      · rename_i mdocs2 ops2 db3 heq2
        simp only [Prod.mk.injEq, Except.ok.injEq] at h
        obtain ⟨⟨hm, _⟩, hdb⟩ := h
        subst hm; subst hdb
        have h1 := addMachineOps_issued st t db db2 mdoc addOps ids heq hinv
        have h2 := ih db2 mdocs2 ops2 (ids ++ [mdoc.Id]) heq2 h1
        simpa using h2

theorem addMachineInsideMachineOps_issued (st : State) (template : MachineTemplate)
    (p t : String) (db db1 : DB) (mdoc : machineDoc) (ops : List Op) (ids : List String)
    (ht : slash ∉ t.data)
    (h : st.addMachineInsideMachineOps template p t db = (Except.ok (mdoc, ops), db1))
    (hinv : ids.Nodup ∧ ∀ x ∈ ids, Issued db.sequences x) :
    (ids ++ [mdoc.Id]).Nodup ∧ ∀ x ∈ ids ++ [mdoc.Id], Issued db1.sequences x := by
  obtain ⟨_, _, eff, parent, newId, _, _, _, hn, hm, _⟩ :=
    addMachineInsideMachineOps_ok st template p t db db1 mdoc ops h
  obtain ⟨hs, hid⟩ := newContainerId_ok st p t _ db1 newId hn
  obtain ⟨_, _, hq, _⟩ := sequence_ok st _ _ db1 _ hs
  have hmid : mdoc.Id = newId := by rw [hm]; rfl
  rw [hmid, hid]
  exact issued_container_step db.sequences db1.sequences ids p t ht hinv hq

theorem addMachineInsideNewMachineOps_issued (st : State)
    (template parentTemplate : MachineTemplate) (t : String) (db db1 : DB)
    (mdoc : machineDoc) (ops : List Op) (ids : List String) (ht : slash ∉ t.data)
    (h : st.addMachineInsideNewMachineOps template parentTemplate t db =
      (Except.ok (mdoc, ops), db1))
    (hinv : ids.Nodup ∧ ∀ x ∈ ids, Issued db.sequences x) :
    (ids ++ (machineDocsOf ops).map (fun d => d.Id)).Nodup ∧
      ∀ x ∈ ids ++ (machineDocsOf ops).map (fun d => d.Id), Issued db1.sequences x := by
  obtain ⟨_, _, _, dbs, peff, dbp, newId, dbn, eff, hs, _, hro, hn, hc, hm, ho⟩ :=
    addMachineInsideNewMachineOps_ok st template parentTemplate t db db1 mdoc ops h
  obtain ⟨_, _, hq, _⟩ := sequence_ok st _ db dbs _ hs
  obtain ⟨hs2, hid⟩ := newContainerId_ok st _ t dbp dbn newId hn
  obtain ⟨_, _, hq2, _⟩ := sequence_ok st _ dbp dbn _ hs2
  have hro2 := effectiveMachineTemplate_readOnly st template false dbn
  rw [hc] at hro2
  have hdocs : (machineDocsOf ops).map (fun d => d.Id) =
      [Itoa (db.sequences "machine"), newId] := by
    rw [ho, hm]
    simp [machineDocsOf, insertNewMachineOps, createConstraintsOp, createStatusOp,
      insertNewContainerRefOp, machineDocForTemplate]
  have h1 := issued_root_step db.sequences dbs.sequences ids hinv hq
  have hps : dbp.sequences = dbs.sequences := hro.2.1
  rw [← hps] at h1
  have h2 := issued_container_step dbp.sequences dbn.sequences _
    (Itoa (db.sequences "machine")) t ht h1 hq2
  rw [← hid] at h2
  rw [hdocs, hro2.2.1]
  simpa using h2

theorem foldr_docs (txns : List (List Op)) (acc : List machineDoc) :
    txns.foldr (fun ops a => machineDocsOf ops ++ a) acc =
      txns.foldr (fun ops a => machineDocsOf ops ++ a) [] ++ acc := by
  induction txns with
  | nil => rfl
  | cons b rest ih =>
    simp only [List.foldr_cons]
    rw [ih, List.append_assoc]

theorem docsBuilt_step (log log1 : List Event) (batch : List Op)
    (h : txnsOf log1 = txnsOf log ++ [batch]) :
    docsBuilt log1 = docsBuilt log ++ machineDocsOf batch := by
  unfold docsBuilt
  rw [h, List.foldr_append]
  simp only [List.foldr_cons, List.foldr_nil, List.append_nil]
  exact foldr_docs _ _

theorem machineDocsOf_quorum (st : State) (mdocs : List machineDoc)
    (currentInfo : Option StateServerInfo) (db db1 : DB) (ssOps : List Op)
    (h : st.maintainStateServersOps mdocs currentInfo db = (Except.ok ssOps, db1)) :
    machineDocsOf (ssOps ++ [assertAliveOp]) = [] := by
  rcases maintainStateServersOps_ok st mdocs currentInfo db db1 ssOps h with
    ⟨_, hnil, _⟩ | ⟨info, hop, _, _⟩
  · subst hnil
    simp [machineDocsOf, assertAliveOp]
  · subst hop
    simp [machineDocsOf, assertAliveOp, stateServersOp]

theorem AddMachines_docsBuilt (st : State) (templates : List MachineTemplate) (db db1 : DB)
    (ms : List Machine) (h : st.AddMachines templates db = (Except.ok ms, db1)) :
    docsBuilt db1.log = docsBuilt db.log ++ ms.map (fun m => m.doc) := by
  obtain ⟨_, mdocs, ops, ssOps, db2, db3, hloop, hmaint, htxn, hms⟩ :=
    AddMachines_ok st templates db db1 ms h
  obtain ⟨_, _, hdocs⟩ := addMachinesLoop_ok st templates _ db2 mdocs ops hloop
  have hnc := addMachinesLoop_noCommit st templates (db.record Event.environment)
  rw [hloop] at hnc
  have hro := maintainStateServersOps_readOnly st mdocs none db2
  rw [hmaint] at hro
  obtain ⟨_, _, hl⟩ := runTransaction_ok st _ db3 db1 htxn
  have htx : txnsOf db1.log = txnsOf db.log ++ [ops ++ ssOps ++ [assertAliveOp]] := by
    rw [hl, txnsOf_append, hro.noCommit.txns, hnc.txns]
    simp [DB.record, txnsOf_append, txnsOf]
  have hbatch : machineDocsOf (ops ++ ssOps ++ [assertAliveOp]) = mdocs := by
    rw [List.append_assoc, machineDocsOf_append, hdocs,
      machineDocsOf_quorum st mdocs none db2 db3 ssOps hmaint, List.append_nil]
  have hmap : ms.map (fun m => m.doc) = mdocs := by
    rw [hms, List.map_map]
    exact List.map_id mdocs
  rw [docsBuilt_step db.log db1.log _ htx, hbatch, hmap]

theorem AddMachines_issued (st : State) (templates : List MachineTemplate) (db db1 : DB)
    (ms : List Machine) (h : st.AddMachines templates db = (Except.ok ms, db1))
    (hinv : ((docsBuilt db.log).map (fun d => d.Id)).Nodup ∧
      ∀ x ∈ (docsBuilt db.log).map (fun d => d.Id), Issued db.sequences x) :
    ((docsBuilt db1.log).map (fun d => d.Id)).Nodup ∧
      ∀ x ∈ (docsBuilt db1.log).map (fun d => d.Id), Issued db1.sequences x := by
  have hd := AddMachines_docsBuilt st templates db db1 ms h
  obtain ⟨_, mdocs, ops, ssOps, db2, db3, hloop, hmaint, htxn, hms⟩ :=
    AddMachines_ok st templates db db1 ms h
  have h1 := addMachinesLoop_issued st templates (db.record Event.environment) db2 mdocs ops
    _ hloop hinv
  have hro := maintainStateServersOps_readOnly st mdocs none db2
  rw [hmaint] at hro
  obtain ⟨_, hq, _⟩ := runTransaction_ok st _ db3 db1 htxn
  have hmap : ms.map (fun m => m.doc) = mdocs := by
    rw [hms, List.map_map]
    exact List.map_id mdocs
  rw [hd, hmap, hq, hro.2.1, List.map_append]
  exact h1

theorem AddMachineInsideMachine_docsBuilt (st : State) (t : MachineTemplate) (p ct : String)
    (db db1 : DB) (m : Machine)
    (h : st.AddMachineInsideMachine t p ct db = (Except.ok m, db1)) :
    docsBuilt db1.log = docsBuilt db.log ++ [m.doc] := by
  obtain ⟨mdoc, ops, db2, hb, ha⟩ := AddMachineInsideMachine_ok st t p ct db db1 m h
  obtain ⟨hm, _, htxn⟩ := addMachine_ok st mdoc ops db2 db1 m ha
  subst hm
  have hnc := addMachineInsideMachineOps_noCommit st t p ct db
  rw [hb] at hnc
  obtain ⟨_, _, _, _, _, _, _, _, _, _, ho⟩ :=
    addMachineInsideMachineOps_ok st t p ct db db2 mdoc ops hb
  obtain ⟨_, _, hl⟩ := runTransaction_ok st _ _ db1 htxn
  have htx : txnsOf db1.log = txnsOf db.log ++ [assertAliveOp :: ops] := by
    rw [hl]
    simp only [DB.record, txnsOf_append]
    rw [hnc.txns]
    simp [txnsOf]
  have hbatch : machineDocsOf (assertAliveOp :: ops) = [mdoc] := by
    rw [ho]
    simp [machineDocsOf, assertAliveOp, insertNewMachineOps, createConstraintsOp,
      createStatusOp, addChildToContainerRefOp, insertNewContainerRefOp]
  rw [docsBuilt_step db.log db1.log _ htx, hbatch]

theorem AddMachineInsideMachine_issued (st : State) (t : MachineTemplate) (p ct : String)
    (db db1 : DB) (m : Machine) (hct : slash ∉ ct.data)
    (h : st.AddMachineInsideMachine t p ct db = (Except.ok m, db1))
    (hinv : ((docsBuilt db.log).map (fun d => d.Id)).Nodup ∧
      ∀ x ∈ (docsBuilt db.log).map (fun d => d.Id), Issued db.sequences x) :
    ((docsBuilt db1.log).map (fun d => d.Id)).Nodup ∧
      ∀ x ∈ (docsBuilt db1.log).map (fun d => d.Id), Issued db1.sequences x := by
  have hd := AddMachineInsideMachine_docsBuilt st t p ct db db1 m h
  obtain ⟨mdoc, ops, db2, hb, ha⟩ := AddMachineInsideMachine_ok st t p ct db db1 m h
  obtain ⟨hm, _, htxn⟩ := addMachine_ok st mdoc ops db2 db1 m ha
  subst hm
  have h1 := addMachineInsideMachineOps_issued st t p ct db db2 mdoc ops _ hct hb hinv
  obtain ⟨_, hq, _⟩ := runTransaction_ok st _ _ db1 htxn
  rw [hd, hq, List.map_append]
  exact h1

theorem AddMachineInsideNewMachine_docsBuilt (st : State) (t pt : MachineTemplate)
    (ct : String) (db db1 : DB) (m : Machine)
    (h : st.AddMachineInsideNewMachine t pt ct db = (Except.ok m, db1)) :
    ∃ ops db2, st.addMachineInsideNewMachineOps t pt ct db = (Except.ok (m.doc, ops), db2) ∧
      docsBuilt db1.log = docsBuilt db.log ++ machineDocsOf ops ∧
      ∃ parentDoc, machineDocsOf ops = [parentDoc, m.doc] := by
  obtain ⟨mdoc, ops, db2, hb, ha⟩ := AddMachineInsideNewMachine_ok st t pt ct db db1 m h
  obtain ⟨hm, _, htxn⟩ := addMachine_ok st mdoc ops db2 db1 m ha
  subst hm
  have hnc := addMachineInsideNewMachineOps_noCommit st t pt ct db
  rw [hb] at hnc
  obtain ⟨_, _, _, dbs, peff, dbp, newId, dbn, eff, _, _, _, _, _, _, ho⟩ :=
    addMachineInsideNewMachineOps_ok st t pt ct db db2 mdoc ops hb
  obtain ⟨_, _, hl⟩ := runTransaction_ok st _ _ db1 htxn
  have htx : txnsOf db1.log = txnsOf db.log ++ [assertAliveOp :: ops] := by
    rw [hl]
    simp only [DB.record, txnsOf_append]
    rw [hnc.txns]
    simp [txnsOf]
  have hbatch : machineDocsOf (assertAliveOp :: ops) = machineDocsOf ops := by
    simp [machineDocsOf, assertAliveOp]
  have hdocs : machineDocsOf ops =
      [machineDocForTemplate peff (Itoa (db.sequences "machine")), mdoc] := by
    rw [ho]
    simp [machineDocsOf, insertNewMachineOps, createConstraintsOp, createStatusOp,
      insertNewContainerRefOp]
  refine ⟨ops, db2, hb, ?_, _, hdocs⟩
  rw [docsBuilt_step db.log db1.log _ htx, hbatch]

theorem AddMachineInsideNewMachine_issued (st : State) (t pt : MachineTemplate) (ct : String)
    (db db1 : DB) (m : Machine) (hct : slash ∉ ct.data)
    (h : st.AddMachineInsideNewMachine t pt ct db = (Except.ok m, db1))
    (hinv : ((docsBuilt db.log).map (fun d => d.Id)).Nodup ∧
      ∀ x ∈ (docsBuilt db.log).map (fun d => d.Id), Issued db.sequences x) :
    ((docsBuilt db1.log).map (fun d => d.Id)).Nodup ∧
      ∀ x ∈ (docsBuilt db1.log).map (fun d => d.Id), Issued db1.sequences x := by
  obtain ⟨ops, db2, hb, hd, _⟩ := AddMachineInsideNewMachine_docsBuilt st t pt ct db db1 m h
  obtain ⟨mdoc, ops1, db3, hb1, ha⟩ := AddMachineInsideNewMachine_ok st t pt ct db db1 m h
  rw [hb] at hb1
  simp only [Prod.mk.injEq, Except.ok.injEq] at hb1
  obtain ⟨⟨hm, ho⟩, hdb⟩ := hb1
  subst hm; subst ho; subst hdb
  obtain ⟨_, _, htxn⟩ := addMachine_ok st m.doc ops db2 db1 m ha
  have h1 := addMachineInsideNewMachineOps_issued st t pt ct db db2 m.doc ops _ hct hb hinv
  obtain ⟨_, hq, _⟩ := runTransaction_ok st _ _ db1 htxn
  rw [hd, hq, List.map_append]
  exact h1

theorem adds_issued (db0 db : DB) (h : Adds db0 db) (h0 : docsBuilt db0.log = []) :
    ((docsBuilt db.log).map (fun d => d.Id)).Nodup ∧
      ∀ x ∈ (docsBuilt db.log).map (fun d => d.Id), Issued db.sequences x := by
  induction h with
  | start =>
    rw [h0]
    simp
  | addMachines st templates db db1 ms _ hcall ih =>
    exact AddMachines_issued st templates db db1 ms hcall ih
  | insideMachine st t p ct db db1 m _ hslash hcall ih =>
    exact AddMachineInsideMachine_issued st t p ct db db1 m hslash hcall ih
  | insideNewMachine st t pt ct db db1 m _ hslash hcall ih =>
    exact AddMachineInsideNewMachine_issued st t pt ct db db1 m hslash hcall ih

theorem AddMachineInsideMachine_id (st : State) (t : MachineTemplate) (p ct : String)
    (db db1 : DB) (m : Machine)
    (h : st.AddMachineInsideMachine t p ct db = (Except.ok m, db1)) :
    m.doc.Id = p ++ "/" ++ ct ++ "/" ++
      Itoa (db.sequences ("machine" ++ p ++ ct ++ "Container")) ∧
    db1.sequences ("machine" ++ p ++ ct ++ "Container") =
      db.sequences ("machine" ++ p ++ ct ++ "Container") + 1 := by
  obtain ⟨mdoc, ops, db2, hb, ha⟩ := AddMachineInsideMachine_ok st t p ct db db1 m h
  obtain ⟨hm, _, htxn⟩ := addMachine_ok st mdoc ops db2 db1 m ha
  subst hm
  obtain ⟨_, _, eff, parent, newId, _, _, _, hn, hmd, _⟩ :=
    addMachineInsideMachineOps_ok st t p ct db db2 mdoc ops hb
  obtain ⟨hs, hid⟩ := newContainerId_ok st p ct _ db2 newId hn
  obtain ⟨_, _, hq2, _⟩ := sequence_ok st _ _ db2 _ hs
  obtain ⟨_, hq, _⟩ := runTransaction_ok st _ _ db1 htxn
  refine ⟨?_, ?_⟩
  · rw [hmd]
    exact hid
  · rw [hq]
    show db2.sequences _ = _
    rw [hq2]
    simp [DB.record]

/-! ## Reachable stores: non-voting state servers and the capacity of the slice -/

theorem addToSet_cons (xs ys : List String) (y : String) :
    addToSet xs (y :: ys) = addToSet (if y ∈ xs then xs else xs ++ [y]) ys := by
  unfold addToSet
  rw [List.foldl_cons]

theorem addToSet_nonvoters (ids M V : List String) (hsub : V ⊆ M)
    (hlen : M.length ≤ V.length + 1) :
    (addToSet M ids).length ≤ (addToSet V ids).length + 1 := by
  induction ids generalizing M V with
  | nil => simpa [addToSet] using hlen
  | cons y ys ih =>
    rw [addToSet_cons, addToSet_cons]
    by_cases hM : y ∈ M
    · rw [if_pos hM]
      by_cases hV : y ∈ V
      · rw [if_pos hV]
        exact ih M V hsub hlen
      · rw [if_neg hV]
        apply ih
        · intro x hx
          rcases List.mem_append.mp hx with h | h
          · exact hsub h
          · rw [List.mem_singleton] at h
            rw [h]
            exact hM
        · rw [List.length_append, List.length_singleton]
          omega
    · have hV : y ∉ V := fun h => hM (hsub h)
      rw [if_neg hM, if_neg hV]
      apply ih
      · intro x hx
        rcases List.mem_append.mp hx with h | h
        · exact List.mem_append_left _ (hsub h)
        · exact List.mem_append_right _ h
      · simp only [List.length_append, List.length_singleton]
        omega

theorem ensureAvailabilityLoop_ids (st : State) (cons : Value) (series : String) (left : Nat)
    (db db1 : DB) (mdocs : List machineDoc) (ops : List Op)
    (h : st.ensureAvailabilityLoop cons series left db = (Except.ok (mdocs, ops), db1)) :
    (newStateServerIds mdocs).2 = (newStateServerIds mdocs).1 := by
  have hd := ensureAvailabilityLoop_docs st cons series left db db1 mdocs ops h
  rw [newStateServerIds_all_voting mdocs]
  intro d hmem
  obtain ⟨hj, _, hv, _⟩ := hd d hmem
  refine ⟨?_, hv⟩
  rw [hj]
  rfl

theorem AddMachines_adds_only (st : State) (templates : List MachineTemplate) (db db1 : DB)
    (ms : List Machine) (h : st.AddMachines templates db = (Except.ok ms, db1)) :
    db1.stateServers = db.stateServers ∨
    (db.stateServers.MachineIds = [] ∧ db.stateServers.VotingMachineIds = [] ∧
      ∃ xs ys, ys ⊆ xs ∧ xs.length ≤ 1 ∧
        db1.stateServers = { MachineIds := addToSet db.stateServers.MachineIds xs,
                             VotingMachineIds := addToSet db.stateServers.VotingMachineIds ys }) := by
  obtain ⟨_, mdocs, ops, ssOps, db2, db3, hloop, hmaint, htxn, _⟩ :=
    AddMachines_ok st templates db db1 ms h
  have hf2 : db2.stateServers = db.stateServers := by
    have := (addMachinesLoop_noCommit st templates (db.record Event.environment)).1
    rw [hloop] at this
    exact this
  have hf3 : db3.stateServers = db2.stateServers := by
    have := (maintainStateServersOps_readOnly st mdocs none db2).1
    rw [hmaint] at this
    exact this
  obtain ⟨_, hother, _⟩ := addMachinesLoop_ok st templates _ db2 mdocs ops hloop
  obtain ⟨hs1, _, _⟩ := runTransaction_ok st _ db3 db1 htxn
  rw [foldl_applyOp_batch _ ops ssOps [assertAliveOp] hother assertAliveOp_other, hf3, hf2]
    at hs1
  rcases maintainStateServersOps_ok st mdocs none db2 db3 ssOps hmaint with
    ⟨_, hnil, _⟩ | ⟨info, hop, _, hcase⟩
  · subst hnil
    exact Or.inl hs1
  · rcases hcase with ⟨hsome, _⟩ | ⟨_, hinfo, hM, hV, ⟨doc, hdoc, _⟩, _⟩
    · exact absurd hsome (by simp)
    · right
      rw [hinfo, hf2] at hM hV
      refine ⟨hM, hV, (newStateServerIds mdocs).1, (newStateServerIds mdocs).2,
        newStateServerIds_voting_subset mdocs, ?_, ?_⟩
      · have := (newStateServerIds_length_le mdocs).2
        rw [hdoc] at this ⊢
        simpa using this
      · rw [hs1, hop, foldl_applyOp_stateServersOp]

theorem EnsureAvailability_adds_only (st : State) (MaxPeers n : Int) (cons : Value)
    (series : String) (db db1 : DB)
    (h : st.EnsureAvailability MaxPeers n cons series db = (none, db1)) :
    ∃ xs, db1.stateServers =
      { MachineIds := addToSet db.stateServers.MachineIds xs,
        VotingMachineIds := addToSet db.stateServers.VotingMachineIds xs } := by
  obtain ⟨_, _, _, hcase⟩ := EnsureAvailability_ok st MaxPeers n cons series db db1 h
  rcases hcase with ⟨_, hdb⟩ | ⟨_, _, mdocs, ops, ssOps, db2, db3, hloop, hmaint, htxn⟩
  · subst hdb
    exact ⟨[], rfl⟩
  · have hf2 : db2.stateServers = db.stateServers := by
      have := (ensureAvailabilityLoop_noCommit st cons series
        (n - (db.stateServers.MachineIds.length : Int)).toNat
        (db.record Event.stateServerInfo)).1
      rw [hloop] at this
      exact this
    have hf3 : db3.stateServers = db2.stateServers := by
      have := (maintainStateServersOps_readOnly st mdocs (some db.stateServers) db2).1
      rw [hmaint] at this
      exact this
    obtain ⟨_, hother, _⟩ := ensureAvailabilityLoop_ok st cons series _ _ db2 mdocs ops hloop
    obtain ⟨hs1, _, _⟩ := runTransaction_ok st _ db3 db1 htxn
    have hb := foldl_applyOp_batch db3.stateServers ops ssOps [] hother (by simp)
    rw [List.append_nil] at hb
    rw [hb, hf3, hf2] at hs1
    rcases maintainStateServersOps_ok st mdocs _ db2 db3 ssOps hmaint with
      ⟨_, hnil, _⟩ | ⟨info, hop, _, _⟩
    · subst hnil
      exact ⟨[], hs1⟩
    · refine ⟨(newStateServerIds mdocs).1, ?_⟩
      rw [hs1, hop, foldl_applyOp_stateServersOp,
        ensureAvailabilityLoop_ids st cons series _ _ db2 mdocs ops hloop]

theorem reachable_nonvoters (MaxPeers : Int) (db : DB) (hr : Reachable MaxPeers db) :
    db.stateServers.VotingMachineIds ⊆ db.stateServers.MachineIds ∧
    db.stateServers.MachineIds.length ≤ db.stateServers.VotingMachineIds.length + 1 := by
  induction hr with
  | init db h =>
    rw [h]
    simp [StateServerInfo.empty]
  | addMachines st templates db db1 ms _ hcall ih =>
    rcases AddMachines_adds_only st templates db db1 ms hcall with
      h | ⟨hM, hV, xs, ys, hsub, hone, h⟩
    · rw [h]
      exact ih
    · rw [h, hM, hV]
      refine ⟨?_, ?_⟩
      · exact addToSet_subset _ _ _ _ (fun _ hx => hx) hsub
      · have := addToSet_length_le xs []
        simp only [List.length_nil] at this ⊢
        omega
  | ensureAvailability st n cons series db db1 _ hcall ih =>
    obtain ⟨xs, h⟩ := EnsureAvailability_adds_only st MaxPeers n cons series db db1 hcall
    rw [h]
    exact ⟨addToSet_subset _ _ _ _ ih.1 (fun _ hx => hx),
      addToSet_nonvoters xs _ _ ih.1 ih.2⟩

/-- C28: on every store reached from an empty state-servers document by successful
`AddMachines` and `EnsureAvailability` calls the voting machine ids are among the
machine ids and at most one state server (the bootstrap machine) does not vote.  So,
for a valid target `n` with `len(VotingMachineIds) < n` and a readable state-server
information, the capacity `n - len(MachineIds)` that `EnsureAvailability` requests
for the slice of new machine documents is not negative, the call does not end in the
panic of `make`, and the creation loop is run for `max(0, n - len(MachineIds))`
iterations: when one of them fails its error is returned, and when none fails exactly
that many documents were built and the result is that of the one transaction. -/
theorem C28_capacity_non_negative (st : State) (MaxPeers n : Int) (cons : Value)
    (series : String) (db : DB) (hr : Reachable MaxPeers db)
    (hodd : n.tmod 2 = 1) (hpos : 0 < n) (hmax : n ≤ MaxPeers)
    (hread : st.stateServerInfoErr = none)
    (hvote : (db.stateServers.VotingMachineIds.length : Int) < n) :
    db.stateServers.VotingMachineIds ⊆ db.stateServers.MachineIds ∧
    0 ≤ n - (db.stateServers.MachineIds.length : Int) ∧
    (((n - (db.stateServers.MachineIds.length : Int)).toNat : Int) =
      max 0 (n - (db.stateServers.MachineIds.length : Int))) ∧
    st.EnsureAvailability MaxPeers n cons series db ≠
      (some makeslicePanic, db.record Event.stateServerInfo) ∧
    (∀ err db2,
      st.ensureAvailabilityLoop cons series
          (n - (db.stateServers.MachineIds.length : Int)).toNat
          (db.record Event.stateServerInfo) = (Except.error err, db2) →
      st.EnsureAvailability MaxPeers n cons series db = (some err, db2)) ∧
    (∀ mdocs ops db2,
      st.ensureAvailabilityLoop cons series
          (n - (db.stateServers.MachineIds.length : Int)).toNat
          (db.record Event.stateServerInfo) = (Except.ok (mdocs, ops), db2) →
      (mdocs.length : Int) = n - (db.stateServers.MachineIds.length : Int) ∧
      ∃ ssOps, st.maintainStateServersOps mdocs (some db.stateServers) db2 =
          (Except.ok ssOps, db2) ∧
        (st.EnsureAvailability MaxPeers n cons series db).2 =
          (st.runTransaction (ops ++ ssOps) db2).2 ∧
        ((st.EnsureAvailability MaxPeers n cons series db).1 = none ↔
          (st.runTransaction (ops ++ ssOps) db2).1 = none)) := by
  obtain ⟨hsub, hnv⟩ := reachable_nonvoters MaxPeers db hr
  have hcap : 0 ≤ n - (db.stateServers.MachineIds.length : Int) := by omega
  have h := EnsureAvailability_reads_info st MaxPeers n cons series db hodd hpos hmax hread
  rw [if_neg (by omega), if_neg (by omega), if_neg (by omega)] at h
  have herr : ∀ err db2,
      st.ensureAvailabilityLoop cons series
          (n - (db.stateServers.MachineIds.length : Int)).toNat
          (db.record Event.stateServerInfo) = (Except.error err, db2) →
      st.EnsureAvailability MaxPeers n cons series db = (some err, db2) := by
    intro err db2 hloop
    rw [h, hloop]
  have hok : ∀ mdocs ops db2,
      st.ensureAvailabilityLoop cons series
          (n - (db.stateServers.MachineIds.length : Int)).toNat
          (db.record Event.stateServerInfo) = (Except.ok (mdocs, ops), db2) →
      (mdocs.length : Int) = n - (db.stateServers.MachineIds.length : Int) ∧
      ∃ ssOps, st.maintainStateServersOps mdocs (some db.stateServers) db2 =
          (Except.ok ssOps, db2) ∧
        (st.EnsureAvailability MaxPeers n cons series db).2 =
          (st.runTransaction (ops ++ ssOps) db2).2 ∧
        ((st.EnsureAvailability MaxPeers n cons series db).1 = none ↔
          (st.runTransaction (ops ++ ssOps) db2).1 = none) := by
    intro mdocs ops db2 hloop
    obtain ⟨hcount, _, _⟩ := ensureAvailabilityLoop_ok st cons series _ _ db2 mdocs ops hloop
    refine ⟨by rw [hcount]; omega, _, maintainStateServersOps_some st mdocs db.stateServers db2,
      ?_, ?_⟩
    · rw [h, hloop]
      simp only
      rw [maintainStateServersOps_some]
      simp only
      split <;> (rename_i heq; rw [heq])
    · rw [h, hloop]
      simp only
      rw [maintainStateServersOps_some]
      simp only
      split <;> (rename_i heq; rw [heq]; try simp)
  refine ⟨hsub, hcap, by omega, ?_, herr, hok⟩
  intro hres
  cases hloop : st.ensureAvailabilityLoop cons series
      (n - (db.stateServers.MachineIds.length : Int)).toNat
      (db.record Event.stateServerInfo) with
  | mk r db2 =>
    cases r with
    | error err =>
      rw [herr err db2 hloop] at hres
      simp only [Prod.mk.injEq, Option.some.injEq] at hres
      have := ensureAvailabilityLoop_error st cons series _ _ _ _ hloop (by rw [hres.2])
      rw [hres.1] at this
      simp [makeslicePanic, Errorf] at this
    | ok v =>
      obtain ⟨mdocs, ops⟩ := v
      obtain ⟨_, ssOps, _, h2, _⟩ := hok mdocs ops db2 hloop
      have hl := (ensureAvailabilityLoop_noCommit st cons series
        (n - (db.stateServers.MachineIds.length : Int)).toNat
        (db.record Event.stateServerInfo)).log_length
      rw [hloop] at hl
      have hlog := (runTransaction_log st (ops ++ ssOps) db2).1
      rw [← h2, hres] at hlog
      have := congrArg List.length hlog
      simp only [List.length_append, List.length_singleton] at this
      simp only at hl
      omega

/-- C28 at a concrete store, the boundary: after the bootstrap machine was added
without a vote there is one machine id and no voter; for the target 1 the capacity
is `1 - 1 = 0`. -/
theorem C28_capacity_non_negative_witness :
    Reachable 7 (healthy.AddMachines [bootstrapNoVote] DB.empty).2 ∧
    ((healthy.AddMachines [bootstrapNoVote]
      DB.empty).2.stateServers.VotingMachineIds.length : Int) < 1 ∧
    (0 : Int) ≤ 1 - ((healthy.AddMachines [bootstrapNoVote]
      DB.empty).2.stateServers.MachineIds.length : Int) ∧
    healthy.EnsureAvailability 7 1 Value.zero "precise"
        (healthy.AddMachines [bootstrapNoVote] DB.empty).2 ≠
      (some makeslicePanic,
        (healthy.AddMachines [bootstrapNoVote] DB.empty).2.record Event.stateServerInfo) :=
  have hr : Reachable 7 (healthy.AddMachines [bootstrapNoVote] DB.empty).2 :=
    Reachable.addMachines healthy [bootstrapNoVote] DB.empty _
      [{ doc := machineDocForTemplate
          { bootstrapNoVote with Constraints := Value.zero } "0" }]
      (Reachable.init DB.empty rfl) rfl
  ⟨hr, by decide,
    (C28_capacity_non_negative healthy 7 1 Value.zero "precise"
      (healthy.AddMachines [bootstrapNoVote] DB.empty).2 hr
      (by decide) (by decide) (by decide) rfl (by decide)).2.1,
    (C28_capacity_non_negative healthy 7 1 Value.zero "precise"
      (healthy.AddMachines [bootstrapNoVote] DB.empty).2 hr
      (by decide) (by decide) (by decide) rfl (by decide)).2.2.2.1⟩

/-! ## Checks that come before the state-server check -/

theorem AddMachineInsideNewMachine_error (st : State) (t pt : MachineTemplate) (ct : String)
    (db : DB) (e : Error)
    (h : (st.addMachineInsideNewMachineOps t pt ct db).1 = Except.error e) :
    (st.AddMachineInsideNewMachine t pt ct db).1 =
      Except.error (wrapf "cannot add a new machine" e) := by
  unfold State.AddMachineInsideNewMachine
  cases hres : st.addMachineInsideNewMachineOps t pt ct db with
  | mk r db1 =>
    rw [hres] at h
    simp only at h
    subst h
    rfl

/-- C15, the claim as it was stated: for a template with an empty series whose only
job is `JobManageEnviron`, validated with `allowStateServer` false and readable
environment constraints, the state-server condition of the claim holds, but the error
is "no series specified", not `errStateServerNotAllowed`. -/
theorem C15_counterexample_series_checked_first :
    MachineJob.JobManageEnviron ∈ ({ bootstrapNoVote with Series := "" } : MachineTemplate).Jobs ∧
    (healthy.effectiveMachineTemplate { bootstrapNoVote with Series := "" } false
      DB.empty).1 = Except.error (Errorf "no series specified") ∧
    Errorf "no series specified" ≠ errStateServerNotAllowed :=
  ⟨by decide, rfl, by decide⟩

/-- C24 (as amended): a successful `AddMachines` call in which some template lists
`JobManageEnviron` was given exactly one template, returns exactly one machine, whose
id is "0", and was made on a store whose state-servers document lists no machine and
no voter.  `AddMachineInsideMachine` never succeeds for a template that lists
`JobManageEnviron`, and `AddMachineInsideNewMachine` never succeeds when the child or
the parent template lists it.  When the state-server check is the first check to
fail, that is when the template has no instance id, a series and no duplicate job,
the environment constraints can be read and, for `AddMachineInsideNewMachine`, the
steps before the validation of that template succeeded, the operations builder fails
with `errStateServerNotAllowed` and the call returns it in the context "cannot add a
new machine". -/
theorem C24_state_server_job_only_at_bootstrap (st : State) (db : DB) :
    (∀ templates ms db1, (∃ t ∈ templates, MachineJob.JobManageEnviron ∈ t.Jobs) →
      st.AddMachines templates db = (Except.ok ms, db1) →
      templates.length = 1 ∧ (∃ m, ms = [m] ∧ m.doc.Id = "0") ∧
      db.stateServers.MachineIds = [] ∧ db.stateServers.VotingMachineIds = []) ∧
    (∀ t p ct, MachineJob.JobManageEnviron ∈ t.Jobs →
      ∃ e db1, st.AddMachineInsideMachine t p ct db = (Except.error e, db1)) ∧
    (∀ t pt ct,
      (MachineJob.JobManageEnviron ∈ t.Jobs ∨ MachineJob.JobManageEnviron ∈ pt.Jobs) →
      ∃ e db1, st.AddMachineInsideNewMachine t pt ct db = (Except.error e, db1)) ∧
    (∀ t p ct envCons, st.environConstraints = Except.ok envCons →
      t.InstanceId = "" → t.Series ≠ "" → t.Jobs.Nodup →
      MachineJob.JobManageEnviron ∈ t.Jobs →
      st.addMachineInsideMachineOps t p ct db =
        (Except.error errStateServerNotAllowed, db.record Event.environConstraints) ∧
      st.AddMachineInsideMachine t p ct db =
        (Except.error (wrapf "cannot add a new machine" errStateServerNotAllowed),
          db.record Event.environConstraints)) ∧
    (∀ t pt ct envCons, st.environConstraints = Except.ok envCons →
      st.sequenceErr "machine" (db.sequences "machine") = none →
      t.InstanceId = "" → pt.InstanceId = "" → pt.Series ≠ "" → pt.Jobs.Nodup →
      MachineJob.JobManageEnviron ∈ pt.Jobs →
      (st.addMachineInsideNewMachineOps t pt ct db).1 =
        Except.error errStateServerNotAllowed ∧
      (st.AddMachineInsideNewMachine t pt ct db).1 =
        Except.error (wrapf "cannot add a new machine" errStateServerNotAllowed)) ∧
    (∀ t pt ct envCons, st.environConstraints = Except.ok envCons →
      (∀ k i, st.sequenceErr k i = none) → (∀ s c, st.precheck s c = none) →
      pt.InstanceId = "" → ¬ invalidTemplate pt false → ct ≠ "" →
      t.InstanceId = "" → t.Series ≠ "" → t.Jobs.Nodup →
      MachineJob.JobManageEnviron ∈ t.Jobs →
      (st.addMachineInsideNewMachineOps t pt ct db).1 =
        Except.error errStateServerNotAllowed ∧
      (st.AddMachineInsideNewMachine t pt ct db).1 =
        Except.error (wrapf "cannot add a new machine" errStateServerNotAllowed)) := by
  refine ⟨?_, ?_, ?_, ?_, ?_, ?_⟩
  · intro templates ms db1 hsome hcall
    obtain ⟨_, mdocs, ops, ssOps, db2, db3, hloop, hmaint, _, hms⟩ :=
      AddMachines_ok st templates db db1 ms hcall
    obtain ⟨hlen, _, _⟩ := addMachinesLoop_ok st templates _ db2 mdocs ops hloop
    obtain ⟨_, _, hforall⟩ := addMachinesLoop_inserts st templates _ db2 mdocs ops hloop
    have hne := newStateServerIds_ne_nil mdocs (forall₂_some_job templates mdocs hforall hsome)
    have hnc := addMachinesLoop_noCommit st templates (db.record Event.environment)
    rw [hloop] at hnc
    have hss : db2.stateServers = db.stateServers := hnc.1
    rcases maintainStateServersOps_ok st mdocs none db2 db3 ssOps hmaint with
      ⟨hnil, _, _⟩ | ⟨info, _, _, ⟨hcur, _⟩ | ⟨_, hinfo, hM, hV, ⟨doc, hdoc, hid⟩, _⟩⟩
    · rw [hnil] at hne
      exact absurd rfl hne
    · simp at hcur
    · subst hdoc
      rw [hinfo, hss] at hM hV
      refine ⟨by rw [← hlen]; rfl, ⟨{ doc := doc }, by rw [hms]; rfl, hid⟩, hM, hV⟩
  · intro t p ct hj
    obtain ⟨e, db1, he, _⟩ := addMachineInsideMachineOps_invalid st t p ct db
      (Or.inr (Or.inl (stateServerJob_invalid t hj)))
    unfold State.AddMachineInsideMachine
    rw [he]
    exact ⟨_, _, rfl⟩
  · intro t pt ct hj
    obtain ⟨e, db1, he, _⟩ := addMachineInsideNewMachineOps_invalid st t pt ct db
      (by
        rcases hj with hj | hj
        · exact Or.inr (Or.inr (Or.inr (Or.inr (stateServerJob_invalid t hj))))
        · exact Or.inr (Or.inr (Or.inl (stateServerJob_invalid pt hj))))
    unfold State.AddMachineInsideNewMachine
    rw [he]
    exact ⟨_, _, rfl⟩
  · intro t p ct envCons henv hinst hseries hnodup hj
    have hb : st.addMachineInsideMachineOps t p ct db =
        (Except.error errStateServerNotAllowed, db.record Event.environConstraints) := by
      unfold State.addMachineInsideMachineOps
      rw [if_neg (by simpa using hinst),
        effectiveMachineTemplate_stateServer st t db envCons henv hseries hnodup hj]
    refine ⟨hb, ?_⟩
    unfold State.AddMachineInsideMachine
    rw [hb]
  · intro t pt ct envCons henv hseq hinst hpinst hseries hnodup hj
    have hb : (st.addMachineInsideNewMachineOps t pt ct db).1 =
        Except.error errStateServerNotAllowed := by
      unfold State.addMachineInsideNewMachineOps
      rw [if_neg (by simp [hinst, hpinst])]
      unfold State.sequence
      rw [hseq]
      simp only
      rw [effectiveMachineTemplate_stateServer st pt _ envCons henv hseries hnodup hj]
    exact ⟨hb, AddMachineInsideNewMachine_error st t pt ct db _ hb⟩
  · intro t pt ct envCons henv hseq hpre hpinst hpvalid hct hinst hseries hnodup hj
    have hb : (st.addMachineInsideNewMachineOps t pt ct db).1 =
        Except.error errStateServerNotAllowed := by
      unfold State.addMachineInsideNewMachineOps
      rw [if_neg (by simp [hinst, hpinst])]
      unfold State.newContainerId State.sequence
      rw [hseq]
      simp only
      rw [effectiveMachineTemplate_total st pt false _ envCons henv hpvalid]
      simp only
      rw [if_neg hct, if_pos hpinst]
      simp only [State.precheckInstance, hpre, hseq]
      rw [effectiveMachineTemplate_stateServer st t _ envCons henv hseries hnodup hj]
    exact ⟨hb, AddMachineInsideNewMachine_error st t pt ct db _ hb⟩

/-- C24 at concrete inputs: the bootstrap template is accepted by `AddMachines` on
the empty store and receives id "0"; as the template of a container on machine "0" it
is rejected. -/
theorem C24_state_server_job_only_at_bootstrap_witness :
    ([bootstrapNoVote].length = 1 ∧
      (∃ m, [({ doc := machineDocForTemplate bootstrapNoVote "0" } : Machine)] = [m] ∧
        m.doc.Id = "0") ∧
      DB.empty.stateServers.MachineIds = [] ∧ DB.empty.stateServers.VotingMachineIds = []) ∧
    anyHost.AddMachineInsideMachine bootstrapNoVote "0" "lxc" DB.empty =
      (Except.error (wrapf "cannot add a new machine" errStateServerNotAllowed),
        DB.empty.record Event.environConstraints) :=
  ⟨(C24_state_server_job_only_at_bootstrap healthy DB.empty).1 [bootstrapNoVote]
      [{ doc := machineDocForTemplate bootstrapNoVote "0" }] _
      ⟨bootstrapNoVote, List.mem_singleton.mpr rfl, by decide⟩ rfl,
   ((C24_state_server_job_only_at_bootstrap anyHost DB.empty).2.2.2.1 bootstrapNoVote "0"
      "lxc" Value.zero rfl rfl (by decide) (by decide) (by decide)).2⟩

/-- C24, the claim as it was stated: the injected template lists `JobManageEnviron`
and carries an instance id; as the template of a container on machine "0" it is
rejected with "cannot specify instance id for a new container", not with
`errStateServerNotAllowed`.  And where the state-server check is the one that fails,
the error that `AddMachineInsideMachine` returns is not `errStateServerNotAllowed`
itself but a new error that holds its text after "cannot add a new machine: ". -/
theorem C24_counterexample_other_error :
    MachineJob.JobManageEnviron ∈ injectedTemplate.Jobs ∧
    anyHost.addMachineInsideMachineOps injectedTemplate "0" "lxc" DB.empty =
      (Except.error (Errorf "cannot specify instance id for a new container"), DB.empty) ∧
    anyHost.AddMachineInsideMachine injectedTemplate "0" "lxc" DB.empty =
      (Except.error (Errorf
        "cannot add a new machine: cannot specify instance id for a new container"),
        DB.empty) ∧
    Errorf "cannot specify instance id for a new container" ≠ errStateServerNotAllowed ∧
    Errorf "cannot add a new machine: cannot specify instance id for a new container" ≠
      errStateServerNotAllowed ∧
    MachineJob.JobManageEnviron ∈ bootstrapNoVote.Jobs ∧
    (anyHost.AddMachineInsideMachine bootstrapNoVote "0" "lxc" DB.empty).1 =
      Except.error (Errorf
        "cannot add a new machine: state server jobs specified without calling EnsureAvailability") ∧
    Errorf
      "cannot add a new machine: state server jobs specified without calling EnsureAvailability" ≠
      errStateServerNotAllowed :=
  ⟨by decide, rfl, rfl, by decide, by decide, by decide, rfl, by decide⟩

/-! ## Stores that refuse the ids already taken -/

theorem addToSet_append (xs as bs : List String) :
    addToSet (addToSet xs as) bs = addToSet xs (as ++ bs) := by
  unfold addToSet
  rw [List.foldl_append]

theorem runTransaction_accepted (st : State) (ops : List Op) (db db1 : DB)
    (h : st.runTransaction ops db = (none, db1)) : st.txnErr ops = none := by
  unfold State.runTransaction at h
  split at h
  · simp at h
  · rename_i heq
    exact heq

theorem nodup_append_fresh (old new : List String) (hold : old.Nodup) (hnew : new.Nodup)
    (hfresh : ∀ x ∈ new, x ∉ old) : (old ++ new).Nodup := by
  rw [List.nodup_append]
  exact ⟨hold, hnew, fun x hx hx2 => hfresh x hx2 hx⟩

theorem refused_ids_fresh (st : State) (db : DB) (batch : List Op)
    (hstore : st.refusesTakenIds db) (hacc : st.txnErr batch = none) :
    ∀ x ∈ (machineDocsOf batch).map (fun d => d.Id),
      x ∉ (docsBuilt db.log).map (fun d => d.Id) := by
  intro x hx hold
  obtain ⟨d, hd, hid⟩ := List.mem_map.mp hx
  exact hstore batch ⟨d, hd, by rw [hid]; exact hold⟩ hacc

theorem AddMachines_fresh (st : State) (templates : List MachineTemplate) (db db1 : DB)
    (ms : List Machine) (hstore : st.refusesTakenIds db)
    (h : st.AddMachines templates db = (Except.ok ms, db1))
    (hold : ((docsBuilt db.log).map (fun d => d.Id)).Nodup) :
    ((docsBuilt db1.log).map (fun d => d.Id)).Nodup := by
  have hd := AddMachines_docsBuilt st templates db db1 ms h
  obtain ⟨_, mdocs, ops, ssOps, db2, db3, hloop, hmaint, htxn, hms⟩ :=
    AddMachines_ok st templates db db1 ms h
  obtain ⟨_, _, hdocs⟩ := addMachinesLoop_ok st templates _ db2 mdocs ops hloop
  have hbatch : machineDocsOf (ops ++ ssOps ++ [assertAliveOp]) = mdocs := by
    rw [List.append_assoc, machineDocsOf_append, hdocs,
      machineDocsOf_quorum st mdocs none db2 db3 ssOps hmaint, List.append_nil]
  have hmap : ms.map (fun m => m.doc) = mdocs := by
    rw [hms, List.map_map]
    exact List.map_id mdocs
  have hnew := (addMachinesLoop_issued st templates (db.record Event.environment) db2 mdocs
    ops [] hloop ⟨List.nodup_nil, by simp⟩).1
  rw [List.nil_append] at hnew
  have hfresh := refused_ids_fresh st db _ hstore (runTransaction_accepted st _ db3 db1 htxn)
  rw [hbatch] at hfresh
  rw [hd, hmap, List.map_append]
  exact nodup_append_fresh _ _ hold hnew hfresh

theorem AddMachineInsideMachine_fresh (st : State) (t : MachineTemplate) (p ct : String)
    (db db1 : DB) (m : Machine) (hstore : st.refusesTakenIds db)
    (h : st.AddMachineInsideMachine t p ct db = (Except.ok m, db1))
    (hold : ((docsBuilt db.log).map (fun d => d.Id)).Nodup) :
    ((docsBuilt db1.log).map (fun d => d.Id)).Nodup := by
  have hd := AddMachineInsideMachine_docsBuilt st t p ct db db1 m h
  obtain ⟨mdoc, ops, db2, hb, ha⟩ := AddMachineInsideMachine_ok st t p ct db db1 m h
  obtain ⟨hm, _, htxn⟩ := addMachine_ok st mdoc ops db2 db1 m ha
  subst hm
  obtain ⟨_, _, _, _, _, _, _, _, _, _, ho⟩ :=
    addMachineInsideMachineOps_ok st t p ct db db2 mdoc ops hb
  have hbatch : machineDocsOf (assertAliveOp :: ops) = [mdoc] := by
    rw [ho]
    simp [machineDocsOf, assertAliveOp, insertNewMachineOps, createConstraintsOp,
      createStatusOp, addChildToContainerRefOp, insertNewContainerRefOp]
  have hfresh := refused_ids_fresh st db _ hstore (runTransaction_accepted st _ _ db1 htxn)
  rw [hbatch] at hfresh
  rw [hd, List.map_append]
  exact nodup_append_fresh _ _ hold (by simp) hfresh

theorem AddMachineInsideNewMachine_fresh (st : State) (t pt : MachineTemplate) (ct : String)
    (db db1 : DB) (m : Machine) (hstore : st.refusesTakenIds db)
    (h : st.AddMachineInsideNewMachine t pt ct db = (Except.ok m, db1))
    (hold : ((docsBuilt db.log).map (fun d => d.Id)).Nodup) :
    ((docsBuilt db1.log).map (fun d => d.Id)).Nodup := by
  obtain ⟨ops, db2, hb, hd, _⟩ := AddMachineInsideNewMachine_docsBuilt st t pt ct db db1 m h
  obtain ⟨mdoc, ops1, db3, hb1, ha⟩ := AddMachineInsideNewMachine_ok st t pt ct db db1 m h
  rw [hb] at hb1
  simp only [Prod.mk.injEq, Except.ok.injEq] at hb1
  obtain ⟨⟨hm, ho⟩, hdb⟩ := hb1
  subst hm; subst ho; subst hdb
  obtain ⟨_, _, htxn⟩ := addMachine_ok st m.doc ops db2 db1 m ha
  obtain ⟨_, _, _, dbs, peff, dbp, newId, dbn, eff, _, _, _, hn, _, hmd, hops⟩ :=
    addMachineInsideNewMachineOps_ok st t pt ct db db2 m.doc ops hb
  obtain ⟨_, hid⟩ := newContainerId_ok st _ ct dbp dbn newId hn
  have hids : (machineDocsOf ops).map (fun d => d.Id) =
      [Itoa (db.sequences "machine"), newId] := by
    rw [hops, hmd]
    simp [machineDocsOf, insertNewMachineOps, createConstraintsOp, createStatusOp,
      insertNewContainerRefOp, machineDocForTemplate]
  have hnew : ((machineDocsOf ops).map (fun d => d.Id)).Nodup := by
    rw [hids, hid]
    simp only [List.nodup_cons, List.mem_singleton, List.not_mem_nil, not_false_eq_true,
      List.nodup_nil, and_true]
    exact rootId_ne_containerId _ _ _ _
  have hbatch : machineDocsOf (assertAliveOp :: ops) = machineDocsOf ops := by
    simp [machineDocsOf, assertAliveOp]
  have hfresh := refused_ids_fresh st db _ hstore (runTransaction_accepted st _ _ db1 htxn)
  rw [hbatch] at hfresh
  rw [hd, List.map_append]
  exact nodup_append_fresh _ _ hold hnew hfresh

theorem commits_nodup (db0 db : DB) (h : Commits db0 db) (h0 : docsBuilt db0.log = []) :
    ((docsBuilt db.log).map (fun d => d.Id)).Nodup := by
  induction h with
  | start =>
    rw [h0]
    simp
  | addMachines st templates db db1 ms _ hstore hcall ih =>
    exact AddMachines_fresh st templates db db1 ms hstore hcall ih
  | insideMachine st t p ct db db1 m _ hstore hcall ih =>
    exact AddMachineInsideMachine_fresh st t p ct db db1 m hstore hcall ih
  | insideNewMachine st t pt ct db db1 m _ hstore hcall ih =>
    exact AddMachineInsideNewMachine_fresh st t pt ct db db1 m hstore hcall ih

theorem guarding_refuses (taken : List String) (db : DB)
    (h : ∀ x ∈ (docsBuilt db.log).map (fun d => d.Id), x ∈ taken) :
    (guarding taken).refusesTakenIds db := by
  intro ops hex
  obtain ⟨d, hd, hid⟩ := hex
  have hany : (machineDocsOf ops).any (fun d => taken.contains d.Id) = true := by
    rw [List.any_eq_true]
    exact ⟨d, hd, by simpa using h _ hid⟩
  show (if (machineDocsOf ops).any (fun d => taken.contains d.Id) then some ErrAborted
    else none) ≠ none
  rw [hany]
  simp

/-- C23: in every store reached by successful `AddMachines`, `AddMachineInsideMachine`
and `AddMachineInsideNewMachine` calls (any parent ids, any container types, any
collaborators), from a store in which no machine document was built yet, the ids of
the machine documents of all submitted batches are pairwise distinct.  For every
container type this holds on stores that enforce the document-missing assertion of
the machine inserts; for container types that hold no "/" it holds whatever the store
does, by the sequence numbers alone.  The documents counted are those of the calls: a
successful `AddMachines` adds the documents of the machines it returns, a successful
`AddMachineInsideMachine` the document of its machine, a successful
`AddMachineInsideNewMachine` the parent's document and the document of its machine.
Two successive successful container additions under the same parent and container
type (any type, any store) receive the ids `<parent>/<type>/<n>` and
`<parent>/<type>/<n1>` with `n < n1`. -/
theorem C23_ids_not_reused :
    (∀ db0 db, Commits db0 db → docsBuilt db0.log = [] →
      ((docsBuilt db.log).map (fun d => d.Id)).Nodup) ∧
    (∀ db0 db, Adds db0 db → docsBuilt db0.log = [] →
      ((docsBuilt db.log).map (fun d => d.Id)).Nodup) ∧
    (∀ (st : State) (templates : List MachineTemplate) (db db1 : DB) (ms : List Machine),
      st.AddMachines templates db = (Except.ok ms, db1) →
      docsBuilt db1.log = docsBuilt db.log ++ ms.map (fun m => m.doc)) ∧
    (∀ (st : State) (t : MachineTemplate) (p ct : String) (db db1 : DB) (m : Machine),
      st.AddMachineInsideMachine t p ct db = (Except.ok m, db1) →
      docsBuilt db1.log = docsBuilt db.log ++ [m.doc]) ∧
    (∀ (st : State) (t pt : MachineTemplate) (ct : String) (db db1 : DB) (m : Machine),
      st.AddMachineInsideNewMachine t pt ct db = (Except.ok m, db1) →
      ∃ parentDoc, docsBuilt db1.log = docsBuilt db.log ++ [parentDoc, m.doc]) ∧
    (∀ (st st1 : State) (t t1 : MachineTemplate) (p ct : String) (db db1 db2 : DB)
        (m m1 : Machine),
      st.AddMachineInsideMachine t p ct db = (Except.ok m, db1) →
      st1.AddMachineInsideMachine t1 p ct db1 = (Except.ok m1, db2) →
      ∃ n n1, n < n1 ∧ m.doc.Id = p ++ "/" ++ ct ++ "/" ++ Itoa n ∧
        m1.doc.Id = p ++ "/" ++ ct ++ "/" ++ Itoa n1) := by
  refine ⟨?_, ?_, ?_, ?_, ?_, ?_⟩
  · intro db0 db h h0
    exact commits_nodup db0 db h h0
  · intro db0 db h h0
    exact (adds_issued db0 db h h0).1
  · intro st templates db db1 ms h
    exact AddMachines_docsBuilt st templates db db1 ms h
  · intro st t p ct db db1 m h
    exact AddMachineInsideMachine_docsBuilt st t p ct db db1 m h
  · intro st t pt ct db db1 m h
    obtain ⟨ops, db2, _, hd, parentDoc, hdocs⟩ :=
      AddMachineInsideNewMachine_docsBuilt st t pt ct db db1 m h
    exact ⟨parentDoc, by rw [hd, hdocs]⟩
  · intro st st1 t t1 p ct db db1 db2 m m1 h h1
    obtain ⟨hid, hq⟩ := AddMachineInsideMachine_id st t p ct db db1 m h
    obtain ⟨hid1, _⟩ := AddMachineInsideMachine_id st1 t1 p ct db1 db2 m1 h1
    rw [hq] at hid1
    exact ⟨_, _, Nat.lt_succ_self _, hid, hid1⟩

/-- C23 at a concrete run from the empty store, on stores that refuse the ids already
taken: a root machine, a container of the type "lxc/1/kvm" on it and a container of
the type "lxc" on it. -/
theorem C23_ids_not_reused_witness :
    ((docsBuilt
      ((guarding ["0", "0/lxc/1/kvm/0"]).AddMachineInsideMachine hostTemplate "0" "lxc"
        ((guarding ["0"]).AddMachineInsideMachine hostTemplate "0" "lxc/1/kvm"
          ((guarding []).AddMachines [hostTemplate] DB.empty).2).2).2.log).map
      (fun d => d.Id)).Nodup :=
  C23_ids_not_reused.1 DB.empty _
    (Commits.insideMachine (guarding ["0", "0/lxc/1/kvm/0"]) hostTemplate "0" "lxc" _ _
      { doc := { machineDocForTemplate hostTemplate "0/lxc/0" with ContainerType := "lxc" } }
      (Commits.insideMachine (guarding ["0"]) hostTemplate "0" "lxc/1/kvm" _ _
        { doc := { machineDocForTemplate hostTemplate "0/lxc/1/kvm/0" with
                   ContainerType := "lxc/1/kvm" } }
        (Commits.addMachines (guarding []) [hostTemplate] DB.empty _
          [{ doc := machineDocForTemplate hostTemplate "0" }] Commits.start
          (guarding_refuses [] DB.empty (by decide)) rfl)
        (guarding_refuses ["0"] _ (by decide)) rfl)
      (guarding_refuses ["0", "0/lxc/1/kvm/0"] _ (by decide)) rfl)
    rfl

/-- The ids of the documents of a run on stores that accept every batch: a root
machine, two lxc containers on it, and a kvm container inside a new machine. -/
theorem added_ids_example :
    (docsBuilt
      (healthy.AddMachineInsideNewMachine hostTemplate hostTemplate "kvm"
        (anyHost.AddMachineInsideMachine hostTemplate "0" "lxc"
          (anyHost.AddMachineInsideMachine hostTemplate "0" "lxc"
            (healthy.AddMachines [hostTemplate] DB.empty).2).2).2).2.log).map
      (fun d => d.Id) = ["0", "0/lxc/0", "0/lxc/1", "1", "1/kvm/0"] := by
  decide

/-- For container types that hold a "/" the sequence numbers alone do not keep the
ids apart: `addMachineInsideMachineOps` for the parent "0" and the container type
"lxc/1/kvm", and then for the parent "0/lxc/1" and the container type "kvm", both
build a machine document with the id "0/lxc/1/kvm/0", from the number 0 of two
different sequences.  Both batches assert that this document is missing. -/
theorem shared_id_example :
    ∃ d1 ops1 db1 d2 ops2 db2,
      anyHost.addMachineInsideMachineOps hostTemplate "0" "lxc/1/kvm" DB.empty =
        (Except.ok (d1, ops1), db1) ∧
      anyHost.addMachineInsideMachineOps hostTemplate "0/lxc/1" "kvm" db1 =
        (Except.ok (d2, ops2), db2) ∧
      d1.Id = "0/lxc/1/kvm/0" ∧ d2.Id = "0/lxc/1/kvm/0" ∧
      machineInsertOp d1 ∈ ops1 ∧ machineInsertOp d2 ∈ ops2 ∧
      (machineInsertOp d2).Assert = Assertion.DocMissing ∧
      allocsOf db2.log =
        [("machine0lxc/1/kvmContainer", 0), ("machine0/lxc/1kvmContainer", 0)] :=
  ⟨_, _, _, _, _, _, rfl, rfl, rfl, rfl, List.mem_cons_self _ _, List.mem_cons_self _ _,
    rfl, rfl⟩

/-- On a store that refuses the ids already taken, the second of these two requests
does not succeed: its transaction is aborted and the call returns that error. -/
theorem shared_id_refused_example :
    (∃ m db1, (guarding []).AddMachineInsideMachine hostTemplate "0" "lxc/1/kvm" DB.empty =
        (Except.ok m, db1) ∧ m.doc.Id = "0/lxc/1/kvm/0") ∧
    ((guarding ["0/lxc/1/kvm/0"]).AddMachineInsideMachine hostTemplate "0/lxc/1" "kvm"
      ((guarding []).AddMachineInsideMachine hostTemplate "0" "lxc/1/kvm"
        DB.empty).2).1 = Except.error ErrAborted :=
  ⟨⟨_, _, rfl, rfl⟩, rfl⟩

end Juju
